import Mathlib

/-!
# TripleTree: a ternary spatial partition tree over a raster image

A shallow embedding of `tripletree.h` / `tripletree.cpp`.

* A `Node*` is modelled by the inductive type `Node`: the constructor `Node.null` is the
  null pointer, `Node.node` is a pointer to a heap node that owns its three child slots.
* `unsigned int` coordinates and sizes are natural numbers.  The additions in `BuildNode` and
  `renderHelper` stay below the image width and height, so they are exact; `MoveToRight` and
  `MoveToLeft` update a coordinate modulo `2 ^ 32`, as the source does.
* The `int` arithmetic of `FindAverage` and of `leaves` is carried out in `Int` and wrapped to
  32 bits after every operation.
* The alpha channel is a `double` in the source and a `Float` here.
-/

namespace TripleTreeImage

/-! ## Collaborators: pixels and images -/

/-- Modelled from the spec: the class `cs221util::RGBAPixel` is not part of the sources.  It has
three 8-bit colour channels `r`, `g`, `b` (values in `[0, 255]`) and a real channel `a`. -/
structure RGBAPixel where
  r : Nat
  g : Nat
  b : Nat
  a : Float

instance : Inhabited RGBAPixel := ⟨⟨0, 0, 0, 0⟩⟩

/-- Modelled from the spec: the class `cs221util::PNG` is not part of the sources.  An image has a
width, a height and a colour at every coordinate; only the coordinates `x < width`, `y < height`
belong to the image. -/
structure PNG where
  width : Nat
  height : Nat
  pixel : Nat → Nat → RGBAPixel

/-- Modelled from the spec: `PNG(w, h)`, a blank canvas; `dflt` is the colour of a
default-constructed pixel. -/
def PNG.blank (dflt : RGBAPixel) (w h : Nat) : PNG := ⟨w, h, fun _ _ => dflt⟩

/-- Modelled from the spec: reading `*im.getPixel(x, y)`. -/
def PNG.getPixel (im : PNG) (x y : Nat) : RGBAPixel := im.pixel x y

/-- Modelled from the spec: the assignment `*img.getPixel(x, y) = c`. -/
def PNG.setPixel (im : PNG) (x y : Nat) (c : RGBAPixel) : PNG :=
  ⟨im.width, im.height, fun x' y' => if x' = x ∧ y' = y then c else im.pixel x' y'⟩

/-! ## Nodes -/

/-- A value of type `Node*`: either `nullptr` or a node with its rectangle, its average colour and
its three child slots `A`, `B`, `C`. -/
inductive Node where
  | null : Node
  | node (upperleft : Nat × Nat) (width height : Nat) (avg : RGBAPixel) (A B C : Node) : Node

namespace Node

/-- The test `p == nullptr`. -/
def isNull : Node → Bool
  | null => true
  | node _ _ _ _ _ _ _ => false

/-- The field `p->upperleft` (reading through a null pointer is undefined; the model gives
`(0, 0)`). -/
def upperleft : Node → Nat × Nat
  | null => (0, 0)
  | node ul _ _ _ _ _ _ => ul

/-- The field `p->width` (the model gives `0` at a null pointer). -/
def width : Node → Nat
  | null => 0
  | node _ w _ _ _ _ _ => w

/-- The field `p->height` (the model gives `0` at a null pointer). -/
def height : Node → Nat
  | null => 0
  | node _ _ h _ _ _ _ => h

/-- The field `p->avg` (the model gives the all-zero pixel at a null pointer). -/
def avg : Node → RGBAPixel
  | null => default
  | node _ _ _ c _ _ _ => c

/-- The field `p->A`. -/
def A : Node → Node
  | null => null
  | node _ _ _ _ a _ _ => a

/-- The field `p->B`. -/
def B : Node → Node
  | null => null
  | node _ _ _ _ _ b _ => b

/-- The field `p->C`. -/
def C : Node → Node
  | null => null
  | node _ _ _ _ _ _ c => c

/-- The test `p->A == nullptr && p->B == nullptr && p->C == nullptr` on a non-null `p`. -/
def isLeaf : Node → Bool
  | null => false
  | node _ _ _ _ a b c => a.isNull && b.isNull && c.isNull

end Node

/-! ## Colour blend -/

/-- Conversion of an integer to a 32-bit `int` (two-complement wrap-around).  Signed overflow is
undefined in the source language; the model takes the wrap-around of the usual targets. -/
def toInt32 (z : Int) : Int := (z + 2147483648) % 4294967296 - 2147483648

/-- The value of `int n_pixels = n->width * n->height;`: an `unsigned int` product converted to
`int`. -/
def pixels (n : Node) : Int := toInt32 (((n.width * n.height) % 4294967296 : Nat) : Int)

/-- The clamp `if (v < 0) 0 else if (v > 255) 255 else v` stored into an 8-bit channel. -/
def clampChannel (v : Int) : Nat := if v < 0 then 0 else if v > 255 then 255 else v.toNat

/-- The clamp `if (v < 0) 0 else if (v > 1) 1 else v` of the alpha channel. -/
def clampAlpha (v : Float) : Float := if v < 0 then 0 else if v > 1 then 1 else v

/-- The `int` expression `(pa * ca + pb * cb + pc * cc) / total` of the 3-way blend, for one
colour channel. -/
def blend3 (pa pb pc total : Int) (ca cb cc : Nat) : Int :=
  Int.tdiv (toInt32 (toInt32 (toInt32 (pa * ca) + toInt32 (pb * cb)) + toInt32 (pc * cc))) total

/-- The `int` expression `(pa * ca + pc * cc) / total` of the 2-way blend, for one colour
channel. -/
def blend2 (pa pc total : Int) (ca cc : Nat) : Int :=
  Int.tdiv (toInt32 (toInt32 (pa * ca) + toInt32 (pc * cc))) total

/-- The 3-way `FindAverage(Node *a, Node *b, Node *c)`. -/
def FindAverage3 (a b c : Node) : RGBAPixel :=
  let a_pixels := pixels a
  let b_pixels := pixels b
  let c_pixels := pixels c
  let total_pixels := toInt32 (toInt32 (a_pixels + b_pixels) + c_pixels)
  let avg_a : Float :=
    (Float.ofInt a_pixels * a.avg.a + Float.ofInt b_pixels * b.avg.a
      + Float.ofInt c_pixels * c.avg.a) / Float.ofInt total_pixels
  let avg_r := blend3 a_pixels b_pixels c_pixels total_pixels a.avg.r b.avg.r c.avg.r
  let avg_g := blend3 a_pixels b_pixels c_pixels total_pixels a.avg.g b.avg.g c.avg.g
  let avg_b := blend3 a_pixels b_pixels c_pixels total_pixels a.avg.b b.avg.b c.avg.b
  ⟨clampChannel avg_r, clampChannel avg_g, clampChannel avg_b, clampAlpha avg_a⟩

/-- The 2-way `FindAverage(Node *a, Node *c)`. -/
def FindAverage2 (a c : Node) : RGBAPixel :=
  let a_pixels := pixels a
  let c_pixels := pixels c
  let total_pixels := toInt32 (a_pixels + c_pixels)
  let avg_a : Float :=
    (Float.ofInt a_pixels * a.avg.a + Float.ofInt c_pixels * c.avg.a) / Float.ofInt total_pixels
  let avg_r := blend2 a_pixels c_pixels total_pixels a.avg.r c.avg.r
  let avg_g := blend2 a_pixels c_pixels total_pixels a.avg.g c.avg.g
  let avg_b := blend2 a_pixels c_pixels total_pixels a.avg.b c.avg.b
  ⟨clampChannel avg_r, clampChannel avg_g, clampChannel avg_b, clampAlpha avg_a⟩

/-! ## Builder -/

/-- The recursive `BuildNode(im, ul, w, h)`.  The first argument bounds the recursion depth:
`none` means that the bound was reached before the recursion ended (the source recursion does not
end when `w = 0` or `h = 0`).  `dflt` is the default-constructed pixel that `new Node(...)` stores
in `avg` before it is overwritten. -/
def BuildNode (dflt : RGBAPixel) (im : PNG) : Nat → Nat × Nat → Nat → Nat → Option Node
  | 0, _, _, _ => none
  | fuel + 1, ul, w, h =>
    if w = 1 ∧ h = 1 then
      some (Node.node (ul.1, ul.2) w h (im.getPixel ul.1 ul.2) Node.null Node.null Node.null)
    else if w ≥ h then
      if w = 2 then do
        let a ← BuildNode dflt im fuel (ul.1, ul.2) (w / 2) h
        let c ← BuildNode dflt im fuel (ul.1 + 1, ul.2) (w / 2) h
        some (Node.node (ul.1, ul.2) w h (FindAverage2 a c) a Node.null c)
      else
        match w % 3 with
        | 0 => do
          let a ← BuildNode dflt im fuel ul (w / 3) h
          let b ← BuildNode dflt im fuel (ul.1 + w / 3, ul.2) (w / 3) h
          let c ← BuildNode dflt im fuel (ul.1 + 2 * (w / 3), ul.2) (w / 3) h
          some (Node.node (ul.1, ul.2) w h (FindAverage3 a b c) a b c)
        | 1 => do
          let a ← BuildNode dflt im fuel ul (w / 3) h
          let b ← BuildNode dflt im fuel (ul.1 + w / 3, ul.2) (w / 3 + 1) h
          let c ← BuildNode dflt im fuel (ul.1 + 2 * (w / 3) + 1, ul.2) (w / 3) h
          some (Node.node (ul.1, ul.2) w h (FindAverage3 a b c) a b c)
        | 2 => do
          let a ← BuildNode dflt im fuel ul (w / 3 + 1) h
          let b ← BuildNode dflt im fuel (ul.1 + w / 3 + 1, ul.2) (w / 3) h
          let c ← BuildNode dflt im fuel (ul.1 + 2 * (w / 3) + 1, ul.2) (w / 3 + 1) h
          some (Node.node (ul.1, ul.2) w h (FindAverage3 a b c) a b c)
        | _ => some (Node.node (ul.1, ul.2) w h dflt Node.null Node.null Node.null)
    else
      if h = 2 then do
        let a ← BuildNode dflt im fuel (ul.1, ul.2) w (h / 2)
        let c ← BuildNode dflt im fuel (ul.1, ul.2 + 1) w (h / 2)
        some (Node.node (ul.1, ul.2) w h (FindAverage2 a c) a Node.null c)
      else
        match h % 3 with
        | 0 => do
          let a ← BuildNode dflt im fuel ul w (h / 3)
          let b ← BuildNode dflt im fuel (ul.1, ul.2 + h / 3) w (h / 3)
          let c ← BuildNode dflt im fuel (ul.1, ul.2 + 2 * (h / 3)) w (h / 3)
          some (Node.node (ul.1, ul.2) w h (FindAverage3 a b c) a b c)
        | 1 => do
          let a ← BuildNode dflt im fuel ul w (h / 3)
          let b ← BuildNode dflt im fuel (ul.1, ul.2 + h / 3) w (h / 3 + 1)
          let c ← BuildNode dflt im fuel (ul.1, ul.2 + 2 * (h / 3) + 1) w (h / 3)
          some (Node.node (ul.1, ul.2) w h (FindAverage3 a b c) a b c)
        | 2 => do
          let a ← BuildNode dflt im fuel ul w (h / 3 + 1)
          let b ← BuildNode dflt im fuel (ul.1, ul.2 + h / 3 + 1) w (h / 3)
          let c ← BuildNode dflt im fuel (ul.1, ul.2 + 2 * (h / 3) + 1) w (h / 3 + 1)
          some (Node.node (ul.1, ul.2) w h (FindAverage3 a b c) a b c)
        | _ => some (Node.node (ul.1, ul.2) w h dflt Node.null Node.null Node.null)

/-- The constructor `TripleTree(PNG& imIn)`: the root built over the whole image.  The recursion
bound `width + height` is never reached when both dimensions are at least 1. -/
def TripleTree (dflt : RGBAPixel) (im : PNG) : Option Node :=
  BuildNode dflt im (im.width + im.height) (0, 0) im.width im.height

/-! ## Leaf counter and renderer -/

/-- The recursive `int leaves(subRoot)`: the sums are `int` additions, wrapped to 32 bits like
the arithmetic of `FindAverage` (a sum of three is two additions, from left to right).  The
source reads through `subRoot`; the model gives `0` at a null pointer. -/
def leaves : Node → Int
  | Node.null => 0
  | Node.node _ _ _ _ a b c =>
    if a.isNull && b.isNull && c.isNull then 1
    else if b.isNull then toInt32 (leaves a + leaves c)
    else toInt32 (toInt32 (leaves a + leaves b) + leaves c)

/-- The method `int NumLeaves()`. -/
def NumLeaves (root : Node) : Int := leaves root

/-- The two nested loops of `renderHelper` at a leaf: every pixel of the rectangle is assigned
`avg`, row by row. -/
def paintRect (img : PNG) (ul : Nat × Nat) (w h : Nat) (avg : RGBAPixel) : PNG :=
  (List.range h).foldl
    (fun im y => (List.range w).foldl (fun im x => im.setPixel (ul.1 + x) (ul.2 + y) avg) im) img

/-- The recursive `renderHelper(img, subRoot)`, returning the canvas it has written.  The source
reads through `subRoot`; the model leaves the canvas unchanged at a null pointer. -/
def renderHelper (img : PNG) : Node → PNG
  | Node.null => img
  | Node.node ul w h avg a b c =>
    if a.isNull && b.isNull && c.isNull then paintRect img ul w h avg
    else
      let img1 := renderHelper img a
      let img2 := if b.isNull then img1 else renderHelper img1 b
      renderHelper img2 c

/-- The method `Render()`: a blank canvas of the root size, painted by `renderHelper`. -/
def Render (dflt : RGBAPixel) (root : Node) : PNG :=
  renderHelper (PNG.blank dflt root.width root.height) root

/-! ## Pruner -/

/-- The recursive `ShouldPrune(subRoot, avg, tol)`.  The colour distance `distanceTo` belongs to
the pixel class and is a parameter `dist` with values in a linear order `D`; the test
`subRoot->avg.distanceTo(avg) <= tol` is `dist subRoot.avg avg ≤ tol`.  The source reads through
`subRoot`; the model gives `true` at a null pointer. -/
def ShouldPrune {D : Type} [LinearOrder D] (dist : RGBAPixel → RGBAPixel → D) :
    Node → RGBAPixel → D → Bool
  | Node.null, _, _ => true
  | Node.node _ _ _ p a b c, avg, tol =>
    if a.isNull && b.isNull && c.isNull then
      if dist p avg ≤ tol then true else false
    else
      if !b.isNull then
        ShouldPrune dist a avg tol && ShouldPrune dist b avg tol && ShouldPrune dist c avg tol
      else
        ShouldPrune dist a avg tol && ShouldPrune dist c avg tol

/-- The recursive `PruneHelper(subRoot, tol)`.  The calls of `clearHelper` on the children release
their nodes; what remains of them in the tree is the null pointer stored in each slot. -/
def PruneHelper {D : Type} [LinearOrder D] (dist : RGBAPixel → RGBAPixel → D) :
    Node → D → Node
  | Node.null, _ => Node.null
  | Node.node ul w h p a b c, tol =>
    if a.isNull && b.isNull && c.isNull then Node.node ul w h p a b c
    else if ShouldPrune dist (Node.node ul w h p a b c) p tol then
      Node.node ul w h p Node.null Node.null Node.null
    else
      Node.node ul w h p (PruneHelper dist a tol)
        (if !b.isNull then PruneHelper dist b tol else b) (PruneHelper dist c tol)

/-- The method `Prune(tol)`. -/
def Prune {D : Type} [LinearOrder D] (dist : RGBAPixel → RGBAPixel → D) (root : Node)
    (tol : D) : Node :=
  PruneHelper dist root tol

/-! ## Mirror and rotation -/

/-- The recursive `MoveToRight(subRoot, x)`: `upperleft.first += x` on `unsigned int`, at the node
and at every descendant. -/
def MoveToRight (x : Nat) : Node → Node
  | Node.null => Node.null
  | Node.node ul w h p a b c =>
    if a.isNull && b.isNull && c.isNull then
      Node.node ((ul.1 + x) % 4294967296, ul.2) w h p a b c
    else
      Node.node ((ul.1 + x) % 4294967296, ul.2) w h p
        (MoveToRight x a) (MoveToRight x b) (MoveToRight x c)

/-- The recursive `MoveToLeft(subRoot, x)`: `upperleft.first += -x` on `unsigned int`, that is,
the addition of `(2 ^ 32 - x) mod 2 ^ 32` modulo `2 ^ 32`, at the node and at every descendant
(`x` is an `unsigned int`, hence below `2 ^ 32`). -/
def MoveToLeft (x : Nat) : Node → Node
  | Node.null => Node.null
  | Node.node ul w h p a b c =>
    if a.isNull && b.isNull && c.isNull then
      Node.node ((ul.1 + (4294967296 - x) % 4294967296) % 4294967296, ul.2) w h p a b c
    else
      Node.node ((ul.1 + (4294967296 - x) % 4294967296) % 4294967296, ul.2) w h p
        (MoveToLeft x a) (MoveToLeft x b) (MoveToLeft x c)

/-- The value of `abs((double) p - q)` stored into an `unsigned int`: both operands are 32-bit
values, which a `double` holds exactly, so the difference, its absolute value and the conversion
back are exact and the result is the distance of `p` and `q`. -/
def absDiff (p q : Nat) : Nat := if p ≥ q then p - q else q - p

/-- The recursive `FlipHorizontalHelper(subRoot)`. -/
def FlipHorizontalHelper : Node → Node
  | Node.null => Node.null
  | Node.node ul w h p a b c =>
    if a.isNull && b.isNull && c.isNull then Node.node ul w h p a b c
    else if h > w then
      Node.node ul w h p (FlipHorizontalHelper a) (FlipHorizontalHelper b) (FlipHorizontalHelper c)
    else
      let a1 := FlipHorizontalHelper a
      let b1 := FlipHorizontalHelper b
      let c1 := FlipHorizontalHelper c
      let difference := absDiff a1.upperleft.1 c1.upperleft.1
      if a1.upperleft.1 > c1.upperleft.1 then
        Node.node ul w h p (MoveToRight difference c1) b1 (MoveToLeft difference a1)
      else
        Node.node ul w h p (MoveToLeft difference c1) b1 (MoveToRight difference a1)

/-- The function `FlipHorizontalHelperRotate(subRoot)`: the children are mirrored by
`FlipHorizontalHelper`, the slots `A` and `C` are moved and not exchanged. -/
def FlipHorizontalHelperRotate : Node → Node
  | Node.null => Node.null
  | Node.node ul w h p a b c =>
    if a.isNull && b.isNull && c.isNull then Node.node ul w h p a b c
    else if h > w then
      Node.node ul w h p (FlipHorizontalHelper a) (FlipHorizontalHelper b) (FlipHorizontalHelper c)
    else
      let a1 := FlipHorizontalHelper a
      let b1 := FlipHorizontalHelper b
      let c1 := FlipHorizontalHelper c
      let difference := absDiff a1.upperleft.1 c1.upperleft.1
      if a1.upperleft.1 > c1.upperleft.1 then
        Node.node ul w h p (MoveToLeft difference a1) b1 (MoveToRight difference c1)
      else
        Node.node ul w h p (MoveToRight difference a1) b1 (MoveToLeft difference c1)

/-- The recursive `RotateCCWHelper(subRoot)`: every node is transposed, and a node that is at
least as wide as high before the transposition has its slots `A` and `C` exchanged after the
recursive calls. -/
def RotateCCWHelper : Node → Node
  | Node.null => Node.null
  | Node.node ul w h p a b c =>
    if a.isNull && b.isNull && c.isNull then Node.node (ul.2, ul.1) h w p a b c
    else if w ≥ h then
      Node.node (ul.2, ul.1) h w p (RotateCCWHelper c) (RotateCCWHelper b) (RotateCCWHelper a)
    else
      Node.node (ul.2, ul.1) h w p (RotateCCWHelper a) (RotateCCWHelper b) (RotateCCWHelper c)

/-- The method `FlipHorizontal()`. -/
def FlipHorizontal (root : Node) : Node := FlipHorizontalHelper root

/-- The method `RotateCCW()`. -/
def RotateCCW (root : Node) : Node := RotateCCWHelper (FlipHorizontalHelperRotate root)

/-! ## Tree lifecycle -/

/-- The recursive `CopyHelper(other)`: a new node with the origin, the size and the average of
`other`, and a copy of each child that is present (the constructor leaves the slots null).  The
source reads through `other`; the model gives the null pointer at a null pointer. -/
def CopyHelper : Node → Node
  | Node.null => Node.null
  | Node.node ul w h p a b c =>
    Node.node (ul.1, ul.2) w h p
      (if !a.isNull then CopyHelper a else Node.null)
      (if !b.isNull then CopyHelper b else Node.null)
      (if !c.isNull then CopyHelper c else Node.null)

/-- The method `Copy(other)`: the new root. -/
def Copy (other : Node) : Node := CopyHelper other

/-! ## Instrumented traversals

The same recursions as `renderHelper`, `FlipHorizontalHelper` and `FlipHorizontalHelperRotate`,
returning the trace of what they do instead of the result. -/

/-- The assignments `*img.getPixel(x0 + x, y) = p` of the inner loop of `renderHelper`, for
`x = 0, ..., w - 1` in this order. -/
def rowWrites (x0 y : Nat) (p : RGBAPixel) : Nat → List (Nat × Nat × RGBAPixel)
  | 0 => []
  | w + 1 => rowWrites x0 y p w ++ [(x0 + w, y, p)]

/-- The assignments of the two nested loops of `renderHelper` at a leaf of origin `ul`, width `w`
and height `h`: row after row. -/
def rectWrites (ul : Nat × Nat) (w : Nat) (p : RGBAPixel) : Nat → List (Nat × Nat × RGBAPixel)
  | 0 => []
  | h + 1 => rectWrites ul w p h ++ rowWrites ul.1 (ul.2 + h) p w

/-- The sequence of the assignments to the canvas that `renderHelper(img, subRoot)` performs: the
coordinates and the colour of each. -/
def renderWrites : Node → List (Nat × Nat × RGBAPixel)
  | Node.null => []
  | Node.node ul w h p a b c =>
    if a.isNull && b.isNull && c.isNull then rectWrites ul w p h
    else renderWrites a ++ (if b.isNull then [] else renderWrites b) ++ renderWrites c

/-- The calls `MoveToLeft(n, x)` that `FlipHorizontalHelper(subRoot)` makes (the calls that
`MoveToLeft` makes on the descendants of `n` are not listed): the argument `x` and the subtree
`n` at the time of each call. -/
def FlipMoveToLeftCalls : Node → List (Nat × Node)
  | Node.null => []
  | Node.node _ w h _ a b c =>
    if a.isNull && b.isNull && c.isNull then []
    else if h > w then
      FlipMoveToLeftCalls a ++ FlipMoveToLeftCalls b ++ FlipMoveToLeftCalls c
    else
      let a1 := FlipHorizontalHelper a
      let c1 := FlipHorizontalHelper c
      let difference := absDiff a1.upperleft.1 c1.upperleft.1
      FlipMoveToLeftCalls a ++ FlipMoveToLeftCalls b ++ FlipMoveToLeftCalls c
        ++ [if a1.upperleft.1 > c1.upperleft.1 then (difference, a1) else (difference, c1)]

/-- The calls `MoveToLeft(n, x)` that `RotateCCW()` makes: those of
`FlipHorizontalHelperRotate(root)` (`RotateCCWHelper` makes none). -/
def RotateMoveToLeftCalls : Node → List (Nat × Node)
  | Node.null => []
  | Node.node _ w h _ a b c =>
    if a.isNull && b.isNull && c.isNull then []
    else if h > w then
      FlipMoveToLeftCalls a ++ FlipMoveToLeftCalls b ++ FlipMoveToLeftCalls c
    else
      let a1 := FlipHorizontalHelper a
      let c1 := FlipHorizontalHelper c
      let difference := absDiff a1.upperleft.1 c1.upperleft.1
      FlipMoveToLeftCalls a ++ FlipMoveToLeftCalls b ++ FlipMoveToLeftCalls c
        ++ [if a1.upperleft.1 > c1.upperleft.1 then (difference, a1) else (difference, c1)]

/-! ## Auxiliary definitions for the statements and proofs -/

/-- The sizes of the three segments that `BuildNode` gives to `A`, `B`, `C` when it splits a
dimension `d` into three: the three cases of `switch (d % 3)`. -/
def split3 (d : Nat) : Nat × Nat × Nat :=
  match d % 3 with
  | 0 => (d / 3, d / 3, d / 3)
  | 1 => (d / 3, d / 3 + 1, d / 3)
  | _ => (d / 3 + 1, d / 3, d / 3 + 1)

/-- The recursion tree of `BuildNode`: `Built im ul w h t` holds when `t` is the node built over
the rectangle of origin `ul`, width `w` and height `h`.  One constructor for the base case, and
for each axis one for the 2-way and one for the 3-way split. -/
inductive Built (im : PNG) : Nat × Nat → Nat → Nat → Node → Prop
  | leaf (x y : Nat) :
      Built im (x, y) 1 1 (Node.node (x, y) 1 1 (im.getPixel x y) Node.null Node.null Node.null)
  | wide2 (x y h : Nat) (a c : Node) (hh : h ≤ 2) (ha : Built im (x, y) 1 h a)
      (hc : Built im (x + 1, y) 1 h c) :
      Built im (x, y) 2 h (Node.node (x, y) 2 h (FindAverage2 a c) a Node.null c)
  | wide3 (x y w h sa sb : Nat) (a b c : Node) (hw : 3 ≤ w) (hh : h ≤ w)
      (hs : split3 w = (sa, sb, sa))
      (ha : Built im (x, y) sa h a) (hb : Built im (x + sa, y) sb h b)
      (hc : Built im (x + sa + sb, y) sa h c) :
      Built im (x, y) w h (Node.node (x, y) w h (FindAverage3 a b c) a b c)
  | tall2 (x y w : Nat) (a c : Node) (hw : w < 2) (ha : Built im (x, y) w 1 a)
      (hc : Built im (x, y + 1) w 1 c) :
      Built im (x, y) w 2 (Node.node (x, y) w 2 (FindAverage2 a c) a Node.null c)
  | tall3 (x y w h sa sb : Nat) (a b c : Node) (hh : 3 ≤ h) (hw : w < h)
      (hs : split3 h = (sa, sb, sa))
      (ha : Built im (x, y) w sa a) (hb : Built im (x, y + sa) w sb b)
      (hc : Built im (x, y + sa + sb) w sa c) :
      Built im (x, y) w h (Node.node (x, y) w h (FindAverage3 a b c) a b c)

/-- The number of pixels of a node rectangle. -/
def area (n : Node) : Nat := n.width * n.height

/-- The colour channels of a pixel are 8-bit values. -/
def RGBAPixel.InRange (p : RGBAPixel) : Prop := p.r ≤ 255 ∧ p.g ≤ 255 ∧ p.b ≤ 255

instance (p : RGBAPixel) : Decidable p.InRange :=
  inferInstanceAs (Decidable (p.r ≤ 255 ∧ p.g ≤ 255 ∧ p.b ≤ 255))

/-- The truncated weighted mean `floor ((pa * ca + pc * cc) / (pa + pc))` of two channel values. -/
def wmean2 (pa ca pc cc : Nat) : Nat := (pa * ca + pc * cc) / (pa + pc)

/-- The truncated weighted mean `floor ((pa * ca + pb * cb + pc * cc) / (pa + pb + pc))` of three
channel values. -/
def wmean3 (pa ca pb cb pc cc : Nat) : Nat := (pa * ca + pb * cb + pc * cc) / (pa + pb + pc)

/-- The divisor `total_pixels` of the 2-way `FindAverage`. -/
def total2 (a c : Node) : Int := toInt32 (pixels a + pixels c)

/-- The divisor `total_pixels` of the 3-way `FindAverage`. -/
def total3 (a b c : Node) : Int := toInt32 (toInt32 (pixels a + pixels b) + pixels c)

/-- The value `avg_r` (resp. `avg_g`, `avg_b`) of the 2-way `FindAverage` before the clamp, for
the channel read by `ch`. -/
def raw2 (ch : RGBAPixel → Nat) (a c : Node) : Int :=
  blend2 (pixels a) (pixels c) (total2 a c) (ch a.avg) (ch c.avg)

/-- The value `avg_r` (resp. `avg_g`, `avg_b`) of the 3-way `FindAverage` before the clamp, for
the channel read by `ch`. -/
def raw3 (ch : RGBAPixel → Nat) (a b c : Node) : Int :=
  blend3 (pixels a) (pixels b) (pixels c) (total3 a b c) (ch a.avg) (ch b.avg) (ch c.avg)

/-- A 1x1 node of colour (0, 0, 0). -/
def blackNode : Node := Node.node (0, 0) 1 1 ⟨0, 0, 0, 1⟩ Node.null Node.null Node.null

/-- A 1x1 node of colour (255, 255, 255). -/
def whiteNode : Node := Node.node (1, 0) 1 1 ⟨255, 255, 255, 1⟩ Node.null Node.null Node.null

/-- A 1x1 node of colour (90, 60, 30). -/
def brownNode : Node := Node.node (2, 0) 1 1 ⟨90, 60, 30, 1⟩ Node.null Node.null Node.null

/-- A default-constructed pixel, for the examples. -/
def examplePixel : RGBAPixel := ⟨255, 255, 255, 1⟩

/-- An image of the given size whose pixel at `(x, y)` has the channels
`(x mod 256, y mod 256, (7 x + 13 y) mod 256)`. -/
def gradientImage (w h : Nat) : PNG :=
  ⟨w, h, fun x y => ⟨x % 256, y % 256, (7 * x + 13 * y) % 256, 1⟩⟩

/-- The pixel `(x, y)` lies in the rectangle of origin `ul`, width `w` and height `h`. -/
def inRect (ul : Nat × Nat) (w h x y : Nat) : Prop :=
  ul.1 ≤ x ∧ x < ul.1 + w ∧ ul.2 ≤ y ∧ y < ul.2 + h

instance (ul : Nat × Nat) (w h x y : Nat) : Decidable (inRect ul w h x y) :=
  inferInstanceAs (Decidable (ul.1 ≤ x ∧ x < ul.1 + w ∧ ul.2 ≤ y ∧ y < ul.2 + h))

/-- The colour that `renderHelper` leaves at `(x, y)`, if it writes there: the colour of the last
leaf in the order `A`, `B`, `C` whose rectangle holds `(x, y)`. -/
def colorAt : Node → Nat → Nat → Option RGBAPixel
  | Node.null, _, _ => none
  | Node.node ul w h p a b c, x, y =>
    if a.isNull && b.isNull && c.isNull then
      if inRect ul w h x y then some p else none
    else
      (colorAt c x y).orElse fun _ =>
        (if b.isNull then none else colorAt b x y).orElse fun _ => colorAt a x y

/-- The three child slots of a node. -/
inductive Slot where
  | A : Slot
  | B : Slot
  | C : Slot

/-- The child stored in a slot. -/
def Node.child (n : Node) : Slot → Node
  | Slot.A => n.A
  | Slot.B => n.B
  | Slot.C => n.C

/-- The node reached from `n` by following a path of slots (`Node.null` when the path leaves the
tree). -/
def subtreeAt : Node → List Slot → Node
  | n, [] => n
  | n, s :: p => subtreeAt (n.child s) p

/-- The number of the leaves of a subtree, as a natural number: what `leaves` computes when no
`int` addition overflows. -/
def leafCount : Node → Nat
  | Node.null => 0
  | Node.node _ _ _ _ a b c =>
    if a.isNull && b.isNull && c.isNull then 1
    else if b.isNull then leafCount a + leafCount c
    else leafCount a + leafCount b + leafCount c

/-- The colours of the leaves of a subtree, in the order `A`, `B`, `C`. -/
def leafAvgs : Node → List RGBAPixel
  | Node.null => []
  | Node.node _ _ _ p a b c =>
    if a.isNull && b.isNull && c.isNull then [p] else leafAvgs a ++ leafAvgs b ++ leafAvgs c

/-- The uniformity test of the pruner, in the words of its documentation: every leaf of the
subtree rooted at `n` is within `tol` of the average colour stored in `n`. -/
def Qualifies {D : Type} [LinearOrder D] (dist : RGBAPixel → RGBAPixel → D) (tol : D)
    (n : Node) : Prop :=
  ∀ p ∈ leafAvgs n, dist p n.avg ≤ tol

instance {D : Type} [LinearOrder D] (dist : RGBAPixel → RGBAPixel → D) (tol : D) (n : Node) :
    Decidable (Qualifies dist tol n) :=
  inferInstanceAs (Decidable (∀ p ∈ leafAvgs n, dist p n.avg ≤ tol))

/-- No proper ancestor of the node at path `p` of `t` passes the uniformity test (against the
average colour of that ancestor). -/
def NoQualifyingAncestor {D : Type} [LinearOrder D] (dist : RGBAPixel → RGBAPixel → D) (tol : D)
    (t : Node) (p : List Slot) : Prop :=
  ∀ q r, p = q ++ r → r ≠ [] → ¬ Qualifies dist tol (subtreeAt t q)

/-- The shape invariant of the data model: in every node the slots `A` and `C` are both present,
or all three slots are absent. -/
def wellShaped : Node → Bool
  | Node.null => true
  | Node.node _ _ _ _ a b c =>
    (a.isNull && b.isNull && c.isNull)
      || (!a.isNull && !c.isNull && wellShaped a && wellShaped b && wellShaped c)

/-- The distance of two colours used in the examples: the absolute difference of the red
channels. -/
def redDist (p q : RGBAPixel) : Nat := absDiff p.r q.r

/-- A grey image of height 1 with the given channel values. -/
def greyRow (vals : List Nat) : PNG :=
  ⟨vals.length, 1, fun x _ => ⟨vals.getD x 0, vals.getD x 0, vals.getD x 0, 1⟩⟩

/-- The tree of the grey 4x1 image with channel values 20, 0, 20, 20. -/
def greyTree : Node := (TripleTree examplePixel (greyRow [20, 0, 20, 20])).getD Node.null

/-- The sum `f 0 + ... + f (n - 1)`. -/
def sumRange (n : Nat) (f : Nat → Nat) : Nat := ((List.range n).map f).sum

/-- The sum of the channel `ch` over the pixels of the image inside the rectangle of origin `ul`,
width `w` and height `h`. -/
def rectSum (im : PNG) (ch : RGBAPixel → Nat) (ul : Nat × Nat) (w h : Nat) : Nat :=
  sumRange h fun y => sumRange w fun x => ch (im.pixel (ul.1 + x) (ul.2 + y))

/-- The integer-truncated mean of the channel `ch` over the pixels of the image inside a
rectangle. -/
def rectMean (im : PNG) (ch : RGBAPixel → Nat) (ul : Nat × Nat) (w h : Nat) : Nat :=
  rectSum im ch ul w h / (w * h)

/-- The function `ch` reads one of the three colour channels. -/
def IsChannel (ch : RGBAPixel → Nat) : Prop :=
  ch = RGBAPixel.r ∨ ch = RGBAPixel.g ∨ ch = RGBAPixel.b

/-- The tree of the grey 4x1 image with channel values 0, 0, 1, 3. -/
def skewTree : Node := (TripleTree examplePixel (greyRow [0, 0, 1, 3])).getD Node.null

/-- The children `a`, `b`, `c` of a node of origin `ul`, width `w` and height `h` lie side by side
along the x axis: they have the height and the y origin of the node, `a` and `c` have the same
width, the widths add up to `w` (an absent `b` counts for 0), `b` comes after a width of `a`, and
one of `a`, `c` starts at the node origin and the other ends at the node end. -/
def HTiles (ul : Nat × Nat) (w h : Nat) (a b c : Node) : Prop :=
  h ≤ w ∧ a.height = h ∧ c.height = h ∧ a.upperleft.2 = ul.2 ∧ c.upperleft.2 = ul.2 ∧
  a.width = c.width ∧ a.width + b.width + c.width = w ∧
  (b.isNull = false → b.height = h ∧ b.upperleft = (ul.1 + a.width, ul.2)) ∧
  ((a.upperleft.1 = ul.1 ∧ c.upperleft.1 = ul.1 + a.width + b.width) ∨
    (c.upperleft.1 = ul.1 ∧ a.upperleft.1 = ul.1 + a.width + b.width))

/-- The children `a`, `b`, `c` of a node lie one above the other along the y axis (the transpose
of `HTiles`). -/
def VTiles (ul : Nat × Nat) (w h : Nat) (a b c : Node) : Prop :=
  w ≤ h ∧ a.width = w ∧ c.width = w ∧ a.upperleft.1 = ul.1 ∧ c.upperleft.1 = ul.1 ∧
  a.height = c.height ∧ a.height + b.height + c.height = h ∧
  (b.isNull = false → b.width = w ∧ b.upperleft = (ul.1, ul.2 + a.height)) ∧
  ((a.upperleft.2 = ul.2 ∧ c.upperleft.2 = ul.2 + a.height + b.height) ∨
    (c.upperleft.2 = ul.2 ∧ a.upperleft.2 = ul.2 + a.height + b.height))

/-- The invariant of the trees that the constructor builds and that `Prune`, `FlipHorizontal`
and `RotateCCW` maintain: every rectangle is non-empty and lies in the 32-bit coordinate space,
and every node is childless or has both `A` and `C`, its children tiling its rectangle along one
axis. -/
def Good : Node → Prop
  | Node.null => True
  | Node.node ul w h _ a b c =>
    (1 ≤ w ∧ 1 ≤ h) ∧ ul.1 + w < 4294967296 ∧ ul.2 + h < 4294967296 ∧
    ((a.isNull = true ∧ b.isNull = true ∧ c.isNull = true) ∨
      (a.isNull = false ∧ c.isNull = false ∧ Good a ∧ Good b ∧ Good c ∧
        (HTiles ul w h a b c ∨ VTiles ul w h a b c)))

/-- The trees obtained from the tree of an image (width and height at least 1, and below
`2 ^ 32` as `unsigned int` values are) by a finite sequence of `Prune`, `FlipHorizontal` and
`RotateCCW` calls. -/
inductive Reachable (dflt : RGBAPixel) : Node → Prop
  | build (im : PNG) (t : Node) (hw : 1 ≤ im.width) (hh : 1 ≤ im.height)
      (bw : im.width < 4294967296) (bh : im.height < 4294967296)
      (ht : TripleTree dflt im = some t) : Reachable dflt t
  | prune {D : Type} [LinearOrder D] (dist : RGBAPixel → RGBAPixel → D) (tol : D) (t : Node)
      (h : Reachable dflt t) : Reachable dflt (Prune dist t tol)
  | flip (t : Node) (h : Reachable dflt t) : Reachable dflt (FlipHorizontal t)
  | rotate (t : Node) (h : Reachable dflt t) : Reachable dflt (RotateCCW t)

/-- The node `k2` paints what `k` paints, mirrored across a vertical axis and placed so that its
rectangle starts at the x coordinate `x0`. -/
def Placed (k k2 : Node) (x0 : Nat) : Prop :=
  ∀ x y, colorAt k2 x y
    = if x0 ≤ x ∧ x < x0 + k.width
      then colorAt k (k.upperleft.1 + (x0 + k.width - 1 - x)) y else none

/-- The node `n2` paints the mirror image of what `n` paints inside the columns
`[x0, x0 + w)`, and nothing outside. -/
def Mirrors (x0 w : Nat) (n n2 : Node) : Prop :=
  ∀ x y, colorAt n2 x y
    = if x0 ≤ x ∧ x < x0 + w then colorAt n (x0 + (x0 + w - 1 - x)) y else none

/-- The tree of the 4x3 gradient image. -/
def gradientTree : Node := (TripleTree examplePixel (gradientImage 4 3)).getD Node.null

/-- The tree of the 4x3 gradient image, pruned with the red-channel distance and tolerance 1 and
then rotated. -/
def mixedTree : Node := RotateCCW (Prune redDist gradientTree 1)

/-- The tree `m` has the nodes of `t`, each with its average colour, up to the origins and the
order of the slots `A` and `C`: `m` is absent when `t` is, and otherwise it stores the average of
`t` and the size of `t` (width and height exchanged when `rot` is set), its slot `B` comes from
the slot `B` of `t`, and its slots `A` and `C` come from the slots `A` and `C` of `t` in this
order or in the other. -/
def Rearranged (rot : Bool) : Node → Node → Prop
  | Node.null, m => m = Node.null
  | Node.node _ w h p a b c, m =>
    m.isNull = false ∧ m.avg = p ∧
    m.width = (if rot then h else w) ∧ m.height = (if rot then w else h) ∧
    Rearranged rot b m.B ∧
    ((Rearranged rot a m.A ∧ Rearranged rot c m.C) ∨
      (Rearranged rot a m.C ∧ Rearranged rot c m.A))

/-- The rectangles (origin, width, height) of the leaves of a subtree, in the order `A`, `B`,
`C`. -/
def leafRects : Node → List ((Nat × Nat) × Nat × Nat)
  | Node.null => []
  | Node.node ul w h _ a b c =>
    if a.isNull && b.isNull && c.isNull then [(ul, w, h)]
    else leafRects a ++ leafRects b ++ leafRects c

/-- Two rectangles have no pixel in common. -/
def RectsDisjoint (r s : (Nat × Nat) × Nat × Nat) : Prop :=
  ∀ x y, ¬ (inRect r.1 r.2.1 r.2.2 x y ∧ inRect s.1 s.2.1 s.2.2 x y)

/-- The number of the assignments in a trace that address the pixel `(x, y)`. -/
def writeCount (l : List (Nat × Nat × RGBAPixel)) (x y : Nat) : Nat :=
  l.countP (fun e => decide (e.1 = x ∧ e.2.1 = y))

/-- The canvas after the assignments of a trace, performed in order. -/
def replay (img : PNG) (l : List (Nat × Nat × RGBAPixel)) : PNG :=
  l.foldl (fun im e => im.setPixel e.1 e.2.1 e.2.2) img

/-- The image of width `w` and height `h` whose pixels all have the colour `c`. -/
def uniformImage (w h : Nat) (c : RGBAPixel) : PNG := ⟨w, h, fun _ _ => c⟩

/-- The white image of width 65536 and height 32768: the smallest power-of-two image whose number
of pixels, `2 ^ 31`, does not fit a 32-bit `int`. -/
def hugeImage : PNG := uniformImage 65536 32768 examplePixel

/-- The white image of width 8421505 and height 1: the smallest number of pixels whose sum of
channel values 255 does not fit a 32-bit `int`. -/
def whiteRow : PNG := uniformImage 8421505 1 examplePixel

/-- The node at path `p` of `t` has children and `Prune(tol)` collapses it: in the pruned tree
the node is present at the same path and has no children. -/
def CollapsedAt {D : Type} [LinearOrder D] (dist : RGBAPixel → RGBAPixel → D) (tol : D)
    (t : Node) (p : List Slot) : Prop :=
  (subtreeAt t p).isNull = false ∧ (subtreeAt t p).isLeaf = false ∧
  (subtreeAt (Prune dist t tol) p).isNull = false ∧
  (subtreeAt (Prune dist t tol) p).isLeaf = true

/-! ## Release of the nodes

The source functions `clearHelper` and `Clear`, with nodes named by their paths, and the
definitions for their statements. -/

/-- The recursive `clearHelper(subRoot)`, with deletion modelled as a log of released nodes: the
result is the list of the nodes given to `delete`, in order, each named by its path `p` from the
root of the subtree that is cleared.  The first argument bounds the recursion depth.  `none`
means that the bound was reached, or that a null pointer was read (the source reads
`subRoot->A` without a test).  The trailing call `clearHelper(subRoot)` is made on the same node
after its child slots have been set to null. -/
def clearHelper : Nat → List Slot → Node → Option (List (List Slot))
  | 0, _, _ => none
  | _ + 1, _, Node.null => none
  | fuel + 1, p, Node.node ul w h avg a b c =>
    if a.isNull && b.isNull && c.isNull then some [p]
    else do
      let la ← clearHelper fuel (p ++ [Slot.A]) a
      let lb ← if !b.isNull then clearHelper fuel (p ++ [Slot.B]) b else some []
      let lc ← clearHelper fuel (p ++ [Slot.C]) c
      let ls ← clearHelper fuel p (Node.node ul w h avg Node.null Node.null Node.null)
      some (la ++ lb ++ lc ++ ls)

/-- The method `Clear()`: `clearHelper(root); root = nullptr;`.  The result is the new root and
the log of the released nodes. -/
def Clear (fuel : Nat) (root : Node) : Option (Node × List (List Slot)) := do
  let log ← clearHelper fuel [] root
  some (Node.null, log)

/-- The number of levels of a subtree: 0 for the null pointer, 1 for a node without children. -/
def levels : Node → Nat
  | Node.null => 0
  | Node.node _ _ _ _ a b c => 1 + max (levels a) (max (levels b) (levels c))

/-- The nodes of a subtree in post-order, each named by its path from the root of the subtree,
`p` being the path of the root: the nodes under `A`, then those under `B`, then those under `C`,
then the node itself. -/
def releaseOrder (p : List Slot) : Node → List (List Slot)
  | Node.null => []
  | Node.node _ _ _ _ a b c =>
    releaseOrder (p ++ [Slot.A]) a ++ releaseOrder (p ++ [Slot.B]) b
      ++ releaseOrder (p ++ [Slot.C]) c ++ [p]

/-! # Theorems -/

/-! ## The builder, the leaf counter and the colour blend -/

theorem split3_spec {d sa sb sc : Nat} (hd : 3 ≤ d) (hs : split3 d = (sa, sb, sc)) :
    sc = sa ∧ 1 ≤ sa ∧ 1 ≤ sb ∧ sa + sb + sa = d := by
  have h3 : d % 3 = 0 ∨ d % 3 = 1 ∨ d % 3 = 2 := by omega
  rcases h3 with h | h | h <;> simp [split3, h] at hs <;> omega

theorem BuildNode_built (dflt : RGBAPixel) (im : PNG) :
    ∀ (fuel : Nat) (x y w h : Nat), 1 ≤ w → 1 ≤ h → w + h ≤ fuel + 1 →
      ∃ t, BuildNode dflt im fuel (x, y) w h = some t ∧ Built im (x, y) w h t := by
  intro fuel
  induction fuel with
  | zero => intro x y w h hw hh hf; omega
  | succ n ih =>
    intro x y w h hw hh hf
    by_cases h11 : w = 1 ∧ h = 1
    · obtain ⟨rfl, rfl⟩ := h11
      exact ⟨_, by simp [BuildNode], Built.leaf x y⟩
    · by_cases hwh : w ≥ h
      · by_cases hw2 : w = 2
        · subst hw2
          obtain ⟨a, ha, hba⟩ := ih x y 1 h (by omega) hh (by omega)
          obtain ⟨c, hc, hbc⟩ := ih (x + 1) y 1 h (by omega) hh (by omega)
          refine ⟨_, ?_, Built.wide2 x y h a c hwh hba hbc⟩
          simp [BuildNode, h11, hwh, ha, hc]
        · have hw3 : 3 ≤ w := by omega
          have h3 : w % 3 = 0 ∨ w % 3 = 1 ∨ w % 3 = 2 := by omega
          rcases h3 with hm | hm | hm
          · obtain ⟨a, ha, hba⟩ := ih x y (w / 3) h (by omega) hh (by omega)
            obtain ⟨b, hb, hbb⟩ := ih (x + w / 3) y (w / 3) h (by omega) hh (by omega)
            obtain ⟨c, hc, hbc⟩ := ih (x + w / 3 + w / 3) y (w / 3) h (by omega) hh (by omega)
            refine ⟨_, ?_, Built.wide3 x y w h (w / 3) (w / 3) a b c hw3 hwh
              (by simp [split3, hm]) hba hbb hbc⟩
            have e : x + 2 * (w / 3) = x + w / 3 + w / 3 := by omega
            simp [BuildNode, h11, hwh, hw2, hm, ha, hb, hc, e]
          · obtain ⟨a, ha, hba⟩ := ih x y (w / 3) h (by omega) hh (by omega)
            obtain ⟨b, hb, hbb⟩ := ih (x + w / 3) y (w / 3 + 1) h (by omega) hh (by omega)
            obtain ⟨c, hc, hbc⟩ :=
              ih (x + w / 3 + (w / 3 + 1)) y (w / 3) h (by omega) hh (by omega)
            refine ⟨_, ?_, Built.wide3 x y w h (w / 3) (w / 3 + 1) a b c hw3 hwh
              (by simp [split3, hm]) hba hbb hbc⟩
            have e : x + 2 * (w / 3) + 1 = x + w / 3 + (w / 3 + 1) := by omega
            simp [BuildNode, h11, hwh, hw2, hm, ha, hb, hc, e]
          · obtain ⟨a, ha, hba⟩ := ih x y (w / 3 + 1) h (by omega) hh (by omega)
            obtain ⟨b, hb, hbb⟩ := ih (x + (w / 3 + 1)) y (w / 3) h (by omega) hh (by omega)
            obtain ⟨c, hc, hbc⟩ :=
              ih (x + (w / 3 + 1) + w / 3) y (w / 3 + 1) h (by omega) hh (by omega)
            refine ⟨_, ?_, Built.wide3 x y w h (w / 3 + 1) (w / 3) a b c hw3 hwh
              (by simp [split3, hm]) hba hbb hbc⟩
            have e : x + 2 * (w / 3) + 1 = x + (w / 3 + 1) + w / 3 := by omega
            have e2 : x + w / 3 + 1 = x + (w / 3 + 1) := by omega
            simp [BuildNode, h11, hwh, hw2, hm, ha, hb, hc, e, e2]
      · have hlt : w < h := by omega
        by_cases hh2 : h = 2
        · subst hh2
          obtain ⟨a, ha, hba⟩ := ih x y w 1 hw (by omega) (by omega)
          obtain ⟨c, hc, hbc⟩ := ih x (y + 1) w 1 hw (by omega) (by omega)
          refine ⟨_, ?_, Built.tall2 x y w a c hlt hba hbc⟩
          simp [BuildNode, h11, hwh, ha, hc]
        · have hh3 : 3 ≤ h := by omega
          have h3 : h % 3 = 0 ∨ h % 3 = 1 ∨ h % 3 = 2 := by omega
          rcases h3 with hm | hm | hm
          · obtain ⟨a, ha, hba⟩ := ih x y w (h / 3) hw (by omega) (by omega)
            obtain ⟨b, hb, hbb⟩ := ih x (y + h / 3) w (h / 3) hw (by omega) (by omega)
            obtain ⟨c, hc, hbc⟩ := ih x (y + h / 3 + h / 3) w (h / 3) hw (by omega) (by omega)
            refine ⟨_, ?_, Built.tall3 x y w h (h / 3) (h / 3) a b c hh3 hlt
              (by simp [split3, hm]) hba hbb hbc⟩
            have e : y + 2 * (h / 3) = y + h / 3 + h / 3 := by omega
            simp [BuildNode, h11, hwh, hh2, hm, ha, hb, hc, e]
          · obtain ⟨a, ha, hba⟩ := ih x y w (h / 3) hw (by omega) (by omega)
            obtain ⟨b, hb, hbb⟩ := ih x (y + h / 3) w (h / 3 + 1) hw (by omega) (by omega)
            obtain ⟨c, hc, hbc⟩ :=
              ih x (y + h / 3 + (h / 3 + 1)) w (h / 3) hw (by omega) (by omega)
            refine ⟨_, ?_, Built.tall3 x y w h (h / 3) (h / 3 + 1) a b c hh3 hlt
              (by simp [split3, hm]) hba hbb hbc⟩
            have e : y + 2 * (h / 3) + 1 = y + h / 3 + (h / 3 + 1) := by omega
            simp [BuildNode, h11, hwh, hh2, hm, ha, hb, hc, e]
          · obtain ⟨a, ha, hba⟩ := ih x y w (h / 3 + 1) hw (by omega) (by omega)
            obtain ⟨b, hb, hbb⟩ := ih x (y + (h / 3 + 1)) w (h / 3) hw (by omega) (by omega)
            obtain ⟨c, hc, hbc⟩ :=
              ih x (y + (h / 3 + 1) + h / 3) w (h / 3 + 1) hw (by omega) (by omega)
            refine ⟨_, ?_, Built.tall3 x y w h (h / 3 + 1) (h / 3) a b c hh3 hlt
              (by simp [split3, hm]) hba hbb hbc⟩
            have e : y + 2 * (h / 3) + 1 = y + (h / 3 + 1) + h / 3 := by omega
            have e2 : y + h / 3 + 1 = y + (h / 3 + 1) := by omega
            simp [BuildNode, h11, hwh, hh2, hm, ha, hb, hc, e, e2]

theorem TripleTree_built (dflt : RGBAPixel) (im : PNG) (hw : 1 ≤ im.width) (hh : 1 ≤ im.height) :
    ∃ t, TripleTree dflt im = some t ∧ Built im (0, 0) im.width im.height t :=
  BuildNode_built dflt im (im.width + im.height) 0 0 im.width im.height hw hh (by omega)

theorem Built_isNull {im : PNG} {ul : Nat × Nat} {w h : Nat} {t : Node}
    (hb : Built im ul w h t) : t.isNull = false := by
  cases hb <;> rfl

theorem Built_fields {im : PNG} {ul : Nat × Nat} {w h : Nat} {t : Node}
    (hb : Built im ul w h t) : t.upperleft = ul ∧ t.width = w ∧ t.height = h := by
  cases hb <;> exact ⟨rfl, rfl, rfl⟩

theorem leafCount_node2 (ul : Nat × Nat) (w h : Nat) (p : RGBAPixel) (a c : Node)
    (ha : a.isNull = false) :
    leafCount (Node.node ul w h p a Node.null c) = leafCount a + leafCount c := by
  simp [leafCount, ha]

theorem leafCount_node3 (ul : Nat × Nat) (w h : Nat) (p : RGBAPixel) (a b c : Node)
    (ha : a.isNull = false) (hb : b.isNull = false) :
    leafCount (Node.node ul w h p a b c) = leafCount a + leafCount b + leafCount c := by
  simp [leafCount, ha, hb]

theorem Built_leafCount {im : PNG} {ul : Nat × Nat} {w h : Nat} {t : Node}
    (hb : Built im ul w h t) : leafCount t = w * h := by
  induction hb with
  | leaf x y => simp [leafCount, Node.isNull]
  | wide2 x y h a c hh ha hc iha ihc =>
    rw [leafCount_node2 _ _ _ _ _ _ (Built_isNull ha), iha, ihc]; ring
  | wide3 x y w h sa sb a b c hw hh hs ha hb hc iha ihb ihc =>
    obtain ⟨-, -, -, h3⟩ := split3_spec hw hs
    rw [leafCount_node3 _ _ _ _ _ _ _ (Built_isNull ha) (Built_isNull hb), iha, ihb, ihc, ← h3]
    ring
  | tall2 x y w a c hw ha hc iha ihc =>
    rw [leafCount_node2 _ _ _ _ _ _ (Built_isNull ha), iha, ihc]; ring
  | tall3 x y w h sa sb a b c hh hw hs ha hb hc iha ihb ihc =>
    obtain ⟨-, -, -, h3⟩ := split3_spec hh hs
    rw [leafCount_node3 _ _ _ _ _ _ _ (Built_isNull ha) (Built_isNull hb), iha, ihb, ihc, ← h3]
    ring

theorem toInt32_eq (z : Int) (h1 : -2147483648 ≤ z) (h2 : z < 2147483648) : toInt32 z = z := by
  unfold toInt32; omega

theorem toInt32_add (x y : Int) : toInt32 (toInt32 x + toInt32 y) = toInt32 (x + y) := by
  unfold toInt32; omega

theorem toInt32_add3 (x y z : Int) :
    toInt32 (toInt32 (toInt32 x + toInt32 y) + toInt32 z) = toInt32 (x + y + z) := by
  unfold toInt32; omega

theorem leaves_node2 (ul : Nat × Nat) (w h : Nat) (p : RGBAPixel) (a c : Node)
    (ha : a.isNull = false) :
    leaves (Node.node ul w h p a Node.null c) = toInt32 (leaves a + leaves c) := by
  have hn : Node.null.isNull = true := rfl
  rw [leaves, if_neg (by rw [ha]; simp), if_pos hn]

theorem leaves_node3 (ul : Nat × Nat) (w h : Nat) (p : RGBAPixel) (a b c : Node)
    (ha : a.isNull = false) (hb : b.isNull = false) :
    leaves (Node.node ul w h p a b c) = toInt32 (toInt32 (leaves a + leaves b) + leaves c) := by
  rw [leaves, if_neg (by rw [ha]; simp), if_neg (by rw [hb]; simp)]

/-- The `int` that `leaves` returns is the number of leaves wrapped to 32 bits. -/
theorem leaves_eq_leafCount (t : Node) : leaves t = toInt32 ((leafCount t : Nat) : Int) := by
  induction t with
  | null => rfl
  | node ul w h p a b c iha ihb ihc =>
    by_cases hl : (a.isNull && b.isNull && c.isNull) = true
    · rw [leaves, if_pos hl, leafCount, if_pos hl]
      rfl
    · rw [leaves, if_neg hl, leafCount, if_neg hl]
      by_cases hb : b.isNull = true
      · rw [if_pos hb, if_pos hb, iha, ihc, toInt32_add]
        push_cast; rfl
      · rw [if_neg hb, if_neg hb, iha, ihb, ihc, toInt32_add3]
        push_cast; rfl

theorem leaves_of_lt (t : Node) (h : leafCount t < 2147483648) :
    leaves t = ((leafCount t : Nat) : Int) := by
  rw [leaves_eq_leafCount, toInt32_eq _ (by omega) (by omega)]

theorem Built_leaves {im : PNG} {ul : Nat × Nat} {w h : Nat} {t : Node}
    (hb : Built im ul w h t) : leaves t = toInt32 ((w * h : Nat) : Int) := by
  rw [leaves_eq_leafCount, Built_leafCount hb]

/-- C5, as stated, fails: the tree of the white image of width 65536 and height 32768 has
`2 ^ 31 = 2147483648` leaves, one for each pixel, and `NumLeaves`, which sums them in `int`
additions, returns -2147483648. -/
theorem NumLeaves_TripleTree_counterexample :
    (1 ≤ hugeImage.width ∧ 1 ≤ hugeImage.height) ∧
    hugeImage.width * hugeImage.height = 2147483648 ∧
    ∃ t, TripleTree examplePixel hugeImage = some t ∧ leafCount t = 2147483648 ∧
      NumLeaves t = -2147483648 := by
  refine ⟨by decide, by decide, ?_⟩
  obtain ⟨t, ht, hb⟩ := TripleTree_built examplePixel hugeImage (by decide) (by decide)
  have hb1 : Built hugeImage (0, 0) 65536 32768 t := hb
  refine ⟨t, ht, ?_, ?_⟩
  · rw [Built_leafCount hb1]
  · rw [NumLeaves, Built_leaves hb1]
    decide

/-- C5, amended: for every image with width and height at least 1 and fewer than `2 ^ 31`
pixels the constructor returns a tree, and `NumLeaves` of that tree is the width times the
height of the image. -/
theorem NumLeaves_TripleTree (dflt : RGBAPixel) (im : PNG) (hw : 1 ≤ im.width)
    (hh : 1 ≤ im.height) (hfit : im.width * im.height < 2147483648) :
    ∃ t, TripleTree dflt im = some t ∧ NumLeaves t = ((im.width * im.height : Nat) : Int) := by
  obtain ⟨t, ht, hb⟩ := TripleTree_built dflt im hw hh
  refine ⟨t, ht, ?_⟩
  rw [NumLeaves, Built_leaves hb, toInt32_eq _ (by omega) (by omega)]

/-- Witness of the amended C5: the 4x3 gradient image. -/
theorem NumLeaves_TripleTree_witness :
    (1 ≤ (gradientImage 4 3).width ∧ 1 ≤ (gradientImage 4 3).height ∧
      (gradientImage 4 3).width * (gradientImage 4 3).height < 2147483648) ∧
    ∃ t, TripleTree examplePixel (gradientImage 4 3) = some t ∧
      NumLeaves t = (((gradientImage 4 3).width * (gradientImage 4 3).height : Nat) : Int) :=
  ⟨by decide, NumLeaves_TripleTree examplePixel (gradientImage 4 3) (by decide) (by decide)
    (by decide)⟩

theorem pixels_eq (n : Node) (h : n.width * n.height < 2147483648) :
    pixels n = ((n.width * n.height : Nat) : Int) := by
  unfold pixels
  rw [Nat.mod_eq_of_lt (by omega), toInt32_eq _ (by omega) (by omega)]

theorem clampChannel_eq (m : Nat) (h : m ≤ 255) : clampChannel (m : Int) = m := by
  unfold clampChannel
  rw [if_neg (by omega), if_neg (by omega)]
  exact Int.toNat_ofNat m

theorem weighted_le (p q c d : Nat) (hc : c ≤ 255) (hd : d ≤ 255) :
    p * c + q * d ≤ (p + q) * 255 := by
  have h1 : p * c ≤ p * 255 := Nat.mul_le_mul_left p hc
  have h2 : q * d ≤ q * 255 := Nat.mul_le_mul_left q hd
  rw [Nat.add_mul]; omega

theorem blend2_eq (pa pc ca cc : Nat) (hca : ca ≤ 255) (hcc : cc ≤ 255)
    (hfit : (pa + pc) * 255 < 2147483648) :
    blend2 pa pc ((pa + pc : Nat) : Int) ca cc = (((pa * ca + pc * cc) / (pa + pc) : Nat) : Int) := by
  have h1 : pa * ca ≤ pa * 255 := Nat.mul_le_mul_left pa hca
  have h2 : pc * cc ≤ pc * 255 := Nat.mul_le_mul_left pc hcc
  have h3 : (pa + pc) * 255 = pa * 255 + pc * 255 := Nat.add_mul _ _ _
  unfold blend2
  have e1 : ((pa : Int) * (ca : Int)) = ((pa * ca : Nat) : Int) := by push_cast; ring
  have e2 : ((pc : Int) * (cc : Int)) = ((pc * cc : Nat) : Int) := by push_cast; ring
  rw [e1, e2, toInt32_eq ((pa * ca : Nat) : Int) (by omega) (by omega),
    toInt32_eq ((pc * cc : Nat) : Int) (by omega) (by omega),
    toInt32_eq _ (by omega) (by omega), Int.tdiv_eq_ediv (by omega) (by omega)]
  norm_cast

theorem blend3_eq (pa pb pc ca cb cc : Nat) (hca : ca ≤ 255) (hcb : cb ≤ 255) (hcc : cc ≤ 255)
    (hfit : (pa + pb + pc) * 255 < 2147483648) :
    blend3 pa pb pc ((pa + pb + pc : Nat) : Int) ca cb cc
      = (((pa * ca + pb * cb + pc * cc) / (pa + pb + pc) : Nat) : Int) := by
  have h1 : pa * ca ≤ pa * 255 := Nat.mul_le_mul_left pa hca
  have h2 : pc * cc ≤ pc * 255 := Nat.mul_le_mul_left pc hcc
  have h2 : pb * cb ≤ pb * 255 := Nat.mul_le_mul_left pb hcb
  have h3 : (pa + pb + pc) * 255 = pa * 255 + pb * 255 + pc * 255 := by ring
  unfold blend3
  have e1 : ((pa : Int) * (ca : Int)) = ((pa * ca : Nat) : Int) := by push_cast; ring
  have e2 : ((pc : Int) * (cc : Int)) = ((pc * cc : Nat) : Int) := by push_cast; ring
  have e3 : ((pb : Int) * (cb : Int)) = ((pb * cb : Nat) : Int) := by push_cast; ring
  rw [e1, e2, e3, toInt32_eq ((pa * ca : Nat) : Int) (by omega) (by omega),
    toInt32_eq ((pb * cb : Nat) : Int) (by omega) (by omega),
    toInt32_eq ((pc * cc : Nat) : Int) (by omega) (by omega),
    toInt32_eq (((pa * ca : Nat) : Int) + ((pb * cb : Nat) : Int)) (by omega) (by omega),
    toInt32_eq _ (by omega) (by omega), Int.tdiv_eq_ediv (by omega) (by omega)]
  norm_cast


theorem total2_eq (a c : Node) (hfit : (area a + area c) * 255 < 2147483648) :
    total2 a c = ((area a + area c : Nat) : Int) := by
  unfold total2 area at *
  rw [pixels_eq a (by omega), pixels_eq c (by omega), toInt32_eq _ (by omega) (by omega)]
  push_cast; ring

theorem total3_eq (a b c : Node) (hfit : (area a + area b + area c) * 255 < 2147483648) :
    total3 a b c = ((area a + area b + area c : Nat) : Int) := by
  unfold total3 area at *
  rw [pixels_eq a (by omega), pixels_eq b (by omega), pixels_eq c (by omega),
    toInt32_eq (((a.width * a.height : Nat) : Int) + ((b.width * b.height : Nat) : Int))
      (by omega) (by omega),
    toInt32_eq _ (by omega) (by omega)]
  push_cast; ring

theorem raw2_eq (ch : RGBAPixel → Nat) (a c : Node) (hca : ch a.avg ≤ 255) (hcc : ch c.avg ≤ 255)
    (hfit : (area a + area c) * 255 < 2147483648) :
    raw2 ch a c = ((wmean2 (area a) (ch a.avg) (area c) (ch c.avg) : Nat) : Int) := by
  unfold raw2
  rw [total2_eq a c hfit]
  have h1 : pixels a = ((area a : Nat) : Int) := pixels_eq a (by unfold area at *; omega)
  have h2 : pixels c = ((area c : Nat) : Int) := pixels_eq c (by unfold area at *; omega)
  rw [h1, h2]
  exact blend2_eq _ _ _ _ hca hcc hfit

theorem raw3_eq (ch : RGBAPixel → Nat) (a b c : Node) (hca : ch a.avg ≤ 255)
    (hcb : ch b.avg ≤ 255) (hcc : ch c.avg ≤ 255)
    (hfit : (area a + area b + area c) * 255 < 2147483648) :
    raw3 ch a b c
      = ((wmean3 (area a) (ch a.avg) (area b) (ch b.avg) (area c) (ch c.avg) : Nat) : Int) := by
  unfold raw3
  rw [total3_eq a b c hfit]
  have h1 : pixels a = ((area a : Nat) : Int) := pixels_eq a (by unfold area at *; omega)
  have h2 : pixels c = ((area c : Nat) : Int) := pixels_eq c (by unfold area at *; omega)
  have h3 : pixels b = ((area b : Nat) : Int) := pixels_eq b (by unfold area at *; omega)
  rw [h1, h2, h3]
  exact blend3_eq _ _ _ _ _ _ hca hcb hcc hfit

theorem mean2_le (p q c d : Nat) (hc : c ≤ 255) (hd : d ≤ 255) :
    wmean2 p c q d ≤ 255 :=
  Nat.div_le_of_le_mul (weighted_le p q c d hc hd)

theorem mean3_le (p q s c d e : Nat) (hc : c ≤ 255) (hd : d ≤ 255) (he : e ≤ 255) :
    wmean3 p c q d s e ≤ 255 := by
  unfold wmean3
  apply Nat.div_le_of_le_mul
  have h1 : p * c ≤ p * 255 := Nat.mul_le_mul_left p hc
  have h2 : q * d ≤ q * 255 := Nat.mul_le_mul_left q hd
  have h3 : s * e ≤ s * 255 := Nat.mul_le_mul_left s he
  have h4 : (p + q + s) * 255 = p * 255 + q * 255 + s * 255 := by ring
  rw [h4]; omega

theorem FindAverage2_channel (ch : RGBAPixel → Nat) (a c : Node) (hca : ch a.avg ≤ 255)
    (hcc : ch c.avg ≤ 255) (hfit : (area a + area c) * 255 < 2147483648) :
    clampChannel (raw2 ch a c) = wmean2 (area a) (ch a.avg) (area c) (ch c.avg) := by
  rw [raw2_eq ch a c hca hcc hfit, clampChannel_eq _ (mean2_le _ _ _ _ hca hcc)]

theorem FindAverage3_channel (ch : RGBAPixel → Nat) (a b c : Node) (hca : ch a.avg ≤ 255)
    (hcb : ch b.avg ≤ 255) (hcc : ch c.avg ≤ 255)
    (hfit : (area a + area b + area c) * 255 < 2147483648) :
    clampChannel (raw3 ch a b c)
      = wmean3 (area a) (ch a.avg) (area b) (ch b.avg) (area c) (ch c.avg) := by
  rw [raw3_eq ch a b c hca hcb hcc hfit, clampChannel_eq _ (mean3_le _ _ _ _ _ _ hca hcb hcc)]

theorem FindAverage2_rgb (a c : Node) :
    (FindAverage2 a c).r = clampChannel (raw2 RGBAPixel.r a c) ∧
    (FindAverage2 a c).g = clampChannel (raw2 RGBAPixel.g a c) ∧
    (FindAverage2 a c).b = clampChannel (raw2 RGBAPixel.b a c) := by
  refine ⟨?_, ?_, ?_⟩ <;> simp only [FindAverage2, raw2, total2]

theorem FindAverage3_rgb (a b c : Node) :
    (FindAverage3 a b c).r = clampChannel (raw3 RGBAPixel.r a b c) ∧
    (FindAverage3 a b c).g = clampChannel (raw3 RGBAPixel.g a b c) ∧
    (FindAverage3 a b c).b = clampChannel (raw3 RGBAPixel.b a b c) := by
  refine ⟨?_, ?_, ?_⟩ <;> simp only [FindAverage3, raw3, total3]

theorem area_pos (n : Node) (h : 1 ≤ n.width ∧ 1 ≤ n.height) : 1 ≤ area n :=
  Nat.mul_pos h.1 h.2

/-- C9: for child nodes with width and height at least 1, colour channels in `[0, 255]` and areas
whose sum times 255 fits a signed 32-bit `int`, the divisor of the 2-way and of the 3-way
`FindAverage` is the (non-zero) sum of the areas, and each of the `r`, `g`, `b` values, before the
clamp (`raw2`, `raw3`) and as returned, is the truncated area-weighted mean of the children
channels, which lies in `[0, 255]`: the clamp does not alter it. -/
theorem FindAverage_weighted_mean :
    (∀ a c : Node, (1 ≤ a.width ∧ 1 ≤ a.height) → (1 ≤ c.width ∧ 1 ≤ c.height) →
      a.avg.InRange → c.avg.InRange → (area a + area c) * 255 < 2147483648 →
      total2 a c = ((area a + area c : Nat) : Int) ∧ total2 a c ≠ 0 ∧
      (raw2 RGBAPixel.r a c = ((wmean2 (area a) a.avg.r (area c) c.avg.r : Nat) : Int) ∧
        (FindAverage2 a c).r = wmean2 (area a) a.avg.r (area c) c.avg.r ∧
        (FindAverage2 a c).r ≤ 255) ∧
      (raw2 RGBAPixel.g a c = ((wmean2 (area a) a.avg.g (area c) c.avg.g : Nat) : Int) ∧
        (FindAverage2 a c).g = wmean2 (area a) a.avg.g (area c) c.avg.g ∧
        (FindAverage2 a c).g ≤ 255) ∧
      (raw2 RGBAPixel.b a c = ((wmean2 (area a) a.avg.b (area c) c.avg.b : Nat) : Int) ∧
        (FindAverage2 a c).b = wmean2 (area a) a.avg.b (area c) c.avg.b ∧
        (FindAverage2 a c).b ≤ 255)) ∧
    (∀ a b c : Node, (1 ≤ a.width ∧ 1 ≤ a.height) → (1 ≤ b.width ∧ 1 ≤ b.height) →
      (1 ≤ c.width ∧ 1 ≤ c.height) → a.avg.InRange → b.avg.InRange → c.avg.InRange →
      (area a + area b + area c) * 255 < 2147483648 →
      total3 a b c = ((area a + area b + area c : Nat) : Int) ∧ total3 a b c ≠ 0 ∧
      (raw3 RGBAPixel.r a b c
          = ((wmean3 (area a) a.avg.r (area b) b.avg.r (area c) c.avg.r : Nat) : Int) ∧
        (FindAverage3 a b c).r = wmean3 (area a) a.avg.r (area b) b.avg.r (area c) c.avg.r ∧
        (FindAverage3 a b c).r ≤ 255) ∧
      (raw3 RGBAPixel.g a b c
          = ((wmean3 (area a) a.avg.g (area b) b.avg.g (area c) c.avg.g : Nat) : Int) ∧
        (FindAverage3 a b c).g = wmean3 (area a) a.avg.g (area b) b.avg.g (area c) c.avg.g ∧
        (FindAverage3 a b c).g ≤ 255) ∧
      (raw3 RGBAPixel.b a b c
          = ((wmean3 (area a) a.avg.b (area b) b.avg.b (area c) c.avg.b : Nat) : Int) ∧
        (FindAverage3 a b c).b = wmean3 (area a) a.avg.b (area b) b.avg.b (area c) c.avg.b ∧
        (FindAverage3 a b c).b ≤ 255)) := by
  constructor
  · intro a c hda hdc ha hc hfit
    have hpa := area_pos a hda
    have ht := total2_eq a c hfit
    obtain ⟨er, eg, eb⟩ := FindAverage2_rgb a c
    refine ⟨ht, by rw [ht]; omega, ⟨raw2_eq _ a c ha.1 hc.1 hfit, ?_, ?_⟩,
      ⟨raw2_eq _ a c ha.2.1 hc.2.1 hfit, ?_, ?_⟩, ⟨raw2_eq _ a c ha.2.2 hc.2.2 hfit, ?_, ?_⟩⟩
    · rw [er]; exact FindAverage2_channel _ a c ha.1 hc.1 hfit
    · rw [er, FindAverage2_channel _ a c ha.1 hc.1 hfit]; exact mean2_le _ _ _ _ ha.1 hc.1
    · rw [eg]; exact FindAverage2_channel _ a c ha.2.1 hc.2.1 hfit
    · rw [eg, FindAverage2_channel _ a c ha.2.1 hc.2.1 hfit]; exact mean2_le _ _ _ _ ha.2.1 hc.2.1
    · rw [eb]; exact FindAverage2_channel _ a c ha.2.2 hc.2.2 hfit
    · rw [eb, FindAverage2_channel _ a c ha.2.2 hc.2.2 hfit]; exact mean2_le _ _ _ _ ha.2.2 hc.2.2
  · intro a b c hda hdb hdc ha hb hc hfit
    have hpa := area_pos a hda
    have ht := total3_eq a b c hfit
    obtain ⟨er, eg, eb⟩ := FindAverage3_rgb a b c
    refine ⟨ht, by rw [ht]; omega, ⟨raw3_eq _ a b c ha.1 hb.1 hc.1 hfit, ?_, ?_⟩,
      ⟨raw3_eq _ a b c ha.2.1 hb.2.1 hc.2.1 hfit, ?_, ?_⟩,
      ⟨raw3_eq _ a b c ha.2.2 hb.2.2 hc.2.2 hfit, ?_, ?_⟩⟩
    · rw [er]; exact FindAverage3_channel _ a b c ha.1 hb.1 hc.1 hfit
    · rw [er, FindAverage3_channel _ a b c ha.1 hb.1 hc.1 hfit]
      exact mean3_le _ _ _ _ _ _ ha.1 hb.1 hc.1
    · rw [eg]; exact FindAverage3_channel _ a b c ha.2.1 hb.2.1 hc.2.1 hfit
    · rw [eg, FindAverage3_channel _ a b c ha.2.1 hb.2.1 hc.2.1 hfit]
      exact mean3_le _ _ _ _ _ _ ha.2.1 hb.2.1 hc.2.1
    · rw [eb]; exact FindAverage3_channel _ a b c ha.2.2 hb.2.2 hc.2.2 hfit
    · rw [eb, FindAverage3_channel _ a b c ha.2.2 hb.2.2 hc.2.2 hfit]
      exact mean3_le _ _ _ _ _ _ ha.2.2 hb.2.2 hc.2.2

/-- Witness of C9: the 1x1 nodes of colours (0, 0, 0) and (255, 255, 255) satisfy the hypotheses
and blend to (127, 127, 127); with the 1x1 node (90, 60, 30) in the middle the 3-way blend is
(115, 105, 95). -/
theorem FindAverage_weighted_mean_witness :
    ((1 ≤ blackNode.width ∧ 1 ≤ blackNode.height) ∧ (1 ≤ whiteNode.width ∧ 1 ≤ whiteNode.height) ∧
      blackNode.avg.InRange ∧ whiteNode.avg.InRange ∧
      (area blackNode + area whiteNode) * 255 < 2147483648) ∧
    ((FindAverage2 blackNode whiteNode).r = 127 ∧ (FindAverage2 blackNode whiteNode).g = 127 ∧
      (FindAverage2 blackNode whiteNode).b = 127) ∧
    ((FindAverage3 blackNode brownNode whiteNode).r = 115 ∧
      (FindAverage3 blackNode brownNode whiteNode).g = 105 ∧
      (FindAverage3 blackNode brownNode whiteNode).b = 95) := by
  have h2 := FindAverage_weighted_mean.1 blackNode whiteNode (by decide) (by decide) (by decide)
    (by decide) (by decide)
  have h3 := FindAverage_weighted_mean.2 blackNode brownNode whiteNode (by decide) (by decide)
    (by decide) (by decide) (by decide) (by decide) (by decide)
  refine ⟨by decide, ⟨h2.2.2.1.2.1.trans (by decide), h2.2.2.2.1.2.1.trans (by decide),
    h2.2.2.2.2.2.1.trans (by decide)⟩, ⟨h3.2.2.1.2.1.trans (by decide),
    h3.2.2.2.1.2.1.trans (by decide), h3.2.2.2.2.2.1.trans (by decide)⟩⟩

theorem paintRow_spec (avg : RGBAPixel) (x0 yy : Nat) (w : Nat) (img : PNG) :
    let r := (List.range w).foldl (fun im x => im.setPixel (x0 + x) yy avg) img
    r.width = img.width ∧ r.height = img.height ∧
      ∀ x y, r.pixel x y = if x0 ≤ x ∧ x < x0 + w ∧ y = yy then avg else img.pixel x y := by
  induction w with
  | zero =>
    refine ⟨rfl, rfl, fun x y => ?_⟩
    rw [if_neg (by omega)]; rfl
  | succ n ih =>
    simp only [List.range_succ, List.foldl_append, List.foldl_cons, List.foldl_nil]
    obtain ⟨h1, h2, h3⟩ := ih
    refine ⟨h1, h2, fun x y => ?_⟩
    show (if x = x0 + n ∧ y = yy then avg else _) = _
    rw [h3]
    by_cases hx : x = x0 + n ∧ y = yy
    · rw [if_pos hx, if_pos (by omega)]
    · rw [if_neg hx]
      by_cases h : x0 ≤ x ∧ x < x0 + n ∧ y = yy
      · rw [if_pos h, if_pos (by omega)]
      · rw [if_neg h, if_neg (by omega)]

theorem paintRect_spec (avg : RGBAPixel) (ul : Nat × Nat) (w h : Nat) (img : PNG) :
    (paintRect img ul w h avg).width = img.width ∧ (paintRect img ul w h avg).height = img.height ∧
      ∀ x y, (paintRect img ul w h avg).pixel x y
        = if inRect ul w h x y then avg else img.pixel x y := by
  unfold paintRect
  induction h with
  | zero =>
    refine ⟨rfl, rfl, fun x y => ?_⟩
    rw [if_neg (by unfold inRect; omega)]; rfl
  | succ n ih =>
    simp only [List.range_succ, List.foldl_append, List.foldl_cons, List.foldl_nil]
    obtain ⟨h1, h2, h3⟩ := ih
    obtain ⟨r1, r2, r3⟩ := paintRow_spec avg ul.1 (ul.2 + n) w
      ((List.range n).foldl
        (fun im y => (List.range w).foldl (fun im x => im.setPixel (ul.1 + x) (ul.2 + y) avg) im)
        img)
    refine ⟨r1.trans h1, r2.trans h2, fun x y => ?_⟩
    rw [r3, h3]
    unfold inRect
    by_cases hy : y = ul.2 + n
    · by_cases hx : ul.1 ≤ x ∧ x < ul.1 + w
      · rw [if_pos ⟨hx.1, hx.2, hy⟩, if_pos ⟨hx.1, hx.2, by omega, by omega⟩]
      · rw [if_neg (fun hc => hx ⟨hc.1, hc.2.1⟩), if_neg (fun hc => hx ⟨hc.1, hc.2.1⟩),
          if_neg (fun hc => hx ⟨hc.1, hc.2.1⟩)]
    · rw [if_neg (fun hc => hy hc.2.2)]
      have e : (ul.1 ≤ x ∧ x < ul.1 + w ∧ ul.2 ≤ y ∧ y < ul.2 + n)
          ↔ (ul.1 ≤ x ∧ x < ul.1 + w ∧ ul.2 ≤ y ∧ y < ul.2 + (n + 1)) := by
        constructor <;> intro h <;> refine ⟨h.1, h.2.1, h.2.2.1, ?_⟩ <;> omega
      simp only [e]

theorem renderHelper_spec (t : Node) : ∀ (img : PNG),
    (renderHelper img t).width = img.width ∧ (renderHelper img t).height = img.height ∧
      ∀ x y, (renderHelper img t).pixel x y = (colorAt t x y).getD (img.pixel x y) := by
  induction t with
  | null => intro img; simp [renderHelper, colorAt]
  | node ul w h p a b c iha ihb ihc =>
    intro img
    by_cases hl : (a.isNull && b.isNull && c.isNull) = true
    · simp only [renderHelper, colorAt, hl, if_true]
      obtain ⟨h1, h2, h3⟩ := paintRect_spec p ul w h img
      refine ⟨h1, h2, fun x y => ?_⟩
      rw [h3]; split <;> rfl
    · simp only [renderHelper, colorAt, hl]
      by_cases hb : b.isNull = true
      · simp only [hb, if_true]
        obtain ⟨a1, a2, a3⟩ := iha img
        obtain ⟨c1, c2, c3⟩ := ihc (renderHelper img a)
        refine ⟨c1.trans a1, c2.trans a2, fun x y => ?_⟩
        simp [c3, a3]
        cases colorAt c x y <;> simp
      · simp only [hb]
        obtain ⟨a1, a2, a3⟩ := iha img
        obtain ⟨b1, b2, b3⟩ := ihb (renderHelper img a)
        obtain ⟨c1, c2, c3⟩ := ihc (renderHelper (renderHelper img a) b)
        refine ⟨c1.trans (b1.trans a1), c2.trans (b2.trans a2), fun x y => ?_⟩
        simp [c3, b3, a3]
        cases colorAt c x y <;> cases colorAt b x y <;> simp

theorem colorAt_node (ul : Nat × Nat) (w h : Nat) (p : RGBAPixel) (a b c : Node) (x y : Nat)
    (ha : a.isNull = false) :
    colorAt (Node.node ul w h p a b c) x y
      = (colorAt c x y).orElse fun _ => (colorAt b x y).orElse fun _ => colorAt a x y := by
  simp only [colorAt, ha, Bool.false_and, Bool.false_eq_true, if_false]
  cases b <;> simp [Node.isNull, colorAt]

theorem Render_pixel (dflt : RGBAPixel) (t : Node) :
    (Render dflt t).width = t.width ∧ (Render dflt t).height = t.height ∧
      ∀ x y, (Render dflt t).pixel x y = (colorAt t x y).getD dflt := by
  obtain ⟨h1, h2, h3⟩ := renderHelper_spec t (PNG.blank dflt t.width t.height)
  exact ⟨h1, h2, h3⟩

theorem subtreeAt_null (p : List Slot) : subtreeAt Node.null p = Node.null := by
  induction p with
  | nil => rfl
  | cons s p ih => cases s <;> exact ih

theorem isNull_eq_true {n : Node} (h : n.isNull = true) : n = Node.null := by
  cases n with
  | null => rfl
  | node _ _ _ _ _ _ _ => simp [Node.isNull] at h

theorem ShouldPrune_iff {D : Type} [LinearOrder D] (dist : RGBAPixel → RGBAPixel → D)
    (t : Node) (c : RGBAPixel) (tol : D) :
    ShouldPrune dist t c tol = true ↔ ∀ p ∈ leafAvgs t, dist p c ≤ tol := by
  induction t with
  | null => simp [ShouldPrune, leafAvgs]
  | node ul w h q a b cc iha ihb ihc =>
    by_cases hl : (a.isNull && b.isNull && cc.isNull) = true
    · rw [ShouldPrune, if_pos hl, leafAvgs, if_pos hl]
      simp
    · rw [ShouldPrune, if_neg hl, leafAvgs, if_neg hl]
      by_cases hb : b.isNull = true
      · have hbn : b = Node.null := isNull_eq_true hb
        subst hbn
        simp only [Node.isNull, Bool.not_true, Bool.false_eq_true, if_false, Bool.and_eq_true,
          iha, ihc, leafAvgs, List.append_nil, List.mem_append]
        constructor
        · rintro ⟨h1, h2⟩ p (hp | hp)
          · exact h1 p hp
          · exact h2 p hp
        · intro h; exact ⟨fun p hp => h p (Or.inl hp), fun p hp => h p (Or.inr hp)⟩
      · simp only [hb, Bool.not_false, if_true, Bool.and_eq_true, iha, ihb, ihc,
          List.mem_append]
        constructor
        · rintro ⟨⟨h1, h2⟩, h3⟩ p ((hp | hp) | hp)
          · exact h1 p hp
          · exact h2 p hp
          · exact h3 p hp
        · intro h
          exact ⟨⟨fun p hp => h p (Or.inl (Or.inl hp)), fun p hp => h p (Or.inl (Or.inr hp))⟩,
            fun p hp => h p (Or.inr hp)⟩

theorem ShouldPrune_self {D : Type} [LinearOrder D] (dist : RGBAPixel → RGBAPixel → D)
    (t : Node) (tol : D) : ShouldPrune dist t t.avg tol = true ↔ Qualifies dist tol t :=
  ShouldPrune_iff dist t t.avg tol

theorem PruneHelper_null {D : Type} [LinearOrder D] (dist : RGBAPixel → RGBAPixel → D) (tol : D) :
    PruneHelper dist Node.null tol = Node.null := rfl

theorem PruneHelper_leaf {D : Type} [LinearOrder D] (dist : RGBAPixel → RGBAPixel → D) (tol : D)
    (n : Node) (h : n.isLeaf = true) : PruneHelper dist n tol = n := by
  cases n with
  | null => rfl
  | node ul w h q a b c =>
    have h1 : (a.isNull && b.isNull && c.isNull) = true := h
    rw [PruneHelper, if_pos h1]

theorem PruneHelper_collapse {D : Type} [LinearOrder D] (dist : RGBAPixel → RGBAPixel → D)
    (tol : D) (ul : Nat × Nat) (w h : Nat) (q : RGBAPixel) (a b c : Node)
    (hl : (Node.node ul w h q a b c).isLeaf = false)
    (hq : Qualifies dist tol (Node.node ul w h q a b c)) :
    PruneHelper dist (Node.node ul w h q a b c) tol
      = Node.node ul w h q Node.null Node.null Node.null := by
  have hl1 : ¬ (a.isNull && b.isNull && c.isNull) = true := by
    simpa [Node.isLeaf] using hl
  have hq1 : ShouldPrune dist (Node.node ul w h q a b c) q tol = true :=
    (ShouldPrune_self dist _ tol).2 hq
  rw [PruneHelper, if_neg hl1, if_pos hq1]

theorem PruneHelper_rec {D : Type} [LinearOrder D] (dist : RGBAPixel → RGBAPixel → D)
    (tol : D) (ul : Nat × Nat) (w h : Nat) (q : RGBAPixel) (a b c : Node)
    (hl : (Node.node ul w h q a b c).isLeaf = false)
    (hq : ¬ Qualifies dist tol (Node.node ul w h q a b c)) :
    PruneHelper dist (Node.node ul w h q a b c) tol
      = Node.node ul w h q (PruneHelper dist a tol) (PruneHelper dist b tol)
          (PruneHelper dist c tol) := by
  have hl1 : ¬ (a.isNull && b.isNull && c.isNull) = true := by
    simpa [Node.isLeaf] using hl
  have hq1 : ¬ ShouldPrune dist (Node.node ul w h q a b c) q tol = true :=
    fun hc => hq ((ShouldPrune_self dist _ tol).1 hc)
  rw [PruneHelper, if_neg hl1, if_neg hq1]
  cases b with
  | null => rfl
  | node _ _ _ _ _ _ _ => rfl

theorem PruneHelper_isNull {D : Type} [LinearOrder D] (dist : RGBAPixel → RGBAPixel → D)
    (tol : D) (n : Node) : (PruneHelper dist n tol).isNull = n.isNull := by
  cases n with
  | null => rfl
  | node ul w h q a b c =>
    rw [PruneHelper]
    split
    · rfl
    · split <;> rfl

theorem PruneHelper_fields {D : Type} [LinearOrder D] (dist : RGBAPixel → RGBAPixel → D)
    (tol : D) (n : Node) :
    (PruneHelper dist n tol).upperleft = n.upperleft ∧ (PruneHelper dist n tol).width = n.width ∧
      (PruneHelper dist n tol).height = n.height ∧ (PruneHelper dist n tol).avg = n.avg := by
  cases n with
  | null => exact ⟨rfl, rfl, rfl, rfl⟩
  | node ul w h q a b c =>
    rw [PruneHelper]
    split
    · exact ⟨rfl, rfl, rfl, rfl⟩
    · split <;> exact ⟨rfl, rfl, rfl, rfl⟩

theorem PruneHelper_subtreeAt_kept {D : Type} [LinearOrder D]
    (dist : RGBAPixel → RGBAPixel → D) (tol : D) (t : Node) :
    ∀ p : List Slot,
      (∀ q r, p = q ++ r → r ≠ [] → (subtreeAt t q).isLeaf = false →
        ¬ Qualifies dist tol (subtreeAt t q)) →
      subtreeAt (PruneHelper dist t tol) p = PruneHelper dist (subtreeAt t p) tol := by
  induction t with
  | null => intro p _; rw [PruneHelper_null, subtreeAt_null, PruneHelper_null]
  | node ul w h q0 a b c iha ihb ihc =>
    intro p hp
    cases p with
    | nil => rfl
    | cons s p =>
      by_cases hl : (Node.node ul w h q0 a b c).isLeaf = true
      · rw [PruneHelper_leaf dist tol _ hl]
        have hc : (Node.node ul w h q0 a b c).child s = Node.null := by
          simp only [Node.isLeaf, Bool.and_eq_true] at hl
          cases s
          · exact isNull_eq_true hl.1.1
          · exact isNull_eq_true hl.1.2
          · exact isNull_eq_true hl.2
        show subtreeAt ((Node.node ul w h q0 a b c).child s) p
          = PruneHelper dist (subtreeAt ((Node.node ul w h q0 a b c).child s) p) tol
        rw [hc, subtreeAt_null, PruneHelper_null]
      · have hl0 : (Node.node ul w h q0 a b c).isLeaf = false := by simpa using hl
        have hq : ¬ Qualifies dist tol (Node.node ul w h q0 a b c) :=
          hp [] (s :: p) rfl (by simp) hl0
        rw [PruneHelper_rec dist tol ul w h q0 a b c hl0 hq]
        have hsub : ∀ q r, p = q ++ r → r ≠ [] →
            (subtreeAt ((Node.node ul w h q0 a b c).child s) q).isLeaf = false →
            ¬ Qualifies dist tol (subtreeAt ((Node.node ul w h q0 a b c).child s) q) :=
          fun q r e hr => hp (s :: q) r (by rw [e]; rfl) hr
        cases s
        · exact iha p hsub
        · exact ihb p hsub
        · exact ihc p hsub

theorem PruneHelper_subtreeAt_removed {D : Type} [LinearOrder D]
    (dist : RGBAPixel → RGBAPixel → D) (tol : D) (t : Node) :
    ∀ p : List Slot,
      (∃ q r, p = q ++ r ∧ r ≠ [] ∧ (subtreeAt t q).isLeaf = false ∧
        Qualifies dist tol (subtreeAt t q)) →
      subtreeAt (PruneHelper dist t tol) p = Node.null := by
  induction t with
  | null => intro p _; rw [PruneHelper_null, subtreeAt_null]
  | node ul w h q0 a b c iha ihb ihc =>
    intro p hp
    obtain ⟨q, r, e, hr, hl, hq⟩ := hp
    cases p with
    | nil =>
      have : r = [] := by
        have := congrArg List.length e
        simp at this
        exact List.length_eq_zero.1 (by omega)
      exact absurd this hr
    | cons s p =>
      by_cases hl1 : (Node.node ul w h q0 a b c).isLeaf = true
      · rw [PruneHelper_leaf dist tol _ hl1]
        have hc : (Node.node ul w h q0 a b c).child s = Node.null := by
          simp only [Node.isLeaf, Bool.and_eq_true] at hl1
          cases s
          · exact isNull_eq_true hl1.1.1
          · exact isNull_eq_true hl1.1.2
          · exact isNull_eq_true hl1.2
        show subtreeAt ((Node.node ul w h q0 a b c).child s) p = Node.null
        rw [hc, subtreeAt_null]
      · have hl0 : (Node.node ul w h q0 a b c).isLeaf = false := by simpa using hl1
        by_cases hq0 : Qualifies dist tol (Node.node ul w h q0 a b c)
        · rw [PruneHelper_collapse dist tol ul w h q0 a b c hl0 hq0]
          cases s <;> exact subtreeAt_null p
        · rw [PruneHelper_rec dist tol ul w h q0 a b c hl0 hq0]
          cases q with
          | nil => exact absurd hq hq0
          | cons s1 q =>
            have e1 : s = s1 ∧ p = q ++ r := by simpa using e
            obtain ⟨rfl, e2⟩ := e1
            cases s
            · exact iha p ⟨q, r, e2, hr, hl, hq⟩
            · exact ihb p ⟨q, r, e2, hr, hl, hq⟩
            · exact ihc p ⟨q, r, e2, hr, hl, hq⟩

theorem subtreeAt_append (t : Node) (q r : List Slot) :
    subtreeAt t (q ++ r) = subtreeAt (subtreeAt t q) r := by
  induction q generalizing t with
  | nil => rfl
  | cons s q ih => exact ih (t.child s)

theorem subtreeAt_leaf (n : Node) (h : n.isLeaf = true) (r : List Slot) (hr : r ≠ []) :
    subtreeAt n r = Node.null := by
  cases n with
  | null => exact subtreeAt_null r
  | node ul w h0 q a b c =>
    cases r with
    | nil => exact absurd rfl hr
    | cons s r =>
      simp only [Node.isLeaf, Bool.and_eq_true] at h
      have hc : (Node.node ul w h0 q a b c).child s = Node.null := by
        cases s
        · exact isNull_eq_true h.1.1
        · exact isNull_eq_true h.1.2
        · exact isNull_eq_true h.2
      show subtreeAt ((Node.node ul w h0 q a b c).child s) r = Node.null
      rw [hc, subtreeAt_null]

theorem ancestor_internal (t : Node) (q r : List Slot) (hr : r ≠ [])
    (hn : (subtreeAt t (q ++ r)).isNull = false) : (subtreeAt t q).isLeaf = false := by
  by_contra hc
  have hl : (subtreeAt t q).isLeaf = true := by simpa using hc
  rw [subtreeAt_append, subtreeAt_leaf _ hl r hr] at hn
  simp [Node.isNull] at hn

theorem PruneHelper_wellShaped {D : Type} [LinearOrder D] (dist : RGBAPixel → RGBAPixel → D)
    (tol : D) (t : Node) (h : wellShaped t = true) : wellShaped (PruneHelper dist t tol) = true := by
  induction t with
  | null => rfl
  | node ul w h0 q a b c iha ihb ihc =>
    by_cases hl : (Node.node ul w h0 q a b c).isLeaf = true
    · rw [PruneHelper_leaf dist tol _ hl]; exact h
    · have hl0 : (Node.node ul w h0 q a b c).isLeaf = false := by simpa using hl
      by_cases hq : Qualifies dist tol (Node.node ul w h0 q a b c)
      · rw [PruneHelper_collapse dist tol ul w h0 q a b c hl0 hq]; rfl
      · rw [PruneHelper_rec dist tol ul w h0 q a b c hl0 hq]
        have hl1 : (a.isNull && b.isNull && c.isNull) = false := hl0
        simp only [wellShaped, hl1, Bool.false_or, Bool.and_eq_true, Bool.not_eq_true'] at h
        simp only [wellShaped, PruneHelper_isNull, hl1, Bool.false_or, Bool.and_eq_true,
          Bool.not_eq_true']
        exact ⟨⟨⟨⟨h.1.1.1.1, h.1.1.1.2⟩, iha h.1.1.2⟩, ihb h.1.2⟩, ihc h.2⟩

theorem PruneHelper_isLeaf_iff {D : Type} [LinearOrder D] (dist : RGBAPixel → RGBAPixel → D)
    (tol : D) (n : Node) (hl : n.isLeaf = false) (hn : n.isNull = false) :
    (PruneHelper dist n tol).isLeaf = true ↔ Qualifies dist tol n := by
  cases n with
  | null => simp [Node.isNull] at hn
  | node ul w h q a b c =>
    by_cases hq : Qualifies dist tol (Node.node ul w h q a b c)
    · rw [PruneHelper_collapse dist tol ul w h q a b c hl hq]
      exact ⟨fun _ => hq, fun _ => rfl⟩
    · rw [PruneHelper_rec dist tol ul w h q a b c hl hq]
      have hl1 : (a.isNull && b.isNull && c.isNull) = false := hl
      refine ⟨fun hc => ?_, fun hc => absurd hc hq⟩
      simp only [Node.isLeaf, PruneHelper_isNull, hl1] at hc
      exact absurd hc (by simp)

theorem PruneHelper_slots {D : Type} [LinearOrder D] (dist : RGBAPixel → RGBAPixel → D)
    (tol : D) (n : Node) (h : ¬ (n.isLeaf = false ∧ Qualifies dist tol n)) :
    (PruneHelper dist n tol).A.isNull = n.A.isNull ∧
      (PruneHelper dist n tol).B.isNull = n.B.isNull ∧
      (PruneHelper dist n tol).C.isNull = n.C.isNull := by
  cases n with
  | null => exact ⟨rfl, rfl, rfl⟩
  | node ul w h0 q a b c =>
    by_cases hl : (Node.node ul w h0 q a b c).isLeaf = true
    · rw [PruneHelper_leaf dist tol _ hl]; exact ⟨rfl, rfl, rfl⟩
    · have hl0 : (Node.node ul w h0 q a b c).isLeaf = false := by simpa using hl
      have hq : ¬ Qualifies dist tol (Node.node ul w h0 q a b c) := fun hc => h ⟨hl0, hc⟩
      rw [PruneHelper_rec dist tol ul w h0 q a b c hl0 hq]
      exact ⟨PruneHelper_isNull dist tol a, PruneHelper_isNull dist tol b,
        PruneHelper_isNull dist tol c⟩

/-- C4: for every tree `t` of the data model and every tolerance, with `n` a node of `t` at a
path `p` and `m` what `Prune` leaves at that path: an internal `n` is turned into a childless
node exactly when every leaf of the original subtree of `n` is within `tol` of `n.avg` and no
proper ancestor of `n` passes that test against its own `avg`; when no proper ancestor passes
the test, `m` is present with the rectangle and the `avg` of `n`, and unless `n` is collapsed the
same child slots are present in `m` as in `n`; otherwise `m` is removed; an internal `m` did not
pass the test in `t`; the result is again a tree of the data model. -/
theorem Prune_collapses_highest {D : Type} [LinearOrder D] (dist : RGBAPixel → RGBAPixel → D)
    (tol : D) (t : Node) (hws : wellShaped t = true) (p : List Slot)
    (hn : (subtreeAt t p).isNull = false) :
    ((subtreeAt t p).isLeaf = false →
      (((subtreeAt (Prune dist t tol) p).isNull = false ∧
          (subtreeAt (Prune dist t tol) p).isLeaf = true)
        ↔ (Qualifies dist tol (subtreeAt t p) ∧ NoQualifyingAncestor dist tol t p))) ∧
    (NoQualifyingAncestor dist tol t p →
      (subtreeAt (Prune dist t tol) p).isNull = false ∧
      (subtreeAt (Prune dist t tol) p).upperleft = (subtreeAt t p).upperleft ∧
      (subtreeAt (Prune dist t tol) p).width = (subtreeAt t p).width ∧
      (subtreeAt (Prune dist t tol) p).height = (subtreeAt t p).height ∧
      (subtreeAt (Prune dist t tol) p).avg = (subtreeAt t p).avg ∧
      (¬ ((subtreeAt t p).isLeaf = false ∧ Qualifies dist tol (subtreeAt t p)) →
        (subtreeAt (Prune dist t tol) p).A.isNull = (subtreeAt t p).A.isNull ∧
        (subtreeAt (Prune dist t tol) p).B.isNull = (subtreeAt t p).B.isNull ∧
        (subtreeAt (Prune dist t tol) p).C.isNull = (subtreeAt t p).C.isNull)) ∧
    (¬ NoQualifyingAncestor dist tol t p → (subtreeAt (Prune dist t tol) p).isNull = true) ∧
    ((subtreeAt (Prune dist t tol) p).isNull = false →
      (subtreeAt (Prune dist t tol) p).isLeaf = false → ¬ Qualifies dist tol (subtreeAt t p)) ∧
    wellShaped (Prune dist t tol) = true := by
  have kept : NoQualifyingAncestor dist tol t p →
      subtreeAt (Prune dist t tol) p = PruneHelper dist (subtreeAt t p) tol := fun hno =>
    PruneHelper_subtreeAt_kept dist tol t p (fun q r e hr _ => hno q r e hr)
  have removed : ¬ NoQualifyingAncestor dist tol t p →
      subtreeAt (Prune dist t tol) p = Node.null := by
    intro hno
    unfold NoQualifyingAncestor at hno
    push_neg at hno
    obtain ⟨q, r, e, hr, hq⟩ := hno
    exact PruneHelper_subtreeAt_removed dist tol t p
      ⟨q, r, e, hr, ancestor_internal t q r hr (e ▸ hn), hq⟩
  refine ⟨fun hl => ⟨fun hm => ?_, fun hq => ?_⟩, fun hno => ?_, fun hno => ?_, fun hm hl => ?_,
    PruneHelper_wellShaped dist tol t hws⟩
  · have hno : NoQualifyingAncestor dist tol t p := by
      by_contra hc
      rw [removed hc] at hm
      simp [Node.isNull] at hm
    rw [kept hno] at hm
    exact ⟨(PruneHelper_isLeaf_iff dist tol _ hl hn).1 hm.2, hno⟩
  · rw [kept hq.2, PruneHelper_isNull]
    exact ⟨hn, (PruneHelper_isLeaf_iff dist tol _ hl hn).2 hq.1⟩
  · rw [kept hno, PruneHelper_isNull]
    obtain ⟨f1, f2, f3, f4⟩ := PruneHelper_fields dist tol (subtreeAt t p)
    exact ⟨hn, f1, f2, f3, f4, PruneHelper_slots dist tol _⟩
  · rw [removed hno]; rfl
  · have hno : NoQualifyingAncestor dist tol t p := by
      by_contra hc
      rw [removed hc] at hm
      simp [Node.isNull] at hm
    rw [kept hno] at hl
    intro hq
    by_cases hnl : (subtreeAt t p).isLeaf = true
    · rw [PruneHelper_leaf dist tol _ hnl, hnl] at hl
      exact absurd hl (by simp)
    · have hnl0 : (subtreeAt t p).isLeaf = false := by simpa using hnl
      rw [(PruneHelper_isLeaf_iff dist tol _ hnl0 hn).2 hq] at hl
      exact absurd hl (by simp)

/-- Witness of C4: in the tree of the grey 4x1 image 20, 0, 20, 20 with the red-channel distance
and tolerance 10, the node in slot `B` of the root (leaves 0 and 20, average 10) satisfies the
hypotheses. -/
theorem Prune_collapses_highest_witness :
    (wellShaped greyTree = true ∧ (subtreeAt greyTree [Slot.B]).isNull = false) ∧
    (((subtreeAt greyTree [Slot.B]).isLeaf = false →
      (((subtreeAt (Prune redDist greyTree 10) [Slot.B]).isNull = false ∧
          (subtreeAt (Prune redDist greyTree 10) [Slot.B]).isLeaf = true)
        ↔ (Qualifies redDist 10 (subtreeAt greyTree [Slot.B]) ∧
            NoQualifyingAncestor redDist 10 greyTree [Slot.B]))) ∧
    (NoQualifyingAncestor redDist 10 greyTree [Slot.B] →
      (subtreeAt (Prune redDist greyTree 10) [Slot.B]).isNull = false ∧
      (subtreeAt (Prune redDist greyTree 10) [Slot.B]).upperleft
        = (subtreeAt greyTree [Slot.B]).upperleft ∧
      (subtreeAt (Prune redDist greyTree 10) [Slot.B]).width
        = (subtreeAt greyTree [Slot.B]).width ∧
      (subtreeAt (Prune redDist greyTree 10) [Slot.B]).height
        = (subtreeAt greyTree [Slot.B]).height ∧
      (subtreeAt (Prune redDist greyTree 10) [Slot.B]).avg = (subtreeAt greyTree [Slot.B]).avg ∧
      (¬ ((subtreeAt greyTree [Slot.B]).isLeaf = false ∧
          Qualifies redDist 10 (subtreeAt greyTree [Slot.B])) →
        (subtreeAt (Prune redDist greyTree 10) [Slot.B]).A.isNull
          = (subtreeAt greyTree [Slot.B]).A.isNull ∧
        (subtreeAt (Prune redDist greyTree 10) [Slot.B]).B.isNull
          = (subtreeAt greyTree [Slot.B]).B.isNull ∧
        (subtreeAt (Prune redDist greyTree 10) [Slot.B]).C.isNull
          = (subtreeAt greyTree [Slot.B]).C.isNull)) ∧
    (¬ NoQualifyingAncestor redDist 10 greyTree [Slot.B] →
      (subtreeAt (Prune redDist greyTree 10) [Slot.B]).isNull = true) ∧
    ((subtreeAt (Prune redDist greyTree 10) [Slot.B]).isNull = false →
      (subtreeAt (Prune redDist greyTree 10) [Slot.B]).isLeaf = false →
      ¬ Qualifies redDist 10 (subtreeAt greyTree [Slot.B])) ∧
    wellShaped (Prune redDist greyTree 10) = true) :=
  ⟨⟨by decide, by decide⟩,
    Prune_collapses_highest redDist 10 greyTree (by decide) [Slot.B] (by decide)⟩

/-! ## Stored averages and the mean of the covered pixels -/

theorem sumRange_succ (n : Nat) (f : Nat → Nat) : sumRange (n + 1) f = sumRange n f + f n := by
  unfold sumRange
  rw [List.range_succ, List.map_append, List.sum_append]
  simp

theorem sumRange_add (n m : Nat) (f : Nat → Nat) :
    sumRange (n + m) f = sumRange n f + sumRange m (fun i => f (n + i)) := by
  induction m with
  | zero => simp [sumRange]
  | succ k ih => rw [← Nat.add_assoc, sumRange_succ, ih, sumRange_succ]; omega

theorem sumRange_add_fun (n : Nat) (f g : Nat → Nat) :
    sumRange n (fun i => f i + g i) = sumRange n f + sumRange n g := by
  induction n with
  | zero => simp [sumRange]
  | succ k ih => rw [sumRange_succ, sumRange_succ, sumRange_succ, ih]; omega

theorem sumRange_congr (n : Nat) (f g : Nat → Nat) (h : ∀ i, i < n → f i = g i) :
    sumRange n f = sumRange n g := by
  induction n with
  | zero => simp [sumRange]
  | succ k ih =>
    rw [sumRange_succ, sumRange_succ, ih (fun i hi => h i (by omega)), h k (by omega)]

theorem sumRange_le (n : Nat) (f : Nat → Nat) (b : Nat) (h : ∀ i, i < n → f i ≤ b) :
    sumRange n f ≤ n * b := by
  induction n with
  | zero => simp [sumRange]
  | succ k ih =>
    rw [sumRange_succ, Nat.succ_mul]
    have h1 := ih (fun i hi => h i (by omega))
    have h2 := h k (by omega)
    omega

theorem rectSum_hsplit (im : PNG) (ch : RGBAPixel → Nat) (x y w1 w2 h : Nat) :
    rectSum im ch (x, y) (w1 + w2) h
      = rectSum im ch (x, y) w1 h + rectSum im ch (x + w1, y) w2 h := by
  unfold rectSum
  rw [← sumRange_add_fun]
  apply sumRange_congr
  intro i _
  rw [sumRange_add]
  simp only [Nat.add_assoc]

theorem rectSum_vsplit (im : PNG) (ch : RGBAPixel → Nat) (x y w h1 h2 : Nat) :
    rectSum im ch (x, y) w (h1 + h2)
      = rectSum im ch (x, y) w h1 + rectSum im ch (x, y + h1) w h2 := by
  unfold rectSum
  rw [sumRange_add]
  simp only [Nat.add_assoc]

theorem rectSum_hsplit3 (im : PNG) (ch : RGBAPixel → Nat) (x y w1 w2 w3 h : Nat) :
    rectSum im ch (x, y) (w1 + w2 + w3) h
      = rectSum im ch (x, y) w1 h + rectSum im ch (x + w1, y) w2 h
        + rectSum im ch (x + w1 + w2, y) w3 h := by
  rw [rectSum_hsplit, rectSum_hsplit, Nat.add_assoc x w1 w2]

theorem rectSum_vsplit3 (im : PNG) (ch : RGBAPixel → Nat) (x y w h1 h2 h3 : Nat) :
    rectSum im ch (x, y) w (h1 + h2 + h3)
      = rectSum im ch (x, y) w h1 + rectSum im ch (x, y + h1) w h2
        + rectSum im ch (x, y + h1 + h2) w h3 := by
  rw [rectSum_vsplit, rectSum_vsplit, Nat.add_assoc y h1 h2]

theorem rectSum_one (im : PNG) (ch : RGBAPixel → Nat) (x y : Nat) :
    rectSum im ch (x, y) 1 1 = ch (im.pixel x y) := by
  unfold rectSum
  rw [show (1 : Nat) = 0 + 1 from rfl, sumRange_succ, sumRange_succ]
  simp [sumRange]

theorem IsChannel_le {ch : RGBAPixel → Nat} (hch : IsChannel ch) {p : RGBAPixel}
    (hp : p.InRange) : ch p ≤ 255 := by
  rcases hch with rfl | rfl | rfl
  · exact hp.1
  · exact hp.2.1
  · exact hp.2.2

theorem IsChannel_FindAverage2 {ch : RGBAPixel → Nat} (hch : IsChannel ch) (a c : Node) :
    ch (FindAverage2 a c) = clampChannel (raw2 ch a c) := by
  rcases hch with rfl | rfl | rfl
  · exact (FindAverage2_rgb a c).1
  · exact (FindAverage2_rgb a c).2.1
  · exact (FindAverage2_rgb a c).2.2

theorem IsChannel_FindAverage3 {ch : RGBAPixel → Nat} (hch : IsChannel ch) (a b c : Node) :
    ch (FindAverage3 a b c) = clampChannel (raw3 ch a b c) := by
  rcases hch with rfl | rfl | rfl
  · exact (FindAverage3_rgb a b c).1
  · exact (FindAverage3_rgb a b c).2.1
  · exact (FindAverage3_rgb a b c).2.2

theorem Built_area {im : PNG} {ul : Nat × Nat} {w h : Nat} {t : Node}
    (hb : Built im ul w h t) : area t = w * h := by
  obtain ⟨-, h2, h3⟩ := Built_fields hb
  unfold area; rw [h2, h3]

theorem wmean2_mul_le (pa ca pc cc : Nat) :
    wmean2 pa ca pc cc * (pa + pc) ≤ pa * ca + pc * cc :=
  Nat.div_mul_le_self _ _

theorem wmean3_mul_le (pa ca pb cb pc cc : Nat) :
    wmean3 pa ca pb cb pc cc * (pa + pb + pc) ≤ pa * ca + pb * cb + pc * cc :=
  Nat.div_mul_le_self _ _

theorem Built_avg_le {im : PNG} {ul : Nat × Nat} {w h : Nat} {t : Node}
    (hb : Built im ul w h t) {ch : RGBAPixel → Nat} (hch : IsChannel ch)
    (hpix : ∀ x y, inRect ul w h x y → (im.pixel x y).InRange)
    (hfit : w * h * 255 < 2147483648) :
    ch t.avg ≤ 255 ∧ ch t.avg * (w * h) ≤ rectSum im ch ul w h := by
  induction hb with
  | leaf x y =>
    have hp : (im.pixel x y).InRange := hpix x y ⟨Nat.le_refl _, by simp, Nat.le_refl _, by simp⟩
    refine ⟨IsChannel_le hch hp, ?_⟩
    rw [rectSum_one]
    show ch (im.pixel x y) * (1 * 1) ≤ ch (im.pixel x y)
    omega
  | wide2 x y h a c hh ha hc iha ihc =>
    have ea : area a = 1 * h := Built_area ha
    have ec : area c = 1 * h := Built_area hc
    obtain ⟨la, sa⟩ := iha (fun x1 y1 hr => hpix x1 y1 (by unfold inRect at *; simp only at *; omega))
      (by omega)
    obtain ⟨lc, sc⟩ := ihc (fun x1 y1 hr => hpix x1 y1 (by unfold inRect at *; simp only at *; omega))
      (by omega)
    have hfa : (area a + area c) * 255 < 2147483648 := by rw [ea, ec]; omega
    have hm : ch (FindAverage2 a c) = wmean2 (area a) (ch a.avg) (area c) (ch c.avg) := by
      rw [IsChannel_FindAverage2 hch, FindAverage2_channel ch a c la lc hfa]
    show ch (FindAverage2 a c) ≤ 255 ∧ ch (FindAverage2 a c) * (2 * h) ≤ rectSum im ch (x, y) 2 h
    rw [hm]
    refine ⟨mean2_le _ _ _ _ la lc, ?_⟩
    have hs := rectSum_hsplit im ch x y 1 1 h
    have hmul := wmean2_mul_le (area a) (ch a.avg) (area c) (ch c.avg)
    rw [ea, ec] at hmul ⊢
    rw [show (2 : Nat) = 1 + 1 from rfl, hs]
    rw [Nat.mul_comm (ch a.avg)] at sa
    rw [Nat.mul_comm (ch c.avg)] at sc
    rw [show (1 + 1) * h = 1 * h + 1 * h by ring]
    omega
  | wide3 x y w h sa sb a b c hw hh hs ha hb hc iha ihb ihc =>
    obtain ⟨-, -, -, rfl⟩ := split3_spec hw hs
    have ea : area a = sa * h := Built_area ha
    have eb : area b = sb * h := Built_area hb
    have ec : area c = sa * h := Built_area hc
    have hsum : (sa + sb + sa) * h = sa * h + sb * h + sa * h := by ring
    obtain ⟨la, qa⟩ := iha (fun x1 y1 hr => hpix x1 y1 (by unfold inRect at *; simp only at *; omega))
      (by omega)
    obtain ⟨lb, qb⟩ := ihb (fun x1 y1 hr => hpix x1 y1 (by unfold inRect at *; simp only at *; omega))
      (by omega)
    obtain ⟨lc, qc⟩ := ihc (fun x1 y1 hr => hpix x1 y1 (by unfold inRect at *; simp only at *; omega))
      (by omega)
    have hfa : (area a + area b + area c) * 255 < 2147483648 := by rw [ea, eb, ec]; omega
    have hm : ch (FindAverage3 a b c)
        = wmean3 (area a) (ch a.avg) (area b) (ch b.avg) (area c) (ch c.avg) := by
      rw [IsChannel_FindAverage3 hch, FindAverage3_channel ch a b c la lb lc hfa]
    show ch (FindAverage3 a b c) ≤ 255 ∧
      ch (FindAverage3 a b c) * ((sa + sb + sa) * h) ≤ rectSum im ch (x, y) (sa + sb + sa) h
    rw [hm]
    refine ⟨mean3_le _ _ _ _ _ _ la lb lc, ?_⟩
    have hs1 := rectSum_hsplit3 im ch x y sa sb sa h
    have hmul := wmean3_mul_le (area a) (ch a.avg) (area b) (ch b.avg) (area c) (ch c.avg)
    rw [ea, eb, ec] at hmul ⊢
    rw [hs1, hsum]
    rw [Nat.mul_comm (ch a.avg)] at qa
    rw [Nat.mul_comm (ch b.avg)] at qb
    rw [Nat.mul_comm (ch c.avg)] at qc
    omega
  | tall2 x y w a c hw ha hc iha ihc =>
    have ea : area a = w * 1 := Built_area ha
    have ec : area c = w * 1 := Built_area hc
    obtain ⟨la, sa⟩ := iha (fun x1 y1 hr => hpix x1 y1 (by unfold inRect at *; simp only at *; omega))
      (by omega)
    obtain ⟨lc, sc⟩ := ihc (fun x1 y1 hr => hpix x1 y1 (by unfold inRect at *; simp only at *; omega))
      (by omega)
    have hfa : (area a + area c) * 255 < 2147483648 := by rw [ea, ec]; omega
    have hm : ch (FindAverage2 a c) = wmean2 (area a) (ch a.avg) (area c) (ch c.avg) := by
      rw [IsChannel_FindAverage2 hch, FindAverage2_channel ch a c la lc hfa]
    show ch (FindAverage2 a c) ≤ 255 ∧ ch (FindAverage2 a c) * (w * 2) ≤ rectSum im ch (x, y) w 2
    rw [hm]
    refine ⟨mean2_le _ _ _ _ la lc, ?_⟩
    have hs := rectSum_vsplit im ch x y w 1 1
    have hmul := wmean2_mul_le (area a) (ch a.avg) (area c) (ch c.avg)
    rw [ea, ec] at hmul ⊢
    rw [show (2 : Nat) = 1 + 1 from rfl, hs]
    rw [Nat.mul_comm (ch a.avg)] at sa
    rw [Nat.mul_comm (ch c.avg)] at sc
    rw [show w * (1 + 1) = w * 1 + w * 1 by ring]
    omega
  | tall3 x y w h sa sb a b c hh hw hs ha hb hc iha ihb ihc =>
    obtain ⟨-, -, -, rfl⟩ := split3_spec hh hs
    have ea : area a = w * sa := Built_area ha
    have eb : area b = w * sb := Built_area hb
    have ec : area c = w * sa := Built_area hc
    have hsum : w * (sa + sb + sa) = w * sa + w * sb + w * sa := by ring
    obtain ⟨la, qa⟩ := iha (fun x1 y1 hr => hpix x1 y1 (by unfold inRect at *; simp only at *; omega))
      (by omega)
    obtain ⟨lb, qb⟩ := ihb (fun x1 y1 hr => hpix x1 y1 (by unfold inRect at *; simp only at *; omega))
      (by omega)
    obtain ⟨lc, qc⟩ := ihc (fun x1 y1 hr => hpix x1 y1 (by unfold inRect at *; simp only at *; omega))
      (by omega)
    have hfa : (area a + area b + area c) * 255 < 2147483648 := by rw [ea, eb, ec]; omega
    have hm : ch (FindAverage3 a b c)
        = wmean3 (area a) (ch a.avg) (area b) (ch b.avg) (area c) (ch c.avg) := by
      rw [IsChannel_FindAverage3 hch, FindAverage3_channel ch a b c la lb lc hfa]
    show ch (FindAverage3 a b c) ≤ 255 ∧
      ch (FindAverage3 a b c) * (w * (sa + sb + sa)) ≤ rectSum im ch (x, y) w (sa + sb + sa)
    rw [hm]
    refine ⟨mean3_le _ _ _ _ _ _ la lb lc, ?_⟩
    have hs1 := rectSum_vsplit3 im ch x y w sa sb sa
    have hmul := wmean3_mul_le (area a) (ch a.avg) (area b) (ch b.avg) (area c) (ch c.avg)
    rw [ea, eb, ec] at hmul ⊢
    rw [hs1, hsum]
    rw [Nat.mul_comm (ch a.avg)] at qa
    rw [Nat.mul_comm (ch b.avg)] at qb
    rw [Nat.mul_comm (ch c.avg)] at qc
    omega

theorem Built_subtreeAt {im : PNG} {ul : Nat × Nat} {w h : Nat} {t : Node}
    (hb : Built im ul w h t) :
    ∀ p : List Slot, (subtreeAt t p).isNull = false →
      ∃ ul1 w1 h1, Built im ul1 w1 h1 (subtreeAt t p) ∧
        ul.1 ≤ ul1.1 ∧ ul1.1 + w1 ≤ ul.1 + w ∧ ul.2 ≤ ul1.2 ∧ ul1.2 + h1 ≤ ul.2 + h := by
  induction hb with
  | leaf x y =>
    intro p hp
    cases p with
    | nil => exact ⟨(x, y), 1, 1, Built.leaf x y, by simp⟩
    | cons s p =>
      have : subtreeAt (Node.node (x, y) 1 1 (im.getPixel x y) Node.null Node.null Node.null)
          (s :: p) = Node.null := by cases s <;> exact subtreeAt_null p
      rw [this] at hp; simp [Node.isNull] at hp
  | wide2 x y h a c hh ha hc iha ihc =>
    intro p hp
    cases p with
    | nil => exact ⟨(x, y), 2, h, Built.wide2 x y h a c hh ha hc, by simp⟩
    | cons s p =>
      cases s with
      | A =>
        obtain ⟨u, w1, h1, hb1, q1, q2, q3, q4⟩ := iha p hp
        exact ⟨u, w1, h1, hb1, by simp only at *; omega, by simp only at *; omega,
          by simp only at *; omega, by simp only at *; omega⟩
      | B =>
        have : subtreeAt (Node.node (x, y) 2 h (FindAverage2 a c) a Node.null c)
            (Slot.B :: p) = Node.null := subtreeAt_null p
        rw [this] at hp; simp [Node.isNull] at hp
      | C =>
        obtain ⟨u, w1, h1, hb1, q1, q2, q3, q4⟩ := ihc p hp
        exact ⟨u, w1, h1, hb1, by simp only at *; omega, by simp only at *; omega,
          by simp only at *; omega, by simp only at *; omega⟩
  | wide3 x y w h sa sb a b c hw hh hs ha hb hc iha ihb ihc =>
    obtain ⟨-, -, -, h3⟩ := split3_spec hw hs
    intro p hp
    cases p with
    | nil => exact ⟨(x, y), w, h, Built.wide3 x y w h sa sb a b c hw hh hs ha hb hc, by simp⟩
    | cons s p =>
      cases s with
      | A =>
        obtain ⟨u, w1, h1, hb1, q1, q2, q3, q4⟩ := iha p hp
        exact ⟨u, w1, h1, hb1, by simp only at *; omega, by simp only at *; omega,
          by simp only at *; omega, by simp only at *; omega⟩
      | B =>
        obtain ⟨u, w1, h1, hb1, q1, q2, q3, q4⟩ := ihb p hp
        exact ⟨u, w1, h1, hb1, by simp only at *; omega, by simp only at *; omega,
          by simp only at *; omega, by simp only at *; omega⟩
      | C =>
        obtain ⟨u, w1, h1, hb1, q1, q2, q3, q4⟩ := ihc p hp
        exact ⟨u, w1, h1, hb1, by simp only at *; omega, by simp only at *; omega,
          by simp only at *; omega, by simp only at *; omega⟩
  | tall2 x y w a c hw ha hc iha ihc =>
    intro p hp
    cases p with
    | nil => exact ⟨(x, y), w, 2, Built.tall2 x y w a c hw ha hc, by simp⟩
    | cons s p =>
      cases s with
      | A =>
        obtain ⟨u, w1, h1, hb1, q1, q2, q3, q4⟩ := iha p hp
        exact ⟨u, w1, h1, hb1, by simp only at *; omega, by simp only at *; omega,
          by simp only at *; omega, by simp only at *; omega⟩
      | B =>
        have : subtreeAt (Node.node (x, y) w 2 (FindAverage2 a c) a Node.null c)
            (Slot.B :: p) = Node.null := subtreeAt_null p
        rw [this] at hp; simp [Node.isNull] at hp
      | C =>
        obtain ⟨u, w1, h1, hb1, q1, q2, q3, q4⟩ := ihc p hp
        exact ⟨u, w1, h1, hb1, by simp only at *; omega, by simp only at *; omega,
          by simp only at *; omega, by simp only at *; omega⟩
  | tall3 x y w h sa sb a b c hh hw hs ha hb hc iha ihb ihc =>
    obtain ⟨-, -, -, h3⟩ := split3_spec hh hs
    intro p hp
    cases p with
    | nil => exact ⟨(x, y), w, h, Built.tall3 x y w h sa sb a b c hh hw hs ha hb hc, by simp⟩
    | cons s p =>
      cases s with
      | A =>
        obtain ⟨u, w1, h1, hb1, q1, q2, q3, q4⟩ := iha p hp
        exact ⟨u, w1, h1, hb1, by simp only at *; omega, by simp only at *; omega,
          by simp only at *; omega, by simp only at *; omega⟩
      | B =>
        obtain ⟨u, w1, h1, hb1, q1, q2, q3, q4⟩ := ihb p hp
        exact ⟨u, w1, h1, hb1, by simp only at *; omega, by simp only at *; omega,
          by simp only at *; omega, by simp only at *; omega⟩
      | C =>
        obtain ⟨u, w1, h1, hb1, q1, q2, q3, q4⟩ := ihc p hp
        exact ⟨u, w1, h1, hb1, by simp only at *; omega, by simp only at *; omega,
          by simp only at *; omega, by simp only at *; omega⟩

theorem Built_isLeaf {im : PNG} {ul : Nat × Nat} {w h : Nat} {t : Node}
    (hb : Built im ul w h t) (hl : t.isLeaf = true) :
    w = 1 ∧ h = 1 ∧ t.avg = im.pixel ul.1 ul.2 := by
  cases hb with
  | leaf x y => exact ⟨rfl, rfl, rfl⟩
  | wide2 x y h a c hh ha hc => simp [Node.isLeaf, Built_isNull ha] at hl
  | wide3 x y w h sa sb a b c hw hh hs ha hb hc => simp [Node.isLeaf, Built_isNull ha] at hl
  | tall2 x y w a c hw ha hc => simp [Node.isLeaf, Built_isNull ha] at hl
  | tall3 x y w h sa sb a b c hh hw hs ha hb hc => simp [Node.isLeaf, Built_isNull ha] at hl

theorem Built_pos {im : PNG} {ul : Nat × Nat} {w h : Nat} {t : Node}
    (hb : Built im ul w h t) : 1 ≤ w ∧ 1 ≤ h := by
  induction hb with
  | leaf x y => exact ⟨Nat.le_refl _, Nat.le_refl _⟩
  | wide2 x y h a c hh ha hc iha ihc => exact ⟨by omega, iha.2⟩
  | wide3 x y w h sa sb a b c hw hh hs ha hb hc iha ihb ihc => exact ⟨by omega, iha.2⟩
  | tall2 x y w a c hw ha hc iha ihc => exact ⟨iha.1, by omega⟩
  | tall3 x y w h sa sb a b c hh hw hs ha hb hc iha ihb ihc => exact ⟨iha.1, by omega⟩

theorem Built_avg_children {im : PNG} {ul : Nat × Nat} {w h : Nat} {t : Node}
    (hb : Built im ul w h t) {ch : RGBAPixel → Nat} (hch : IsChannel ch)
    (hpix : ∀ x y, inRect ul w h x y → (im.pixel x y).InRange)
    (hfit : w * h * 255 < 2147483648) :
    (t.isLeaf = true → t.avg = im.pixel ul.1 ul.2) ∧
    (t.isLeaf = false → t.B.isNull = true →
      ch t.avg = wmean2 (area t.A) (ch t.A.avg) (area t.C) (ch t.C.avg)) ∧
    (t.isLeaf = false → t.B.isNull = false →
      ch t.avg
        = wmean3 (area t.A) (ch t.A.avg) (area t.B) (ch t.B.avg) (area t.C) (ch t.C.avg)) := by
  refine ⟨fun hl => (Built_isLeaf hb hl).2.2, ?_, ?_⟩
  · intro hl hB
    cases hb with
    | leaf x y => simp [Node.isLeaf, Node.isNull] at hl
    | wide2 x y h a c hh ha hc =>
      have ea : area a = 1 * h := Built_area ha
      have ec : area c = 1 * h := Built_area hc
      have la := (Built_avg_le ha hch
        (fun x1 y1 hr => hpix x1 y1 (by unfold inRect at *; simp only at *; omega)) (by omega)).1
      have lc := (Built_avg_le hc hch
        (fun x1 y1 hr => hpix x1 y1 (by unfold inRect at *; simp only at *; omega)) (by omega)).1
      have hfa : (area a + area c) * 255 < 2147483648 := by rw [ea, ec]; omega
      show ch (FindAverage2 a c) = wmean2 (area a) (ch a.avg) (area c) (ch c.avg)
      rw [IsChannel_FindAverage2 hch, FindAverage2_channel ch a c la lc hfa]
    | wide3 x y w h sa sb a b c hw hh hs ha hb hc =>
      rw [show (Node.node (x, y) w h (FindAverage3 a b c) a b c).B = b from rfl,
        Built_isNull hb] at hB
      simp at hB
    | tall2 x y w a c hw ha hc =>
      have ea : area a = w * 1 := Built_area ha
      have ec : area c = w * 1 := Built_area hc
      have la := (Built_avg_le ha hch
        (fun x1 y1 hr => hpix x1 y1 (by unfold inRect at *; simp only at *; omega)) (by omega)).1
      have lc := (Built_avg_le hc hch
        (fun x1 y1 hr => hpix x1 y1 (by unfold inRect at *; simp only at *; omega)) (by omega)).1
      have hfa : (area a + area c) * 255 < 2147483648 := by rw [ea, ec]; omega
      show ch (FindAverage2 a c) = wmean2 (area a) (ch a.avg) (area c) (ch c.avg)
      rw [IsChannel_FindAverage2 hch, FindAverage2_channel ch a c la lc hfa]
    | tall3 x y w h sa sb a b c hh hw hs ha hb hc =>
      rw [show (Node.node (x, y) w h (FindAverage3 a b c) a b c).B = b from rfl,
        Built_isNull hb] at hB
      simp at hB
  · intro hl hB
    cases hb with
    | leaf x y => simp [Node.isLeaf, Node.isNull] at hl
    | wide2 x y h a c hh ha hc => simp [Node.B, Node.isNull] at hB
    | wide3 x y w h sa sb a b c hw hh hs ha hb hc =>
      obtain ⟨-, -, -, rfl⟩ := split3_spec hw hs
      have ea : area a = sa * h := Built_area ha
      have eb : area b = sb * h := Built_area hb
      have ec : area c = sa * h := Built_area hc
      have hsum : (sa + sb + sa) * h = sa * h + sb * h + sa * h := by ring
      have la := (Built_avg_le ha hch
        (fun x1 y1 hr => hpix x1 y1 (by unfold inRect at *; simp only at *; omega)) (by omega)).1
      have lb := (Built_avg_le hb hch
        (fun x1 y1 hr => hpix x1 y1 (by unfold inRect at *; simp only at *; omega)) (by omega)).1
      have lc := (Built_avg_le hc hch
        (fun x1 y1 hr => hpix x1 y1 (by unfold inRect at *; simp only at *; omega)) (by omega)).1
      have hfa : (area a + area b + area c) * 255 < 2147483648 := by rw [ea, eb, ec]; omega
      show ch (FindAverage3 a b c)
        = wmean3 (area a) (ch a.avg) (area b) (ch b.avg) (area c) (ch c.avg)
      rw [IsChannel_FindAverage3 hch, FindAverage3_channel ch a b c la lb lc hfa]
    | tall2 x y w a c hw ha hc => simp [Node.B, Node.isNull] at hB
    | tall3 x y w h sa sb a b c hh hw hs ha hb hc =>
      obtain ⟨-, -, -, rfl⟩ := split3_spec hh hs
      have ea : area a = w * sa := Built_area ha
      have eb : area b = w * sb := Built_area hb
      have ec : area c = w * sa := Built_area hc
      have hsum : w * (sa + sb + sa) = w * sa + w * sb + w * sa := by ring
      have la := (Built_avg_le ha hch
        (fun x1 y1 hr => hpix x1 y1 (by unfold inRect at *; simp only at *; omega)) (by omega)).1
      have lb := (Built_avg_le hb hch
        (fun x1 y1 hr => hpix x1 y1 (by unfold inRect at *; simp only at *; omega)) (by omega)).1
      have lc := (Built_avg_le hc hch
        (fun x1 y1 hr => hpix x1 y1 (by unfold inRect at *; simp only at *; omega)) (by omega)).1
      have hfa : (area a + area b + area c) * 255 < 2147483648 := by rw [ea, eb, ec]; omega
      show ch (FindAverage3 a b c)
        = wmean3 (area a) (ch a.avg) (area b) (ch b.avg) (area c) (ch c.avg)
      rw [IsChannel_FindAverage3 hch, FindAverage3_channel ch a b c la lb lc hfa]

theorem Built_avg_exact {im : PNG} {ul : Nat × Nat} {w h : Nat} {t : Node}
    (hb : Built im ul w h t) {ch : RGBAPixel → Nat} (hch : IsChannel ch)
    (hpix : ∀ x y, inRect ul w h x y → (im.pixel x y).InRange)
    (hfit : w * h * 255 < 2147483648)
    (hA : t.A.isLeaf = true) (hC : t.C.isLeaf = true)
    (hB : t.B.isNull = true ∨ t.B.isLeaf = true) :
    ch t.avg = rectMean im ch ul w h := by
  have hl : t.isLeaf = false := by
    cases t with
    | null => rfl
    | node u w0 h0 q a b c =>
      cases a with
      | null => simp [Node.A, Node.isLeaf] at hA
      | node _ _ _ _ _ _ _ => rfl
  obtain ⟨-, k2, k3⟩ := Built_avg_children hb hch hpix hfit
  cases hb with
  | leaf x y => simp [Node.isLeaf, Node.isNull] at hl
  | wide2 x y h a c hh ha hc =>
    obtain ⟨-, rfl, pa⟩ := Built_isLeaf ha hA
    obtain ⟨-, -, pc⟩ := Built_isLeaf hc hC
    rw [k2 hl rfl]
    show wmean2 (area a) (ch a.avg) (area c) (ch c.avg) = rectMean im ch (x, y) 2 1
    rw [Built_area ha, Built_area hc, pa, pc]
    unfold wmean2 rectMean
    rw [show (2 : Nat) = 1 + 1 from rfl, rectSum_hsplit, rectSum_one, rectSum_one]
    simp
  | wide3 x y w h sa sb a b c hw hh hs ha hb hc =>
    obtain ⟨-, -, -, rfl⟩ := split3_spec hw hs
    obtain ⟨rfl, rfl, pa⟩ := Built_isLeaf ha hA
    obtain ⟨-, -, pc⟩ := Built_isLeaf hc hC
    have hB1 : b.isLeaf = true := by
      rcases hB with hB | hB
      · rw [show (Node.node (x, y) (1 + sb + 1) 1 (FindAverage3 a b c) a b c).B = b from rfl,
          Built_isNull hb] at hB
        simp at hB
      · exact hB
    obtain ⟨rfl, -, pb⟩ := Built_isLeaf hb hB1
    rw [k3 hl (Built_isNull hb)]
    show wmean3 (area a) (ch a.avg) (area b) (ch b.avg) (area c) (ch c.avg)
      = rectMean im ch (x, y) (1 + 1 + 1) 1
    rw [Built_area ha, Built_area hb, Built_area hc, pa, pb, pc]
    unfold wmean3 rectMean
    rw [rectSum_hsplit3, rectSum_one, rectSum_one, rectSum_one]
    simp
  | tall2 x y w a c hw ha hc =>
    obtain ⟨rfl, -, pa⟩ := Built_isLeaf ha hA
    obtain ⟨-, -, pc⟩ := Built_isLeaf hc hC
    rw [k2 hl rfl]
    show wmean2 (area a) (ch a.avg) (area c) (ch c.avg) = rectMean im ch (x, y) 1 2
    rw [Built_area ha, Built_area hc, pa, pc]
    unfold wmean2 rectMean
    rw [show (2 : Nat) = 1 + 1 from rfl, rectSum_vsplit, rectSum_one, rectSum_one]
    simp
  | tall3 x y w h sa sb a b c hh hw hs ha hb hc =>
    obtain ⟨-, -, -, rfl⟩ := split3_spec hh hs
    obtain ⟨rfl, rfl, pa⟩ := Built_isLeaf ha hA
    obtain ⟨-, -, pc⟩ := Built_isLeaf hc hC
    have hB1 : b.isLeaf = true := by
      rcases hB with hB | hB
      · rw [show (Node.node (x, y) 1 (1 + sb + 1) (FindAverage3 a b c) a b c).B = b from rfl,
          Built_isNull hb] at hB
        simp at hB
      · exact hB
    obtain ⟨-, rfl, pb⟩ := Built_isLeaf hb hB1
    rw [k3 hl (Built_isNull hb)]
    show wmean3 (area a) (ch a.avg) (area b) (ch b.avg) (area c) (ch c.avg)
      = rectMean im ch (x, y) 1 (1 + 1 + 1)
    rw [Built_area ha, Built_area hb, Built_area hc, pa, pb, pc]
    unfold wmean3 rectMean
    rw [rectSum_vsplit3, rectSum_one, rectSum_one, rectSum_one]
    simp

/-- C8, as stated, fails: in the tree of the grey 4x1 image with values 0, 0, 1, 3 the root
stores the red average 0 (the blend of 0, of the child average `(0 + 1) / 2 = 0` over two pixels,
and of 3), while the integer-truncated mean of the four pixels is 1. -/
theorem TripleTree_avg_counterexample :
    (1 ≤ (greyRow [0, 0, 1, 3]).width ∧ 1 ≤ (greyRow [0, 0, 1, 3]).height) ∧
    TripleTree examplePixel (greyRow [0, 0, 1, 3]) = some skewTree ∧
    skewTree.avg.r = 0 ∧
    rectMean (greyRow [0, 0, 1, 3]) RGBAPixel.r skewTree.upperleft skewTree.width skewTree.height
      = 1 :=
  ⟨by decide, rfl, by decide, by decide⟩

/-- C8, amended: in a freshly built tree over an image with width and height at least 1, colour
channels in `[0, 255]` and a pixel count whose product with 255 fits a signed 32-bit `int`, every
leaf stores the source pixel of its origin, every other node stores in each colour channel the
integer-truncated area-weighted mean of the averages stored in its children (2-way when `B` is
absent, 3-way otherwise); that value never exceeds the integer-truncated mean of the channel over
the pixels of the node rectangle, and equals it when all the children are leaves. -/
theorem TripleTree_avg_blend (dflt : RGBAPixel) (im : PNG) (hw : 1 ≤ im.width)
    (hh : 1 ≤ im.height)
    (hpix : ∀ x y, x < im.width → y < im.height → (im.pixel x y).InRange)
    (hfit : im.width * im.height * 255 < 2147483648) :
    ∃ t, TripleTree dflt im = some t ∧
      ∀ (p : List Slot) (n : Node) (ch : RGBAPixel → Nat), subtreeAt t p = n →
        n.isNull = false → IsChannel ch →
        (n.isLeaf = true → n.avg = im.getPixel n.upperleft.1 n.upperleft.2) ∧
        (n.isLeaf = false → n.B.isNull = true →
          ch n.avg = wmean2 (area n.A) (ch n.A.avg) (area n.C) (ch n.C.avg)) ∧
        (n.isLeaf = false → n.B.isNull = false →
          ch n.avg
            = wmean3 (area n.A) (ch n.A.avg) (area n.B) (ch n.B.avg) (area n.C) (ch n.C.avg)) ∧
        ch n.avg ≤ rectMean im ch n.upperleft n.width n.height ∧
        (n.A.isLeaf = true → n.C.isLeaf = true → (n.B.isNull = true ∨ n.B.isLeaf = true) →
          ch n.avg = rectMean im ch n.upperleft n.width n.height) := by
  obtain ⟨t, ht, hb⟩ := TripleTree_built dflt im hw hh
  refine ⟨t, ht, ?_⟩
  intro p n ch hp hn hch
  subst hp
  obtain ⟨ul1, w1, h1, hb1, q1, q2, q3, q4⟩ := Built_subtreeAt hb p hn
  obtain ⟨f1, f2, f3⟩ := Built_fields hb1
  obtain ⟨pw, ph⟩ := Built_pos hb1
  have hpix1 : ∀ x y, inRect ul1 w1 h1 x y → (im.pixel x y).InRange := fun x y hr =>
    hpix x y (by unfold inRect at hr; simp only at *; omega)
      (by unfold inRect at hr; simp only at *; omega)
  have hle : w1 * h1 ≤ im.width * im.height :=
    Nat.mul_le_mul (by simp only at *; omega) (by simp only at *; omega)
  have hfit1 : w1 * h1 * 255 < 2147483648 := by omega
  obtain ⟨k1, k2, k3⟩ := Built_avg_children hb1 hch hpix1 hfit1
  obtain ⟨-, k4⟩ := Built_avg_le hb1 hch hpix1 hfit1
  rw [f1, f2, f3]
  refine ⟨k1, k2, k3, ?_, fun hA hC hB => Built_avg_exact hb1 hch hpix1 hfit1 hA hC hB⟩
  unfold rectMean
  exact (Nat.le_div_iff_mul_le (Nat.mul_pos pw ph)).2 k4

/-- Witness of the amended C8: the 4x3 gradient image satisfies the hypotheses. -/
theorem TripleTree_avg_blend_witness :
    (1 ≤ (gradientImage 4 3).width ∧ 1 ≤ (gradientImage 4 3).height ∧
      (∀ x y, x < (gradientImage 4 3).width → y < (gradientImage 4 3).height →
        ((gradientImage 4 3).pixel x y).InRange) ∧
      (gradientImage 4 3).width * (gradientImage 4 3).height * 255 < 2147483648) ∧
    ∃ t, TripleTree examplePixel (gradientImage 4 3) = some t ∧
      ∀ (p : List Slot) (n : Node) (ch : RGBAPixel → Nat), subtreeAt t p = n →
        n.isNull = false → IsChannel ch →
        (n.isLeaf = true → n.avg = (gradientImage 4 3).getPixel n.upperleft.1 n.upperleft.2) ∧
        (n.isLeaf = false → n.B.isNull = true →
          ch n.avg = wmean2 (area n.A) (ch n.A.avg) (area n.C) (ch n.C.avg)) ∧
        (n.isLeaf = false → n.B.isNull = false →
          ch n.avg
            = wmean3 (area n.A) (ch n.A.avg) (area n.B) (ch n.B.avg) (area n.C) (ch n.C.avg)) ∧
        ch n.avg ≤ rectMean (gradientImage 4 3) ch n.upperleft n.width n.height ∧
        (n.A.isLeaf = true → n.C.isLeaf = true → (n.B.isNull = true ∨ n.B.isLeaf = true) →
          ch n.avg = rectMean (gradientImage 4 3) ch n.upperleft n.width n.height) := by
  have hpix : ∀ x y, x < (gradientImage 4 3).width → y < (gradientImage 4 3).height →
      ((gradientImage 4 3).pixel x y).InRange := by
    intro x y _ _
    refine ⟨?_, ?_, ?_⟩ <;> simp only [gradientImage] <;> omega
  exact ⟨⟨by decide, by decide, hpix, by decide⟩,
    TripleTree_avg_blend examplePixel (gradientImage 4 3) (by decide) (by decide) hpix
      (by decide)⟩

/-! ## The tiling invariant and the moves -/

theorem Good_node_iff (ul : Nat × Nat) (w h : Nat) (p : RGBAPixel) (a b c : Node) :
    Good (Node.node ul w h p a b c) ↔
      (1 ≤ w ∧ 1 ≤ h) ∧ ul.1 + w < 4294967296 ∧ ul.2 + h < 4294967296 ∧
      ((a.isNull = true ∧ b.isNull = true ∧ c.isNull = true) ∨
        (a.isNull = false ∧ c.isNull = false ∧ Good a ∧ Good b ∧ Good c ∧
          (HTiles ul w h a b c ∨ VTiles ul w h a b c))) := by
  rw [Good]

theorem Built_Good {im : PNG} {ul : Nat × Nat} {w h : Nat} {t : Node}
    (hb : Built im ul w h t) (bx : ul.1 + w < 4294967296) (by1 : ul.2 + h < 4294967296) :
    Good t := by
  induction hb with
  | leaf x y => exact (Good_node_iff _ _ _ _ _ _ _).2 ⟨⟨Nat.le_refl 1, Nat.le_refl 1⟩, bx, by1, Or.inl ⟨rfl, rfl, rfl⟩⟩
  | wide2 x y h a c hh ha hc iha ihc =>
    obtain ⟨a1, a2, a3⟩ := Built_fields ha
    obtain ⟨c1, c2, c3⟩ := Built_fields hc
    refine (Good_node_iff _ _ _ _ _ _ _).2 ⟨Built_pos (Built.wide2 x y h a c hh ha hc), bx, by1, Or.inr ⟨Built_isNull ha, Built_isNull hc,
      iha (by simp only at *; omega) by1, trivial, ihc (by simp only at *; omega) by1,
      Or.inl ?_⟩⟩
    unfold HTiles
    rw [a1, a2, a3, c1, c2, c3]
    exact ⟨by omega, rfl, rfl, rfl, rfl, rfl, rfl, fun hn => by simp [Node.isNull] at hn,
      Or.inl ⟨rfl, rfl⟩⟩
  | wide3 x y w h sa sb a b c hw hh hs ha hb hc iha ihb ihc =>
    obtain ⟨-, -, -, h3⟩ := split3_spec hw hs
    obtain ⟨a1, a2, a3⟩ := Built_fields ha
    obtain ⟨b1, b2, b3⟩ := Built_fields hb
    obtain ⟨c1, c2, c3⟩ := Built_fields hc
    refine (Good_node_iff _ _ _ _ _ _ _).2 ⟨Built_pos (Built.wide3 x y w h sa sb a b c hw hh hs ha hb hc), bx, by1, Or.inr ⟨Built_isNull ha, Built_isNull hc,
      iha (by simp only at *; omega) by1, ihb (by simp only at *; omega) by1,
      ihc (by simp only at *; omega) by1, Or.inl ?_⟩⟩
    unfold HTiles
    rw [a1, a2, a3, b1, b2, b3, c1, c2, c3]
    exact ⟨hh, rfl, rfl, rfl, rfl, rfl, h3, fun _ => ⟨rfl, rfl⟩, Or.inl ⟨rfl, rfl⟩⟩
  | tall2 x y w a c hw ha hc iha ihc =>
    obtain ⟨a1, a2, a3⟩ := Built_fields ha
    obtain ⟨c1, c2, c3⟩ := Built_fields hc
    refine (Good_node_iff _ _ _ _ _ _ _).2 ⟨Built_pos (Built.tall2 x y w a c hw ha hc), bx, by1, Or.inr ⟨Built_isNull ha, Built_isNull hc,
      iha bx (by simp only at *; omega), trivial, ihc bx (by simp only at *; omega),
      Or.inr ?_⟩⟩
    unfold VTiles
    rw [a1, a2, a3, c1, c2, c3]
    exact ⟨by omega, rfl, rfl, rfl, rfl, rfl, rfl, fun hn => by simp [Node.isNull] at hn,
      Or.inl ⟨rfl, rfl⟩⟩
  | tall3 x y w h sa sb a b c hh hw hs ha hb hc iha ihb ihc =>
    obtain ⟨-, -, -, h3⟩ := split3_spec hh hs
    obtain ⟨a1, a2, a3⟩ := Built_fields ha
    obtain ⟨b1, b2, b3⟩ := Built_fields hb
    obtain ⟨c1, c2, c3⟩ := Built_fields hc
    refine (Good_node_iff _ _ _ _ _ _ _).2 ⟨Built_pos (Built.tall3 x y w h sa sb a b c hh hw hs ha hb hc), bx, by1, Or.inr ⟨Built_isNull ha, Built_isNull hc,
      iha bx (by simp only at *; omega), ihb bx (by simp only at *; omega),
      ihc bx (by simp only at *; omega), Or.inr ?_⟩⟩
    unfold VTiles
    rw [a1, a2, a3, b1, b2, b3, c1, c2, c3]
    exact ⟨by omega, rfl, rfl, rfl, rfl, rfl, h3, fun _ => ⟨rfl, rfl⟩, Or.inl ⟨rfl, rfl⟩⟩

theorem leafCond_true {a b c : Node} (h : (a.isNull && b.isNull && c.isNull) = true) :
    a = Node.null ∧ b = Node.null ∧ c = Node.null := by
  simp only [Bool.and_eq_true] at h
  exact ⟨isNull_eq_true h.1.1, isNull_eq_true h.1.2, isNull_eq_true h.2⟩

theorem leafCond_false {a : Node} (b c : Node) (h : a.isNull = false) :
    (a.isNull && b.isNull && c.isNull) = false := by
  rw [h]; rfl

theorem MoveToRight_node (d : Nat) (ul : Nat × Nat) (w h : Nat) (p : RGBAPixel) (a b c : Node) :
    MoveToRight d (Node.node ul w h p a b c)
      = Node.node ((ul.1 + d) % 4294967296, ul.2) w h p
          (MoveToRight d a) (MoveToRight d b) (MoveToRight d c) := by
  rw [MoveToRight]
  split
  · rename_i hl
    obtain ⟨rfl, rfl, rfl⟩ := leafCond_true hl
    rfl
  · rfl

theorem MoveToLeft_node (d : Nat) (ul : Nat × Nat) (w h : Nat) (p : RGBAPixel) (a b c : Node) :
    MoveToLeft d (Node.node ul w h p a b c)
      = Node.node ((ul.1 + (4294967296 - d) % 4294967296) % 4294967296, ul.2) w h p
          (MoveToLeft d a) (MoveToLeft d b) (MoveToLeft d c) := by
  rw [MoveToLeft]
  split
  · rename_i hl
    obtain ⟨rfl, rfl, rfl⟩ := leafCond_true hl
    rfl
  · rfl

theorem MoveToRight_isNull (d : Nat) (t : Node) : (MoveToRight d t).isNull = t.isNull := by
  cases t with
  | null => rfl
  | node ul w h p a b c => rw [MoveToRight_node]; rfl

theorem MoveToLeft_isNull (d : Nat) (t : Node) : (MoveToLeft d t).isNull = t.isNull := by
  cases t with
  | null => rfl
  | node ul w h p a b c => rw [MoveToLeft_node]; rfl

theorem MoveToRight_fields (d : Nat) (t : Node) :
    (MoveToRight d t).width = t.width ∧ (MoveToRight d t).height = t.height ∧
      (MoveToRight d t).avg = t.avg ∧ (MoveToRight d t).upperleft.2 = t.upperleft.2 := by
  cases t with
  | null => exact ⟨rfl, rfl, rfl, rfl⟩
  | node ul w h p a b c => rw [MoveToRight_node]; exact ⟨rfl, rfl, rfl, rfl⟩

theorem MoveToLeft_fields (d : Nat) (t : Node) :
    (MoveToLeft d t).width = t.width ∧ (MoveToLeft d t).height = t.height ∧
      (MoveToLeft d t).avg = t.avg ∧ (MoveToLeft d t).upperleft.2 = t.upperleft.2 := by
  cases t with
  | null => exact ⟨rfl, rfl, rfl, rfl⟩
  | node ul w h p a b c => rw [MoveToLeft_node]; exact ⟨rfl, rfl, rfl, rfl⟩

theorem MoveToRight_x (d : Nat) (t : Node) (hn : t.isNull = false)
    (hb : t.upperleft.1 + d < 4294967296) :
    (MoveToRight d t).upperleft.1 = t.upperleft.1 + d := by
  cases t with
  | null => simp [Node.isNull] at hn
  | node ul w h p a b c =>
    rw [MoveToRight_node]
    have hb1 : ul.1 + d < 4294967296 := hb
    show (ul.1 + d) % 4294967296 = ul.1 + d
    exact Nat.mod_eq_of_lt hb1

theorem MoveToLeft_x (d : Nat) (t : Node) (hn : t.isNull = false)
    (hd : d ≤ t.upperleft.1) (hb : t.upperleft.1 < 4294967296) :
    (MoveToLeft d t).upperleft.1 = t.upperleft.1 - d := by
  cases t with
  | null => simp [Node.isNull] at hn
  | node ul w h p a b c =>
    rw [MoveToLeft_node]
    have hb1 : ul.1 < 4294967296 := hb
    have hd1 : d ≤ ul.1 := hd
    show (ul.1 + (4294967296 - d) % 4294967296) % 4294967296 = ul.1 - d
    omega

/-- The rectangle of a present child `k` lies inside the rectangle of origin `ul`, width `w` and
height `h`. -/
theorem tiles_inside {ul : Nat × Nat} {w h : Nat} {a b c : Node}
    (ht : HTiles ul w h a b c ∨ VTiles ul w h a b c) :
    (ul.1 ≤ a.upperleft.1 ∧ a.upperleft.1 + a.width ≤ ul.1 + w ∧
      ul.2 ≤ a.upperleft.2 ∧ a.upperleft.2 + a.height ≤ ul.2 + h) ∧
    (b.isNull = false → ul.1 ≤ b.upperleft.1 ∧ b.upperleft.1 + b.width ≤ ul.1 + w ∧
      ul.2 ≤ b.upperleft.2 ∧ b.upperleft.2 + b.height ≤ ul.2 + h) ∧
    (ul.1 ≤ c.upperleft.1 ∧ c.upperleft.1 + c.width ≤ ul.1 + w ∧
      ul.2 ≤ c.upperleft.2 ∧ c.upperleft.2 + c.height ≤ ul.2 + h) := by
  rcases ht with ht | ht
  · obtain ⟨h1, h2, h3, h4, h5, h6, h7, h8, h9⟩ := ht
    refine ⟨by omega, fun hb => ?_, by omega⟩
    obtain ⟨e1, e2⟩ := h8 hb
    rw [e2]
    simp only
    omega
  · obtain ⟨h1, h2, h3, h4, h5, h6, h7, h8, h9⟩ := ht
    refine ⟨by omega, fun hb => ?_, by omega⟩
    obtain ⟨e1, e2⟩ := h8 hb
    rw [e2]
    simp only
    omega

theorem HTiles_map {ul : Nat × Nat} {w h : Nat} {a b c a1 b1 c1 : Node} (g : Nat → Nat)
    (hg : ∀ u, ul.1 ≤ u → g u = g ul.1 + (u - ul.1))
    (ht : HTiles ul w h a b c)
    (fa : a1.width = a.width ∧ a1.height = a.height ∧
      a1.upperleft = (g a.upperleft.1, a.upperleft.2))
    (fb : b1.isNull = b.isNull ∧ b1.width = b.width ∧ b1.height = b.height ∧
      (b.isNull = false → b1.upperleft = (g b.upperleft.1, b.upperleft.2)))
    (fc : c1.width = c.width ∧ c1.height = c.height ∧
      c1.upperleft = (g c.upperleft.1, c.upperleft.2)) :
    HTiles (g ul.1, ul.2) w h a1 b1 c1 := by
  obtain ⟨h1, h2, h3, h4, h5, h6, h7, h8, h9⟩ := ht
  obtain ⟨fa1, fa2, fa3⟩ := fa
  obtain ⟨fb0, fb1, fb2, fb3⟩ := fb
  obtain ⟨fc1, fc2, fc3⟩ := fc
  refine ⟨h1, by omega, by omega, by rw [fa3]; exact h4, by rw [fc3]; exact h5, by omega,
    by omega, fun hb => ?_, ?_⟩
  · rw [fb0] at hb
    obtain ⟨e1, e2⟩ := h8 hb
    refine ⟨by omega, ?_⟩
    rw [fb3 hb, e2, fa1]
    simp only
    rw [hg (ul.1 + a.width) (by omega)]
    congr 1
    omega
  · rw [fa3, fc3, fa1, fb1]
    simp only
    rcases h9 with ⟨e1, e2⟩ | ⟨e1, e2⟩
    · left
      rw [e1, e2, hg (ul.1 + a.width + b.width) (by omega)]
      exact ⟨rfl, by omega⟩
    · right
      rw [e1, e2, hg (ul.1 + a.width + b.width) (by omega)]
      exact ⟨rfl, by omega⟩

theorem VTiles_map {ul : Nat × Nat} {w h : Nat} {a b c a1 b1 c1 : Node} (g : Nat → Nat)
    (ht : VTiles ul w h a b c)
    (fa : a1.width = a.width ∧ a1.height = a.height ∧
      a1.upperleft = (g a.upperleft.1, a.upperleft.2))
    (fb : b1.isNull = b.isNull ∧ b1.width = b.width ∧ b1.height = b.height ∧
      (b.isNull = false → b1.upperleft = (g b.upperleft.1, b.upperleft.2)))
    (fc : c1.width = c.width ∧ c1.height = c.height ∧
      c1.upperleft = (g c.upperleft.1, c.upperleft.2)) :
    VTiles (g ul.1, ul.2) w h a1 b1 c1 := by
  obtain ⟨h1, h2, h3, h4, h5, h6, h7, h8, h9⟩ := ht
  obtain ⟨fa1, fa2, fa3⟩ := fa
  obtain ⟨fb0, fb1, fb2, fb3⟩ := fb
  obtain ⟨fc1, fc2, fc3⟩ := fc
  refine ⟨h1, by omega, by omega, by rw [fa3, h4], by rw [fc3, h5], by omega,
    by omega, fun hb => ?_, ?_⟩
  · rw [fb0] at hb
    obtain ⟨e1, e2⟩ := h8 hb
    refine ⟨by omega, ?_⟩
    rw [fb3 hb, e2, fa2]
  · rw [fa3, fc3, fa2, fb2]
    exact h9

theorem colorAt_leaf (ul : Nat × Nat) (w h : Nat) (p : RGBAPixel) (x y : Nat) :
    colorAt (Node.node ul w h p Node.null Node.null Node.null) x y
      = if inRect ul w h x y then some p else none := by
  simp [colorAt, Node.isNull]

theorem MoveToRight_spec (d : Nat) (t : Node) :
    Good t → (t.isNull = false → t.upperleft.1 + t.width + d < 4294967296) →
      Good (MoveToRight d t) ∧
      ∀ x y, colorAt (MoveToRight d t) x y = if d ≤ x then colorAt t (x - d) y else none := by
  induction t with
  | null =>
    intro _ _
    refine ⟨trivial, fun x y => ?_⟩
    show (none : Option RGBAPixel) = _
    split <;> rfl
  | node ul w h p a b c iha ihb ihc =>
    intro hg hb
    have hb1 : ul.1 + w + d < 4294967296 := hb rfl
    obtain ⟨g0, g1, g2, g3⟩ := (Good_node_iff _ _ _ _ _ _ _).1 hg
    rw [MoveToRight_node]
    have ex : (ul.1 + d) % 4294967296 = ul.1 + d := Nat.mod_eq_of_lt (by omega)
    rw [ex]
    rcases g3 with ⟨ha, hb0, hc⟩ | ⟨ha, hc, ga, gb, gc, ht⟩
    · obtain rfl := isNull_eq_true ha
      obtain rfl := isNull_eq_true hb0
      obtain rfl := isNull_eq_true hc
      refine ⟨(Good_node_iff _ _ _ _ _ _ _).2 ⟨g0, by simp only; omega, g2, Or.inl ⟨rfl, rfl, rfl⟩⟩,
        fun x y => ?_⟩
      show colorAt (Node.node (ul.1 + d, ul.2) w h p Node.null Node.null Node.null) x y = _
      rw [colorAt_leaf, colorAt_leaf]
      unfold inRect
      simp only
      by_cases hx : d ≤ x
      · rw [if_pos hx]
        by_cases hr : ul.1 ≤ x - d ∧ x - d < ul.1 + w ∧ ul.2 ≤ y ∧ y < ul.2 + h
        · rw [if_pos hr, if_pos (by omega)]
        · rw [if_neg hr, if_neg (by omega)]
      · rw [if_neg hx, if_neg (by omega)]
    · obtain ⟨ia, ib, ic⟩ := tiles_inside ht
      obtain ⟨ga1, ca1⟩ := iha ga (fun _ => by omega)
      obtain ⟨gb1, cb1⟩ := ihb gb (fun hn => by have := ib hn; omega)
      obtain ⟨gc1, cc1⟩ := ihc gc (fun _ => by omega)
      have fa := MoveToRight_fields d a
      have fb := MoveToRight_fields d b
      have fc := MoveToRight_fields d c
      have xa := MoveToRight_x d a ha (by omega)
      have xc := MoveToRight_x d c hc (by omega)
      have ea : (MoveToRight d a).upperleft = (a.upperleft.1 + d, a.upperleft.2) :=
        Prod.ext xa fa.2.2.2
      have ec : (MoveToRight d c).upperleft = (c.upperleft.1 + d, c.upperleft.2) :=
        Prod.ext xc fc.2.2.2
      have eb : b.isNull = false →
          (MoveToRight d b).upperleft = (b.upperleft.1 + d, b.upperleft.2) := fun hn =>
        Prod.ext (MoveToRight_x d b hn (by have := ib hn; omega)) fb.2.2.2
      refine ⟨(Good_node_iff _ _ _ _ _ _ _).2 ⟨g0, by simp only; omega, g2, Or.inr
        ⟨by rw [MoveToRight_isNull]; exact ha, by rw [MoveToRight_isNull]; exact hc,
          ga1, gb1, gc1, ?_⟩⟩, fun x y => ?_⟩
      · rcases ht with ht | ht
        · exact Or.inl (HTiles_map (fun u => u + d) (fun u hu => by simp only; omega) ht
            ⟨fa.1, fa.2.1, ea⟩ ⟨MoveToRight_isNull d b, fb.1, fb.2.1, eb⟩ ⟨fc.1, fc.2.1, ec⟩)
        · exact Or.inr (VTiles_map (fun u => u + d) ht
            ⟨fa.1, fa.2.1, ea⟩ ⟨MoveToRight_isNull d b, fb.1, fb.2.1, eb⟩ ⟨fc.1, fc.2.1, ec⟩)
      · rw [colorAt_node _ _ _ _ _ _ _ _ _ (by rw [MoveToRight_isNull]; exact ha),
          colorAt_node _ _ _ _ _ _ _ _ _ ha, ca1, cb1, cc1]
        by_cases hx : d ≤ x
        · simp only [if_pos hx]
        · simp only [if_neg hx]; rfl

theorem MoveToLeft_spec (d : Nat) (t : Node) :
    Good t → (t.isNull = false → d ≤ t.upperleft.1) →
      Good (MoveToLeft d t) ∧
      ∀ x y, colorAt (MoveToLeft d t) x y = colorAt t (x + d) y := by
  induction t with
  | null =>
    intro _ _
    exact ⟨trivial, fun x y => rfl⟩
  | node ul w h p a b c iha ihb ihc =>
    intro hg hb
    have hb1 : d ≤ ul.1 := hb rfl
    obtain ⟨g0, g1, g2, g3⟩ := (Good_node_iff _ _ _ _ _ _ _).1 hg
    rw [MoveToLeft_node]
    have ex : (ul.1 + (4294967296 - d) % 4294967296) % 4294967296 = ul.1 - d := by omega
    rw [ex]
    rcases g3 with ⟨ha, hb0, hc⟩ | ⟨ha, hc, ga, gb, gc, ht⟩
    · obtain rfl := isNull_eq_true ha
      obtain rfl := isNull_eq_true hb0
      obtain rfl := isNull_eq_true hc
      refine ⟨(Good_node_iff _ _ _ _ _ _ _).2 ⟨g0, by simp only; omega, g2, Or.inl ⟨rfl, rfl, rfl⟩⟩,
        fun x y => ?_⟩
      show colorAt (Node.node (ul.1 - d, ul.2) w h p Node.null Node.null Node.null) x y = _
      rw [colorAt_leaf, colorAt_leaf]
      unfold inRect
      simp only
      by_cases hr : ul.1 ≤ x + d ∧ x + d < ul.1 + w ∧ ul.2 ≤ y ∧ y < ul.2 + h
      · rw [if_pos hr, if_pos (by omega)]
      · rw [if_neg hr, if_neg (by omega)]
    · obtain ⟨ia, ib, ic⟩ := tiles_inside ht
      obtain ⟨ga1, ca1⟩ := iha ga (fun _ => by omega)
      obtain ⟨gb1, cb1⟩ := ihb gb (fun hn => by have := ib hn; omega)
      obtain ⟨gc1, cc1⟩ := ihc gc (fun _ => by omega)
      have fa := MoveToLeft_fields d a
      have fb := MoveToLeft_fields d b
      have fc := MoveToLeft_fields d c
      have xa := MoveToLeft_x d a ha (by omega) (by omega)
      have xc := MoveToLeft_x d c hc (by omega) (by omega)
      have ea : (MoveToLeft d a).upperleft = (a.upperleft.1 - d, a.upperleft.2) :=
        Prod.ext xa fa.2.2.2
      have ec : (MoveToLeft d c).upperleft = (c.upperleft.1 - d, c.upperleft.2) :=
        Prod.ext xc fc.2.2.2
      have eb : b.isNull = false →
          (MoveToLeft d b).upperleft = (b.upperleft.1 - d, b.upperleft.2) := fun hn =>
        Prod.ext (MoveToLeft_x d b hn (by have := ib hn; omega) (by have := ib hn; omega))
          fb.2.2.2
      refine ⟨(Good_node_iff _ _ _ _ _ _ _).2 ⟨g0, by simp only; omega, g2, Or.inr
        ⟨by rw [MoveToLeft_isNull]; exact ha, by rw [MoveToLeft_isNull]; exact hc,
          ga1, gb1, gc1, ?_⟩⟩, fun x y => ?_⟩
      · rcases ht with ht | ht
        · exact Or.inl (HTiles_map (fun u => u - d) (fun u hu => by simp only; omega) ht
            ⟨fa.1, fa.2.1, ea⟩ ⟨MoveToLeft_isNull d b, fb.1, fb.2.1, eb⟩ ⟨fc.1, fc.2.1, ec⟩)
        · exact Or.inr (VTiles_map (fun u => u - d) ht
            ⟨fa.1, fa.2.1, ea⟩ ⟨MoveToLeft_isNull d b, fb.1, fb.2.1, eb⟩ ⟨fc.1, fc.2.1, ec⟩)
      · rw [colorAt_node _ _ _ _ _ _ _ _ _ (by rw [MoveToLeft_isNull]; exact ha),
          colorAt_node _ _ _ _ _ _ _ _ _ ha, ca1, cb1, cc1]

/-! ## The horizontal flip -/

theorem Good_pos {t : Node} (hg : Good t) (hn : t.isNull = false) :
    1 ≤ t.width ∧ 1 ≤ t.height := by
  cases t with
  | null => simp [Node.isNull] at hn
  | node ul w h p a b c => exact ((Good_node_iff _ _ _ _ _ _ _).1 hg).1

theorem Good_bound {t : Node} (hg : Good t) (hn : t.isNull = false) :
    t.upperleft.1 + t.width < 4294967296 ∧ t.upperleft.2 + t.height < 4294967296 := by
  cases t with
  | null => simp [Node.isNull] at hn
  | node ul w h p a b c =>
    exact ⟨((Good_node_iff _ _ _ _ _ _ _).1 hg).2.1, ((Good_node_iff _ _ _ _ _ _ _).1 hg).2.2.1⟩

theorem colorAt_outside (t : Node) :
    Good t → ∀ x y, (t.isNull = false → ¬ inRect t.upperleft t.width t.height x y) →
      colorAt t x y = none := by
  induction t with
  | null => intro _ x y _; rfl
  | node ul w h p a b c iha ihb ihc =>
    intro hg x y hout
    have ho : ¬ inRect ul w h x y := hout rfl
    obtain ⟨g0, g1, g2, g3⟩ := (Good_node_iff _ _ _ _ _ _ _).1 hg
    rcases g3 with ⟨ha, hb0, hc⟩ | ⟨ha, hc, ga, gb, gc, ht⟩
    · obtain rfl := isNull_eq_true ha
      obtain rfl := isNull_eq_true hb0
      obtain rfl := isNull_eq_true hc
      rw [colorAt_leaf, if_neg ho]
    · obtain ⟨ia, ib, ic⟩ := tiles_inside ht
      rw [colorAt_node _ _ _ _ _ _ _ _ _ ha,
        iha ga x y (fun _ hr => ho (by unfold inRect at *; omega)),
        ihb gb x y (fun hn hr => ho (by have := ib hn; unfold inRect at *; omega)),
        ihc gc x y (fun _ hr => ho (by unfold inRect at *; omega))]
      rfl

theorem orElse3_comm {α : Type} (oa ob oc : Option α)
    (h : (oa = none ∧ ob = none) ∨ (oa = none ∧ oc = none) ∨ (ob = none ∧ oc = none)) :
    (oc.orElse fun _ => ob.orElse fun _ => oa) = (oa.orElse fun _ => ob.orElse fun _ => oc) := by
  rcases h with ⟨h1, h2⟩ | ⟨h1, h2⟩ | ⟨h1, h2⟩
  · subst h1; subst h2; cases oc <;> rfl
  · subst h1; subst h2; cases ob <;> rfl
  · subst h1; subst h2; cases oa <;> rfl

/-- At every point at most one child of a good node paints. -/
theorem children_disjoint {ul : Nat × Nat} {w h : Nat} {a b c : Node}
    (ga : Good a) (gb : Good b) (gc : Good c) (ha : a.isNull = false) (hc : c.isNull = false)
    (ht : HTiles ul w h a b c ∨ VTiles ul w h a b c) (x y : Nat) :
    (colorAt a x y = none ∧ colorAt b x y = none) ∨
      (colorAt a x y = none ∧ colorAt c x y = none) ∨
      (colorAt b x y = none ∧ colorAt c x y = none) := by
  have pa := Good_pos ga ha
  have pc := Good_pos gc hc
  have ob : ∀ (P : Prop), (b.isNull = false → P → ¬ inRect b.upperleft b.width b.height x y) →
      P → colorAt b x y = none := fun P hP hp =>
    colorAt_outside b gb x y (fun hn => hP hn hp)
  rcases ht with ht | ht
  · obtain ⟨h1, h2, h3, h4, h5, h6, h7, h8, h9⟩ := ht
    by_cases hxa : a.upperleft.1 ≤ x ∧ x < a.upperleft.1 + a.width
    · right; right
      refine ⟨ob True (fun hn _ hr => ?_) trivial,
        colorAt_outside c gc x y (fun _ hr => ?_)⟩
      · obtain ⟨e1, e2⟩ := h8 hn
        rw [e2] at hr
        unfold inRect at hr; simp only at hr; omega
      · unfold inRect at hr; omega
    · by_cases hxc : c.upperleft.1 ≤ x ∧ x < c.upperleft.1 + c.width
      · left
        refine ⟨colorAt_outside a ga x y (fun _ hr => ?_), ob True (fun hn _ hr => ?_) trivial⟩
        · unfold inRect at hr; omega
        · obtain ⟨e1, e2⟩ := h8 hn
          rw [e2] at hr
          unfold inRect at hr; simp only at hr; omega
      · right; left
        exact ⟨colorAt_outside a ga x y (fun _ hr => by unfold inRect at hr; omega),
          colorAt_outside c gc x y (fun _ hr => by unfold inRect at hr; omega)⟩
  · obtain ⟨h1, h2, h3, h4, h5, h6, h7, h8, h9⟩ := ht
    by_cases hxa : a.upperleft.2 ≤ y ∧ y < a.upperleft.2 + a.height
    · right; right
      refine ⟨ob True (fun hn _ hr => ?_) trivial,
        colorAt_outside c gc x y (fun _ hr => ?_)⟩
      · obtain ⟨e1, e2⟩ := h8 hn
        rw [e2] at hr
        unfold inRect at hr; simp only at hr; omega
      · unfold inRect at hr; omega
    · by_cases hxc : c.upperleft.2 ≤ y ∧ y < c.upperleft.2 + c.height
      · left
        refine ⟨colorAt_outside a ga x y (fun _ hr => ?_), ob True (fun hn _ hr => ?_) trivial⟩
        · unfold inRect at hr; omega
        · obtain ⟨e1, e2⟩ := h8 hn
          rw [e2] at hr
          unfold inRect at hr; simp only at hr; omega
      · right; left
        exact ⟨colorAt_outside a ga x y (fun _ hr => by unfold inRect at hr; omega),
          colorAt_outside c gc x y (fun _ hr => by unfold inRect at hr; omega)⟩

/-- The colour painted by a good node with children does not depend on the order of the slots
`A` and `C`. -/
theorem colorAt_swap {ul : Nat × Nat} {w h : Nat} {p : RGBAPixel} {a b c : Node}
    (hg : Good (Node.node ul w h p a b c)) (ha : a.isNull = false) (x y : Nat) :
    colorAt (Node.node ul w h p a b c) x y
      = (colorAt a x y).orElse fun _ => (colorAt b x y).orElse fun _ => colorAt c x y := by
  obtain ⟨g0, g1, g2, g3⟩ := (Good_node_iff _ _ _ _ _ _ _).1 hg
  rcases g3 with ⟨ha1, -, -⟩ | ⟨-, hc, ga, gb, gc, ht⟩
  · rw [ha] at ha1; simp at ha1
  · rw [colorAt_node _ _ _ _ _ _ _ _ _ ha]
    exact orElse3_comm _ _ _ (children_disjoint ga gb gc ha hc ht x y)

theorem Flip_leaf (ul : Nat × Nat) (w h : Nat) (p : RGBAPixel) (a b c : Node)
    (hl : (a.isNull && b.isNull && c.isNull) = true) :
    FlipHorizontalHelper (Node.node ul w h p a b c) = Node.node ul w h p a b c := by
  rw [FlipHorizontalHelper, if_pos hl]

theorem Flip_tall (ul : Nat × Nat) (w h : Nat) (p : RGBAPixel) (a b c : Node)
    (hl : (a.isNull && b.isNull && c.isNull) = false) (hhw : h > w) :
    FlipHorizontalHelper (Node.node ul w h p a b c)
      = Node.node ul w h p (FlipHorizontalHelper a) (FlipHorizontalHelper b)
          (FlipHorizontalHelper c) := by
  rw [FlipHorizontalHelper, if_neg (by rw [hl]; simp), if_pos hhw]

theorem Flip_wide_gt (ul : Nat × Nat) (w h : Nat) (p : RGBAPixel) (a b c : Node)
    (hl : (a.isNull && b.isNull && c.isNull) = false) (hhw : ¬ h > w)
    (hgt : (FlipHorizontalHelper a).upperleft.1 > (FlipHorizontalHelper c).upperleft.1) :
    FlipHorizontalHelper (Node.node ul w h p a b c)
      = Node.node ul w h p
          (MoveToRight (absDiff (FlipHorizontalHelper a).upperleft.1
            (FlipHorizontalHelper c).upperleft.1) (FlipHorizontalHelper c))
          (FlipHorizontalHelper b)
          (MoveToLeft (absDiff (FlipHorizontalHelper a).upperleft.1
            (FlipHorizontalHelper c).upperleft.1) (FlipHorizontalHelper a)) := by
  rw [FlipHorizontalHelper, if_neg (by rw [hl]; simp), if_neg hhw]
  simp only [if_pos hgt]

theorem Flip_wide_le (ul : Nat × Nat) (w h : Nat) (p : RGBAPixel) (a b c : Node)
    (hl : (a.isNull && b.isNull && c.isNull) = false) (hhw : ¬ h > w)
    (hgt : ¬ (FlipHorizontalHelper a).upperleft.1 > (FlipHorizontalHelper c).upperleft.1) :
    FlipHorizontalHelper (Node.node ul w h p a b c)
      = Node.node ul w h p
          (MoveToLeft (absDiff (FlipHorizontalHelper a).upperleft.1
            (FlipHorizontalHelper c).upperleft.1) (FlipHorizontalHelper c))
          (FlipHorizontalHelper b)
          (MoveToRight (absDiff (FlipHorizontalHelper a).upperleft.1
            (FlipHorizontalHelper c).upperleft.1) (FlipHorizontalHelper a)) := by
  rw [FlipHorizontalHelper, if_neg (by rw [hl]; simp), if_neg hhw]
  simp only [if_neg hgt]

theorem Flip_fields (t : Node) :
    (FlipHorizontalHelper t).upperleft = t.upperleft ∧
      (FlipHorizontalHelper t).width = t.width ∧ (FlipHorizontalHelper t).height = t.height ∧
      (FlipHorizontalHelper t).avg = t.avg ∧ (FlipHorizontalHelper t).isNull = t.isNull := by
  cases t with
  | null => exact ⟨rfl, rfl, rfl, rfl, rfl⟩
  | node ul w h p a b c =>
    by_cases hl : (a.isNull && b.isNull && c.isNull) = true
    · rw [Flip_leaf _ _ _ _ _ _ _ hl]; exact ⟨rfl, rfl, rfl, rfl, rfl⟩
    · have hl0 : (a.isNull && b.isNull && c.isNull) = false := by simpa using hl
      by_cases hhw : h > w
      · rw [Flip_tall _ _ _ _ _ _ _ hl0 hhw]; exact ⟨rfl, rfl, rfl, rfl, rfl⟩
      · by_cases hgt : (FlipHorizontalHelper a).upperleft.1
            > (FlipHorizontalHelper c).upperleft.1
        · rw [Flip_wide_gt _ _ _ _ _ _ _ hl0 hhw hgt]; exact ⟨rfl, rfl, rfl, rfl, rfl⟩
        · rw [Flip_wide_le _ _ _ _ _ _ _ hl0 hhw hgt]; exact ⟨rfl, rfl, rfl, rfl, rfl⟩

theorem Placed_null (x0 : Nat) : Placed Node.null Node.null x0 := by
  intro x y
  show (none : Option RGBAPixel) = _
  split <;> rfl

theorem Placed_MoveToRight {k k1 : Node} {x0 : Nat} (d : Nat) (hp : Placed k k1 x0)
    (hm : ∀ x y, colorAt (MoveToRight d k1) x y = if d ≤ x then colorAt k1 (x - d) y else none) :
    Placed k (MoveToRight d k1) (x0 + d) := by
  intro x y
  rw [hm]
  by_cases hd : d ≤ x
  · rw [if_pos hd, hp]
    by_cases hr : x0 ≤ x - d ∧ x - d < x0 + k.width
    · rw [if_pos hr, if_pos (by omega)]
      congr 1
      omega
    · rw [if_neg hr, if_neg (by omega)]
  · rw [if_neg hd, if_neg (by omega)]

theorem Placed_MoveToLeft {k k1 : Node} {x0 : Nat} (d : Nat) (hd : d ≤ x0) (hp : Placed k k1 x0)
    (hm : ∀ x y, colorAt (MoveToLeft d k1) x y = colorAt k1 (x + d) y) :
    Placed k (MoveToLeft d k1) (x0 - d) := by
  intro x y
  rw [hm, hp]
  by_cases hr : x0 ≤ x + d ∧ x + d < x0 + k.width
  · rw [if_pos hr, if_pos (by omega)]
    congr 1
    omega
  · rw [if_neg hr, if_neg (by omega)]

/-- A child placed at the mirror position of its rectangle inside the parent columns
`[X, X + W)` paints the mirror image, within the parent, of what the child paints. -/
theorem Placed_parent {k k2 : Node} {X W x0 : Nat} (hg : Good k)
    (hin : k.isNull = false → X ≤ k.upperleft.1 ∧ k.upperleft.1 + k.width ≤ X + W)
    (hx0 : k.isNull = false → x0 + (k.upperleft.1 + k.width) = X + (X + W))
    (hp : Placed k k2 x0) : Mirrors X W k k2 := by
  intro x y
  rw [hp]
  by_cases hn : k.isNull = true
  · obtain rfl := isNull_eq_true hn
    have e : ∀ u, colorAt Node.null u y = none := fun _ => rfl
    rw [e, e]
    split <;> split <;> rfl
  · have hn0 : k.isNull = false := by simpa using hn
    have h1 := hin hn0
    have h2 := hx0 hn0
    have pk := Good_pos hg hn0
    by_cases hr : x0 ≤ x ∧ x < x0 + k.width
    · rw [if_pos hr, if_pos (by omega)]
      congr 1
      omega
    · rw [if_neg hr]
      by_cases hX : X ≤ x ∧ x < X + W
      · rw [if_pos hX]
        symm
        apply colorAt_outside k hg
        intro _ hin2
        unfold inRect at hin2
        omega
      · rw [if_neg hX]

/-- A good node with children whose new children paint the mirror images of the old ones paints
the mirror image of the old node, whichever of the new outer children is in slot `A`. -/
theorem Mirrors_node {ul : Nat × Nat} {w h : Nat} {p : RGBAPixel} {a b c a2 b2 c2 : Node}
    (ha : a.isNull = false) (ha2 : a2.isNull = false) (hc2 : c2.isNull = false)
    (ma : Mirrors ul.1 w a a2) (mb : Mirrors ul.1 w b b2) (mc : Mirrors ul.1 w c c2)
    (hg2 : Good (Node.node ul w h p c2 b2 a2)) :
    Mirrors ul.1 w (Node.node ul w h p a b c) (Node.node ul w h p c2 b2 a2) ∧
      Mirrors ul.1 w (Node.node ul w h p a b c) (Node.node ul w h p a2 b2 c2) := by
  have key : ∀ x y, ((colorAt c2 x y).orElse fun _ => (colorAt b2 x y).orElse fun _ =>
      colorAt a2 x y)
      = if ul.1 ≤ x ∧ x < ul.1 + w
        then colorAt (Node.node ul w h p a b c) (ul.1 + (ul.1 + w - 1 - x)) y else none := by
    intro x y
    rw [ma, mb, mc, colorAt_node _ _ _ _ _ _ _ _ _ ha]
    by_cases hr : ul.1 ≤ x ∧ x < ul.1 + w
    · simp only [if_pos hr]
    · simp only [if_neg hr]; rfl
  constructor
  · intro x y
    rw [colorAt_swap hg2 hc2]
    exact key x y
  · intro x y
    rw [colorAt_node _ _ _ _ _ _ _ _ _ ha2]
    exact key x y

theorem HTiles_swap {ul : Nat × Nat} {w h : Nat} {a b c : Node} (ht : HTiles ul w h a b c) :
    HTiles ul w h c b a := by
  obtain ⟨h1, h2, h3, h4, h5, h6, h7, h8, h9⟩ := ht
  refine ⟨h1, h3, h2, h5, h4, h6.symm, by omega, fun hb => ?_, ?_⟩
  · obtain ⟨e1, e2⟩ := h8 hb
    exact ⟨e1, by rw [e2, h6]⟩
  · rcases h9 with ⟨e1, e2⟩ | ⟨e1, e2⟩
    · right; exact ⟨e1, by omega⟩
    · left; exact ⟨e1, by omega⟩

theorem VTiles_swap {ul : Nat × Nat} {w h : Nat} {a b c : Node} (ht : VTiles ul w h a b c) :
    VTiles ul w h c b a := by
  obtain ⟨h1, h2, h3, h4, h5, h6, h7, h8, h9⟩ := ht
  refine ⟨h1, h3, h2, h5, h4, h6.symm, by omega, fun hb => ?_, ?_⟩
  · obtain ⟨e1, e2⟩ := h8 hb
    exact ⟨e1, by rw [e2, h6]⟩
  · rcases h9 with ⟨e1, e2⟩ | ⟨e1, e2⟩
    · right; exact ⟨e1, by omega⟩
    · left; exact ⟨e1, by omega⟩

theorem Good_swap {ul : Nat × Nat} {w h : Nat} {p : RGBAPixel} {a b c : Node}
    (hg : Good (Node.node ul w h p a b c)) : Good (Node.node ul w h p c b a) := by
  obtain ⟨g0, g1, g2, g3⟩ := (Good_node_iff _ _ _ _ _ _ _).1 hg
  refine (Good_node_iff _ _ _ _ _ _ _).2 ⟨g0, g1, g2, ?_⟩
  rcases g3 with ⟨ha, hb0, hc⟩ | ⟨ha, hc, ga, gb, gc, ht⟩
  · exact Or.inl ⟨hc, hb0, ha⟩
  · refine Or.inr ⟨hc, ha, gc, gb, ga, ?_⟩
    rcases ht with ht | ht
    · exact Or.inl (HTiles_swap ht)
    · exact Or.inr (VTiles_swap ht)

theorem absDiff_eq (p q : Nat) : absDiff p q = if p ≥ q then p - q else q - p := rfl

theorem moved_right {k k1 : Node} (d : Nat) (hn : k.isNull = false)
    (fk : k1.upperleft = k.upperleft ∧ k1.width = k.width ∧ k1.height = k.height ∧
      k1.isNull = k.isNull)
    (gk1 : Good k1) (pk : Placed k k1 k.upperleft.1)
    (hb : k.upperleft.1 + k.width + d < 4294967296) :
    Good (MoveToRight d k1) ∧
      (MoveToRight d k1).upperleft = (k.upperleft.1 + d, k.upperleft.2) ∧
      (MoveToRight d k1).width = k.width ∧ (MoveToRight d k1).height = k.height ∧
      (MoveToRight d k1).isNull = false ∧ Placed k (MoveToRight d k1) (k.upperleft.1 + d) := by
  obtain ⟨f1, f2, f3, f4⟩ := fk
  have hn1 : k1.isNull = false := by rw [f4]; exact hn
  obtain ⟨g, hm⟩ := MoveToRight_spec d k1 gk1 (fun _ => by rw [f1, f2]; exact hb)
  have fm := MoveToRight_fields d k1
  have xm := MoveToRight_x d k1 hn1 (by rw [f1]; omega)
  refine ⟨g, Prod.ext (by rw [xm, f1]) (by rw [fm.2.2.2, f1]), by rw [fm.1, f2],
    by rw [fm.2.1, f3], by rw [MoveToRight_isNull]; exact hn1, Placed_MoveToRight d pk hm⟩

theorem moved_left {k k1 : Node} (d : Nat) (hn : k.isNull = false)
    (fk : k1.upperleft = k.upperleft ∧ k1.width = k.width ∧ k1.height = k.height ∧
      k1.isNull = k.isNull)
    (gk1 : Good k1) (pk : Placed k k1 k.upperleft.1) (hd : d ≤ k.upperleft.1) :
    Good (MoveToLeft d k1) ∧
      (MoveToLeft d k1).upperleft = (k.upperleft.1 - d, k.upperleft.2) ∧
      (MoveToLeft d k1).width = k.width ∧ (MoveToLeft d k1).height = k.height ∧
      (MoveToLeft d k1).isNull = false ∧ Placed k (MoveToLeft d k1) (k.upperleft.1 - d) := by
  obtain ⟨f1, f2, f3, f4⟩ := fk
  have hn1 : k1.isNull = false := by rw [f4]; exact hn
  have hbk := Good_bound gk1 hn1
  obtain ⟨g, hm⟩ := MoveToLeft_spec d k1 gk1 (fun _ => by rw [f1]; exact hd)
  have fm := MoveToLeft_fields d k1
  have xm := MoveToLeft_x d k1 hn1 (by rw [f1]; exact hd) (by omega)
  refine ⟨g, Prod.ext (by rw [xm, f1]) (by rw [fm.2.2.2, f1]), by rw [fm.1, f2],
    by rw [fm.2.1, f3], by rw [MoveToLeft_isNull]; exact hn1, Placed_MoveToLeft d hd pk hm⟩

/-- The common step of `FlipHorizontalHelper` and `FlipHorizontalHelperRotate` at a node that is
at least as wide as high: once the children are mirrored in place (`a1`, `b1`, `c1`), moving the
outer children by the distance of their origins gives a good node that paints the mirror image,
with or without the exchange of the slots. -/
theorem wide_step {ul : Nat × Nat} {w h : Nat} {p : RGBAPixel} {a b c a1 b1 c1 : Node}
    (hg : Good (Node.node ul w h p a b c)) (ha : a.isNull = false) (hhw : ¬ h > w)
    (fa : a1.upperleft = a.upperleft ∧ a1.width = a.width ∧ a1.height = a.height ∧
      a1.isNull = a.isNull)
    (fb : b1.upperleft = b.upperleft ∧ b1.width = b.width ∧ b1.height = b.height ∧
      b1.isNull = b.isNull)
    (fc : c1.upperleft = c.upperleft ∧ c1.width = c.width ∧ c1.height = c.height ∧
      c1.isNull = c.isNull)
    (ga1 : Good a1) (gb1 : Good b1) (gc1 : Good c1)
    (pa : Placed a a1 a.upperleft.1) (pb : Placed b b1 b.upperleft.1)
    (pc : Placed c c1 c.upperleft.1) (A2 C2 : Node)
    (hA : A2 = if a1.upperleft.1 > c1.upperleft.1
      then MoveToLeft (absDiff a1.upperleft.1 c1.upperleft.1) a1
      else MoveToRight (absDiff a1.upperleft.1 c1.upperleft.1) a1)
    (hC : C2 = if a1.upperleft.1 > c1.upperleft.1
      then MoveToRight (absDiff a1.upperleft.1 c1.upperleft.1) c1
      else MoveToLeft (absDiff a1.upperleft.1 c1.upperleft.1) c1) :
    Good (Node.node ul w h p A2 b1 C2) ∧ Good (Node.node ul w h p C2 b1 A2) ∧
      Mirrors ul.1 w (Node.node ul w h p a b c) (Node.node ul w h p A2 b1 C2) ∧
      Mirrors ul.1 w (Node.node ul w h p a b c) (Node.node ul w h p C2 b1 A2) := by
  obtain ⟨g0, g1, g2, g3⟩ := (Good_node_iff _ _ _ _ _ _ _).1 hg
  rcases g3 with ⟨ha1, -, -⟩ | ⟨-, hc, ga, gb, gc, ht⟩
  · rw [ha] at ha1; simp at ha1
  have qa := Good_pos ga ha
  have qc := Good_pos gc hc
  obtain ⟨ia, ib, ic⟩ := tiles_inside ht
  -- the facts about the moved children, in a form common to the three layouts
  suffices hs : ∃ xa xc : Nat,
      (Good A2 ∧ A2.upperleft = (xa, a.upperleft.2) ∧ A2.width = a.width ∧
        A2.height = a.height ∧ A2.isNull = false ∧ Placed a A2 xa) ∧
      (Good C2 ∧ C2.upperleft = (xc, c.upperleft.2) ∧ C2.width = c.width ∧
        C2.height = c.height ∧ C2.isNull = false ∧ Placed c C2 xc) ∧
      xa + (a.upperleft.1 + a.width) = ul.1 + (ul.1 + w) ∧
      xc + (c.upperleft.1 + c.width) = ul.1 + (ul.1 + w) by
    obtain ⟨xa, xc, ⟨gA, uA, wA, hA2, nA, pA⟩, ⟨gC, uC, wC, hC2, nC, pC⟩, exa, exc⟩ := hs
    have hgood : Good (Node.node ul w h p A2 b1 C2) := by
      refine (Good_node_iff _ _ _ _ _ _ _).2 ⟨g0, g1, g2, Or.inr ⟨nA, nC, gA, gb1, gC, ?_⟩⟩
      rcases ht with ht | ht
      · left
        obtain ⟨h1, h2, h3, h4, h5, h6, h7, h8, h9⟩ := ht
        refine ⟨h1, by omega, by omega, by rw [uA]; exact h4, by rw [uC]; exact h5, by omega,
          by rw [wA, wC, fb.2.1]; exact h7, fun hb => ?_, ?_⟩
        · rw [fb.2.2.2] at hb
          obtain ⟨e1, e2⟩ := h8 hb
          exact ⟨by rw [fb.2.2.1]; exact e1, by rw [fb.1, e2, wA]⟩
        · rw [uA, uC, wA, fb.2.1]
          simp only
          rcases h9 with ⟨e1, e2⟩ | ⟨e1, e2⟩
          · right; omega
          · left; omega
      · right
        obtain ⟨h1, h2, h3, h4, h5, h6, h7, h8, h9⟩ := ht
        refine ⟨h1, by omega, by omega, by rw [uA]; simp only; omega,
          by rw [uC]; simp only; omega, by omega, by rw [hA2, hC2, fb.2.2.1]; exact h7,
          fun hb => ?_, ?_⟩
        · rw [fb.2.2.2] at hb
          obtain ⟨e1, e2⟩ := h8 hb
          exact ⟨by rw [fb.2.1]; exact e1, by rw [fb.1, e2, hA2]⟩
        · rw [uA, uC, hA2, fb.2.2.1]
          exact h9
    have mA : Mirrors ul.1 w a A2 :=
      Placed_parent ga (fun _ => ⟨ia.1, ia.2.1⟩) (fun _ => exa) pA
    have mC : Mirrors ul.1 w c C2 :=
      Placed_parent gc (fun _ => ⟨ic.1, ic.2.1⟩) (fun _ => exc) pC
    have mB : Mirrors ul.1 w b b1 := by
      refine Placed_parent gb (fun hn => ⟨(ib hn).1, (ib hn).2.1⟩) (fun hn => ?_) pb
      rcases ht with ht | ht
      · obtain ⟨h1, h2, h3, h4, h5, h6, h7, h8, h9⟩ := ht
        obtain ⟨e1, e2⟩ := h8 hn
        rw [e2]; simp only; omega
      · obtain ⟨h1, h2, h3, h4, h5, h6, h7, h8, h9⟩ := ht
        obtain ⟨e1, e2⟩ := h8 hn
        rw [e2]; simp only; omega
    have hgood2 := Good_swap hgood
    obtain ⟨m1, m2⟩ := Mirrors_node ha nA nC mA mB mC hgood2
    exact ⟨hgood, hgood2, m2, m1⟩
  -- the three layouts
  have ea : a1.upperleft.1 = a.upperleft.1 := by rw [fa.1]
  have ec : c1.upperleft.1 = c.upperleft.1 := by rw [fc.1]
  rcases ht with ht | ht
  · obtain ⟨h1, h2, h3, h4, h5, h6, h7, h8, h9⟩ := ht
    rcases h9 with ⟨e1, e2⟩ | ⟨e1, e2⟩
    · have hgt : ¬ a1.upperleft.1 > c1.upperleft.1 := by omega
      have hd : absDiff a1.upperleft.1 c1.upperleft.1 = a.width + b.width := by
        rw [absDiff_eq]; split <;> omega
      rw [if_neg hgt, hd] at hA hC
      subst hA; subst hC
      exact ⟨_, _, moved_right _ ha fa ga1 pa (by omega), moved_left _ hc fc gc1 pc (by omega),
        by omega, by omega⟩
    · have hgt : a1.upperleft.1 > c1.upperleft.1 := by omega
      have hd : absDiff a1.upperleft.1 c1.upperleft.1 = a.width + b.width := by
        rw [absDiff_eq]; split <;> omega
      rw [if_pos hgt, hd] at hA hC
      subst hA; subst hC
      exact ⟨_, _, moved_left _ ha fa ga1 pa (by omega), moved_right _ hc fc gc1 pc (by omega),
        by omega, by omega⟩
  · obtain ⟨h1, h2, h3, h4, h5, h6, h7, h8, h9⟩ := ht
    have hgt : ¬ a1.upperleft.1 > c1.upperleft.1 := by omega
    have hd : absDiff a1.upperleft.1 c1.upperleft.1 = 0 := by
      rw [absDiff_eq]; split <;> omega
    rw [if_neg hgt, hd] at hA hC
    subst hA; subst hC
    exact ⟨_, _, moved_right _ ha fa ga1 pa (by omega), moved_left _ hc fc gc1 pc (by omega),
      by omega, by omega⟩

theorem Flip_wide (ul : Nat × Nat) (w h : Nat) (p : RGBAPixel) (a b c : Node)
    (hl : (a.isNull && b.isNull && c.isNull) = false) (hhw : ¬ h > w) :
    FlipHorizontalHelper (Node.node ul w h p a b c)
      = Node.node ul w h p
          (if (FlipHorizontalHelper a).upperleft.1 > (FlipHorizontalHelper c).upperleft.1
            then MoveToRight (absDiff (FlipHorizontalHelper a).upperleft.1
              (FlipHorizontalHelper c).upperleft.1) (FlipHorizontalHelper c)
            else MoveToLeft (absDiff (FlipHorizontalHelper a).upperleft.1
              (FlipHorizontalHelper c).upperleft.1) (FlipHorizontalHelper c))
          (FlipHorizontalHelper b)
          (if (FlipHorizontalHelper a).upperleft.1 > (FlipHorizontalHelper c).upperleft.1
            then MoveToLeft (absDiff (FlipHorizontalHelper a).upperleft.1
              (FlipHorizontalHelper c).upperleft.1) (FlipHorizontalHelper a)
            else MoveToRight (absDiff (FlipHorizontalHelper a).upperleft.1
              (FlipHorizontalHelper c).upperleft.1) (FlipHorizontalHelper a)) := by
  by_cases hgt : (FlipHorizontalHelper a).upperleft.1 > (FlipHorizontalHelper c).upperleft.1
  · rw [Flip_wide_gt _ _ _ _ _ _ _ hl hhw hgt, if_pos hgt, if_pos hgt]
  · rw [Flip_wide_le _ _ _ _ _ _ _ hl hhw hgt, if_neg hgt, if_neg hgt]

theorem Mirrors_null (x0 w : Nat) : Mirrors x0 w Node.null Node.null := by
  intro x y
  show (none : Option RGBAPixel) = _
  split <;> rfl

theorem Mirrors_leaf (ul : Nat × Nat) (w h : Nat) (p : RGBAPixel) :
    Mirrors ul.1 w (Node.node ul w h p Node.null Node.null Node.null)
      (Node.node ul w h p Node.null Node.null Node.null) := by
  intro x y
  rw [colorAt_leaf, colorAt_leaf]
  unfold inRect
  by_cases hx : ul.1 ≤ x ∧ x < ul.1 + w
  · rw [if_pos hx]
    by_cases hy : ul.2 ≤ y ∧ y < ul.2 + h
    · rw [if_pos (by omega), if_pos (by omega)]
    · rw [if_neg (by omega), if_neg (by omega)]
  · rw [if_neg hx, if_neg (by omega)]

/-- The step of the flip at a node that is higher than wide: the children, stacked along the y
axis, are mirrored in place. -/
theorem tall_step {ul : Nat × Nat} {w h : Nat} {p : RGBAPixel} {a b c a1 b1 c1 : Node}
    (hg : Good (Node.node ul w h p a b c)) (ha : a.isNull = false) (hhw : h > w)
    (fa : a1.upperleft = a.upperleft ∧ a1.width = a.width ∧ a1.height = a.height ∧
      a1.isNull = a.isNull)
    (fb : b1.upperleft = b.upperleft ∧ b1.width = b.width ∧ b1.height = b.height ∧
      b1.isNull = b.isNull)
    (fc : c1.upperleft = c.upperleft ∧ c1.width = c.width ∧ c1.height = c.height ∧
      c1.isNull = c.isNull)
    (ga1 : Good a1) (gb1 : Good b1) (gc1 : Good c1)
    (pa : Placed a a1 a.upperleft.1) (pb : Placed b b1 b.upperleft.1)
    (pc : Placed c c1 c.upperleft.1) :
    Good (Node.node ul w h p a1 b1 c1) ∧
      Mirrors ul.1 w (Node.node ul w h p a b c) (Node.node ul w h p a1 b1 c1) := by
  obtain ⟨g0, g1, g2, g3⟩ := (Good_node_iff _ _ _ _ _ _ _).1 hg
  rcases g3 with ⟨ha1, -, -⟩ | ⟨-, hc, ga, gb, gc, ht⟩
  · rw [ha] at ha1; simp at ha1
  obtain ⟨ia, ib, ic⟩ := tiles_inside ht
  have hv : VTiles ul w h a b c := by
    rcases ht with ht | ht
    · exact absurd ht.1 (by omega)
    · exact ht
  have hgood : Good (Node.node ul w h p a1 b1 c1) := by
    refine (Good_node_iff _ _ _ _ _ _ _).2 ⟨g0, g1, g2, Or.inr ⟨by rw [fa.2.2.2]; exact ha,
      by rw [fc.2.2.2]; exact hc, ga1, gb1, gc1, Or.inr ?_⟩⟩
    exact VTiles_map (fun u => u) hv ⟨fa.2.1, fa.2.2.1, fa.1⟩
      ⟨fb.2.2.2, fb.2.1, fb.2.2.1, fun _ => fb.1⟩ ⟨fc.2.1, fc.2.2.1, fc.1⟩
  obtain ⟨h1, h2, h3, h4, h5, h6, h7, h8, h9⟩ := hv
  have mA : Mirrors ul.1 w a a1 :=
    Placed_parent ga (fun _ => ⟨ia.1, ia.2.1⟩) (fun _ => by omega) pa
  have mC : Mirrors ul.1 w c c1 :=
    Placed_parent gc (fun _ => ⟨ic.1, ic.2.1⟩) (fun _ => by omega) pc
  have mB : Mirrors ul.1 w b b1 := by
    refine Placed_parent gb (fun hn => ⟨(ib hn).1, (ib hn).2.1⟩) (fun hn => ?_) pb
    obtain ⟨e1, e2⟩ := h8 hn
    rw [e2]; simp only; omega
  exact ⟨hgood, (Mirrors_node ha (by rw [fa.2.2.2]; exact ha) (by rw [fc.2.2.2]; exact hc)
    mA mB mC (Good_swap hgood)).2⟩

theorem Flip_spec (t : Node) :
    Good t → Good (FlipHorizontalHelper t) ∧
      Mirrors t.upperleft.1 t.width t (FlipHorizontalHelper t) := by
  induction t with
  | null => intro _; exact ⟨trivial, Mirrors_null _ _⟩
  | node ul w h p a b c iha ihb ihc =>
    intro hg
    obtain ⟨g0, g1, g2, g3⟩ := (Good_node_iff _ _ _ _ _ _ _).1 hg
    rcases g3 with ⟨ha, hb0, hc⟩ | ⟨ha, hc, ga, gb, gc, ht⟩
    · obtain rfl := isNull_eq_true ha
      obtain rfl := isNull_eq_true hb0
      obtain rfl := isNull_eq_true hc
      rw [Flip_leaf ul w h p Node.null Node.null Node.null rfl]
      exact ⟨hg, Mirrors_leaf ul w h p⟩
    · obtain ⟨ga1, ma⟩ := iha ga
      obtain ⟨gb1, mb⟩ := ihb gb
      obtain ⟨gc1, mc⟩ := ihc gc
      have fa := Flip_fields a
      have fb := Flip_fields b
      have fc := Flip_fields c
      have hl := leafCond_false b c ha
      by_cases hhw : h > w
      · rw [Flip_tall _ _ _ _ _ _ _ hl hhw]
        exact tall_step hg ha hhw ⟨fa.1, fa.2.1, fa.2.2.1, fa.2.2.2.2⟩
          ⟨fb.1, fb.2.1, fb.2.2.1, fb.2.2.2.2⟩ ⟨fc.1, fc.2.1, fc.2.2.1, fc.2.2.2.2⟩
          ga1 gb1 gc1 ma mb mc
      · rw [Flip_wide _ _ _ _ _ _ _ hl hhw]
        obtain ⟨-, k2, -, k4⟩ := wide_step hg ha hhw ⟨fa.1, fa.2.1, fa.2.2.1, fa.2.2.2.2⟩
          ⟨fb.1, fb.2.1, fb.2.2.1, fb.2.2.2.2⟩ ⟨fc.1, fc.2.1, fc.2.2.1, fc.2.2.2.2⟩
          ga1 gb1 gc1 ma mb mc _ _ rfl rfl
        exact ⟨k2, k4⟩

/-! ## The rotation, and the invariant of the reachable trees -/

theorem Rotate_leaf (ul : Nat × Nat) (w h : Nat) (p : RGBAPixel) (a b c : Node)
    (hl : (a.isNull && b.isNull && c.isNull) = true) :
    RotateCCWHelper (Node.node ul w h p a b c) = Node.node (ul.2, ul.1) h w p a b c := by
  rw [RotateCCWHelper, if_pos hl]

theorem Rotate_wide (ul : Nat × Nat) (w h : Nat) (p : RGBAPixel) (a b c : Node)
    (hl : (a.isNull && b.isNull && c.isNull) = false) (hwh : w ≥ h) :
    RotateCCWHelper (Node.node ul w h p a b c)
      = Node.node (ul.2, ul.1) h w p (RotateCCWHelper c) (RotateCCWHelper b)
          (RotateCCWHelper a) := by
  rw [RotateCCWHelper, if_neg (by rw [hl]; simp), if_pos hwh]

theorem Rotate_tall (ul : Nat × Nat) (w h : Nat) (p : RGBAPixel) (a b c : Node)
    (hl : (a.isNull && b.isNull && c.isNull) = false) (hwh : ¬ w ≥ h) :
    RotateCCWHelper (Node.node ul w h p a b c)
      = Node.node (ul.2, ul.1) h w p (RotateCCWHelper a) (RotateCCWHelper b)
          (RotateCCWHelper c) := by
  rw [RotateCCWHelper, if_neg (by rw [hl]; simp), if_neg hwh]

theorem Rotate_fields (t : Node) :
    (RotateCCWHelper t).upperleft = (t.upperleft.2, t.upperleft.1) ∧
      (RotateCCWHelper t).width = t.height ∧ (RotateCCWHelper t).height = t.width ∧
      (RotateCCWHelper t).avg = t.avg ∧ (RotateCCWHelper t).isNull = t.isNull := by
  cases t with
  | null => exact ⟨rfl, rfl, rfl, rfl, rfl⟩
  | node ul w h p a b c =>
    by_cases hl : (a.isNull && b.isNull && c.isNull) = true
    · rw [Rotate_leaf _ _ _ _ _ _ _ hl]; exact ⟨rfl, rfl, rfl, rfl, rfl⟩
    · have hl0 : (a.isNull && b.isNull && c.isNull) = false := by simpa using hl
      by_cases hwh : w ≥ h
      · rw [Rotate_wide _ _ _ _ _ _ _ hl0 hwh]; exact ⟨rfl, rfl, rfl, rfl, rfl⟩
      · rw [Rotate_tall _ _ _ _ _ _ _ hl0 hwh]; exact ⟨rfl, rfl, rfl, rfl, rfl⟩

theorem HTiles_transpose {ul : Nat × Nat} {w h : Nat} {a b c a1 b1 c1 : Node}
    (ht : HTiles ul w h a b c)
    (fa : a1.upperleft = (a.upperleft.2, a.upperleft.1) ∧ a1.width = a.height ∧
      a1.height = a.width)
    (fb : b1.upperleft = (b.upperleft.2, b.upperleft.1) ∧ b1.width = b.height ∧
      b1.height = b.width ∧ b1.isNull = b.isNull)
    (fc : c1.upperleft = (c.upperleft.2, c.upperleft.1) ∧ c1.width = c.height ∧
      c1.height = c.width) :
    VTiles (ul.2, ul.1) h w a1 b1 c1 := by
  obtain ⟨h1, h2, h3, h4, h5, h6, h7, h8, h9⟩ := ht
  obtain ⟨fa1, fa2, fa3⟩ := fa
  obtain ⟨fb1, fb2, fb3, fb4⟩ := fb
  obtain ⟨fc1, fc2, fc3⟩ := fc
  refine ⟨h1, by omega, by omega, by rw [fa1]; exact h4, by rw [fc1]; exact h5, by omega,
    by omega, fun hb => ?_, ?_⟩
  · rw [fb4] at hb
    obtain ⟨e1, e2⟩ := h8 hb
    refine ⟨by omega, ?_⟩
    rw [fb1, e2, fa3]
  · rw [fa1, fc1, fa3, fb3]
    exact h9

theorem VTiles_transpose {ul : Nat × Nat} {w h : Nat} {a b c a1 b1 c1 : Node}
    (ht : VTiles ul w h a b c)
    (fa : a1.upperleft = (a.upperleft.2, a.upperleft.1) ∧ a1.width = a.height ∧
      a1.height = a.width)
    (fb : b1.upperleft = (b.upperleft.2, b.upperleft.1) ∧ b1.width = b.height ∧
      b1.height = b.width ∧ b1.isNull = b.isNull)
    (fc : c1.upperleft = (c.upperleft.2, c.upperleft.1) ∧ c1.width = c.height ∧
      c1.height = c.width) :
    HTiles (ul.2, ul.1) h w a1 b1 c1 := by
  obtain ⟨h1, h2, h3, h4, h5, h6, h7, h8, h9⟩ := ht
  obtain ⟨fa1, fa2, fa3⟩ := fa
  obtain ⟨fb1, fb2, fb3, fb4⟩ := fb
  obtain ⟨fc1, fc2, fc3⟩ := fc
  refine ⟨h1, by omega, by omega, by rw [fa1]; exact h4, by rw [fc1]; exact h5, by omega,
    by omega, fun hb => ?_, ?_⟩
  · rw [fb4] at hb
    obtain ⟨e1, e2⟩ := h8 hb
    refine ⟨by omega, ?_⟩
    rw [fb1, e2, fa2]
  · rw [fa1, fc1, fa2, fb2]
    exact h9

theorem Rotate_spec (t : Node) :
    Good t → Good (RotateCCWHelper t) ∧
      ∀ x y, colorAt (RotateCCWHelper t) x y = colorAt t y x := by
  induction t with
  | null => intro _; exact ⟨trivial, fun _ _ => rfl⟩
  | node ul w h p a b c iha ihb ihc =>
    intro hg
    obtain ⟨g0, g1, g2, g3⟩ := (Good_node_iff _ _ _ _ _ _ _).1 hg
    rcases g3 with ⟨ha, hb0, hc⟩ | ⟨ha, hc, ga, gb, gc, ht⟩
    · obtain rfl := isNull_eq_true ha
      obtain rfl := isNull_eq_true hb0
      obtain rfl := isNull_eq_true hc
      rw [Rotate_leaf ul w h p Node.null Node.null Node.null rfl]
      refine ⟨(Good_node_iff _ _ _ _ _ _ _).2 ⟨⟨g0.2, g0.1⟩, g2, g1, Or.inl ⟨rfl, rfl, rfl⟩⟩,
        fun x y => ?_⟩
      rw [colorAt_leaf, colorAt_leaf]
      unfold inRect
      by_cases hr : ul.1 ≤ y ∧ y < ul.1 + w ∧ ul.2 ≤ x ∧ x < ul.2 + h
      · rw [if_pos hr, if_pos (by simp only; omega)]
      · rw [if_neg hr, if_neg (by simp only; omega)]
    · obtain ⟨ga1, ca⟩ := iha ga
      obtain ⟨gb1, cb⟩ := ihb gb
      obtain ⟨gc1, cc⟩ := ihc gc
      have fa := Rotate_fields a
      have fb := Rotate_fields b
      have fc := Rotate_fields c
      have hl := leafCond_false b c ha
      have na : (RotateCCWHelper a).isNull = false := by rw [fa.2.2.2.2]; exact ha
      have nc : (RotateCCWHelper c).isNull = false := by rw [fc.2.2.2.2]; exact hc
      have hgood : Good (Node.node (ul.2, ul.1) h w p (RotateCCWHelper a) (RotateCCWHelper b)
          (RotateCCWHelper c)) := by
        refine (Good_node_iff _ _ _ _ _ _ _).2 ⟨⟨g0.2, g0.1⟩, g2, g1,
          Or.inr ⟨na, nc, ga1, gb1, gc1, ?_⟩⟩
        rcases ht with ht | ht
        · exact Or.inr (HTiles_transpose ht ⟨fa.1, fa.2.1, fa.2.2.1⟩
            ⟨fb.1, fb.2.1, fb.2.2.1, fb.2.2.2.2⟩ ⟨fc.1, fc.2.1, fc.2.2.1⟩)
        · exact Or.inl (VTiles_transpose ht ⟨fa.1, fa.2.1, fa.2.2.1⟩
            ⟨fb.1, fb.2.1, fb.2.2.1, fb.2.2.2.2⟩ ⟨fc.1, fc.2.1, fc.2.2.1⟩)
      by_cases hwh : w ≥ h
      · rw [Rotate_wide _ _ _ _ _ _ _ hl hwh]
        have hgood2 := Good_swap hgood
        refine ⟨hgood2, fun x y => ?_⟩
        rw [colorAt_swap hgood2 nc, colorAt_node _ _ _ _ _ _ _ _ _ ha, ca, cb, cc]
      · rw [Rotate_tall _ _ _ _ _ _ _ hl hwh]
        refine ⟨hgood, fun x y => ?_⟩
        rw [colorAt_node _ _ _ _ _ _ _ _ _ na, colorAt_node _ _ _ _ _ _ _ _ _ ha, ca, cb, cc]

theorem FlipRotate_leaf (ul : Nat × Nat) (w h : Nat) (p : RGBAPixel) (a b c : Node)
    (hl : (a.isNull && b.isNull && c.isNull) = true) :
    FlipHorizontalHelperRotate (Node.node ul w h p a b c) = Node.node ul w h p a b c := by
  rw [FlipHorizontalHelperRotate, if_pos hl]

theorem FlipRotate_tall (ul : Nat × Nat) (w h : Nat) (p : RGBAPixel) (a b c : Node)
    (hl : (a.isNull && b.isNull && c.isNull) = false) (hhw : h > w) :
    FlipHorizontalHelperRotate (Node.node ul w h p a b c)
      = Node.node ul w h p (FlipHorizontalHelper a) (FlipHorizontalHelper b)
          (FlipHorizontalHelper c) := by
  rw [FlipHorizontalHelperRotate, if_neg (by rw [hl]; simp), if_pos hhw]

theorem FlipRotate_wide (ul : Nat × Nat) (w h : Nat) (p : RGBAPixel) (a b c : Node)
    (hl : (a.isNull && b.isNull && c.isNull) = false) (hhw : ¬ h > w) :
    FlipHorizontalHelperRotate (Node.node ul w h p a b c)
      = Node.node ul w h p
          (if (FlipHorizontalHelper a).upperleft.1 > (FlipHorizontalHelper c).upperleft.1
            then MoveToLeft (absDiff (FlipHorizontalHelper a).upperleft.1
              (FlipHorizontalHelper c).upperleft.1) (FlipHorizontalHelper a)
            else MoveToRight (absDiff (FlipHorizontalHelper a).upperleft.1
              (FlipHorizontalHelper c).upperleft.1) (FlipHorizontalHelper a))
          (FlipHorizontalHelper b)
          (if (FlipHorizontalHelper a).upperleft.1 > (FlipHorizontalHelper c).upperleft.1
            then MoveToRight (absDiff (FlipHorizontalHelper a).upperleft.1
              (FlipHorizontalHelper c).upperleft.1) (FlipHorizontalHelper c)
            else MoveToLeft (absDiff (FlipHorizontalHelper a).upperleft.1
              (FlipHorizontalHelper c).upperleft.1) (FlipHorizontalHelper c)) := by
  rw [FlipHorizontalHelperRotate, if_neg (by rw [hl]; simp), if_neg hhw]
  by_cases hgt : (FlipHorizontalHelper a).upperleft.1 > (FlipHorizontalHelper c).upperleft.1
  · simp only [if_pos hgt]
  · simp only [if_neg hgt]

theorem FlipRotate_fields (t : Node) :
    (FlipHorizontalHelperRotate t).upperleft = t.upperleft ∧
      (FlipHorizontalHelperRotate t).width = t.width ∧
      (FlipHorizontalHelperRotate t).height = t.height ∧
      (FlipHorizontalHelperRotate t).avg = t.avg ∧
      (FlipHorizontalHelperRotate t).isNull = t.isNull := by
  cases t with
  | null => exact ⟨rfl, rfl, rfl, rfl, rfl⟩
  | node ul w h p a b c =>
    by_cases hl : (a.isNull && b.isNull && c.isNull) = true
    · rw [FlipRotate_leaf _ _ _ _ _ _ _ hl]; exact ⟨rfl, rfl, rfl, rfl, rfl⟩
    · have hl0 : (a.isNull && b.isNull && c.isNull) = false := by simpa using hl
      by_cases hhw : h > w
      · rw [FlipRotate_tall _ _ _ _ _ _ _ hl0 hhw]; exact ⟨rfl, rfl, rfl, rfl, rfl⟩
      · rw [FlipRotate_wide _ _ _ _ _ _ _ hl0 hhw]; exact ⟨rfl, rfl, rfl, rfl, rfl⟩

theorem FlipRotate_spec (t : Node) (hg : Good t) :
    Good (FlipHorizontalHelperRotate t) ∧
      Mirrors t.upperleft.1 t.width t (FlipHorizontalHelperRotate t) := by
  cases t with
  | null => exact ⟨trivial, Mirrors_null _ _⟩
  | node ul w h p a b c =>
    obtain ⟨g0, g1, g2, g3⟩ := (Good_node_iff _ _ _ _ _ _ _).1 hg
    rcases g3 with ⟨ha, hb0, hc⟩ | ⟨ha, hc, ga, gb, gc, ht⟩
    · obtain rfl := isNull_eq_true ha
      obtain rfl := isNull_eq_true hb0
      obtain rfl := isNull_eq_true hc
      rw [FlipRotate_leaf ul w h p Node.null Node.null Node.null rfl]
      exact ⟨hg, Mirrors_leaf ul w h p⟩
    · obtain ⟨ga1, ma⟩ := Flip_spec a ga
      obtain ⟨gb1, mb⟩ := Flip_spec b gb
      obtain ⟨gc1, mc⟩ := Flip_spec c gc
      have fa := Flip_fields a
      have fb := Flip_fields b
      have fc := Flip_fields c
      have hl := leafCond_false b c ha
      by_cases hhw : h > w
      · rw [FlipRotate_tall _ _ _ _ _ _ _ hl hhw]
        exact tall_step hg ha hhw ⟨fa.1, fa.2.1, fa.2.2.1, fa.2.2.2.2⟩
          ⟨fb.1, fb.2.1, fb.2.2.1, fb.2.2.2.2⟩ ⟨fc.1, fc.2.1, fc.2.2.1, fc.2.2.2.2⟩
          ga1 gb1 gc1 ma mb mc
      · rw [FlipRotate_wide _ _ _ _ _ _ _ hl hhw]
        obtain ⟨k1, -, k3, -⟩ := wide_step hg ha hhw ⟨fa.1, fa.2.1, fa.2.2.1, fa.2.2.2.2⟩
          ⟨fb.1, fb.2.1, fb.2.2.1, fb.2.2.2.2⟩ ⟨fc.1, fc.2.1, fc.2.2.1, fc.2.2.2.2⟩
          ga1 gb1 gc1 ma mb mc _ _ rfl rfl
        exact ⟨k1, k3⟩

theorem PruneHelper_Good {D : Type} [LinearOrder D] (dist : RGBAPixel → RGBAPixel → D)
    (tol : D) (t : Node) : Good t → Good (PruneHelper dist t tol) := by
  induction t with
  | null => intro _; trivial
  | node ul w h p a b c iha ihb ihc =>
    intro hg
    obtain ⟨g0, g1, g2, g3⟩ := (Good_node_iff _ _ _ _ _ _ _).1 hg
    by_cases hl : (Node.node ul w h p a b c).isLeaf = true
    · rw [PruneHelper_leaf dist tol _ hl]; exact hg
    · have hl0 : (Node.node ul w h p a b c).isLeaf = false := by simpa using hl
      by_cases hq : Qualifies dist tol (Node.node ul w h p a b c)
      · rw [PruneHelper_collapse dist tol ul w h p a b c hl0 hq]
        exact (Good_node_iff _ _ _ _ _ _ _).2 ⟨g0, g1, g2, Or.inl ⟨rfl, rfl, rfl⟩⟩
      · rw [PruneHelper_rec dist tol ul w h p a b c hl0 hq]
        rcases g3 with ⟨ha, hb0, hc⟩ | ⟨ha, hc, ga, gb, gc, ht⟩
        · exfalso
          rw [show (Node.node ul w h p a b c).isLeaf = (a.isNull && b.isNull && c.isNull)
            from rfl, ha, hb0, hc] at hl0
          simp at hl0
        · have fa := PruneHelper_fields dist tol a
          have fb := PruneHelper_fields dist tol b
          have fc := PruneHelper_fields dist tol c
          refine (Good_node_iff _ _ _ _ _ _ _).2 ⟨g0, g1, g2, Or.inr
            ⟨by rw [PruneHelper_isNull]; exact ha, by rw [PruneHelper_isNull]; exact hc,
              iha ga, ihb gb, ihc gc, ?_⟩⟩
          rcases ht with ht | ht
          · exact Or.inl (HTiles_map (fun u => u) (fun u hu => by simp only; omega) ht
              ⟨fa.2.1, fa.2.2.1, fa.1⟩
              ⟨PruneHelper_isNull dist tol b, fb.2.1, fb.2.2.1, fun _ => fb.1⟩
              ⟨fc.2.1, fc.2.2.1, fc.1⟩)
          · exact Or.inr (VTiles_map (fun u => u) ht
              ⟨fa.2.1, fa.2.2.1, fa.1⟩
              ⟨PruneHelper_isNull dist tol b, fb.2.1, fb.2.2.1, fun _ => fb.1⟩
              ⟨fc.2.1, fc.2.2.1, fc.1⟩)

/-- Every reachable tree is non-empty, has its root at the origin and satisfies the tiling
invariant. -/
theorem Reachable_inv {dflt : RGBAPixel} {t : Node} (hr : Reachable dflt t) :
    Good t ∧ t.isNull = false ∧ t.upperleft = (0, 0) := by
  induction hr with
  | build im t hw hh bw bh ht =>
    obtain ⟨t1, ht1, hb⟩ := TripleTree_built dflt im hw hh
    rw [ht] at ht1
    obtain rfl : t = t1 := by simpa using ht1
    exact ⟨Built_Good hb (by simpa using bw) (by simpa using bh), Built_isNull hb,
      (Built_fields hb).1⟩
  | prune dist tol t _ ih =>
    obtain ⟨g, n, u⟩ := ih
    exact ⟨PruneHelper_Good dist tol t g, by rw [Prune, PruneHelper_isNull]; exact n,
      by rw [Prune, (PruneHelper_fields dist tol t).1]; exact u⟩
  | flip t _ ih =>
    obtain ⟨g, n, u⟩ := ih
    exact ⟨(Flip_spec t g).1, by rw [FlipHorizontal, (Flip_fields t).2.2.2.2]; exact n,
      by rw [FlipHorizontal, (Flip_fields t).1]; exact u⟩
  | rotate t _ ih =>
    obtain ⟨g, n, u⟩ := ih
    have f1 := FlipRotate_fields t
    have f2 := Rotate_fields (FlipHorizontalHelperRotate t)
    refine ⟨(Rotate_spec _ (FlipRotate_spec t g).1).1, ?_, ?_⟩
    · rw [RotateCCW, f2.2.2.2.2, f1.2.2.2.2]; exact n
    · rw [RotateCCW, f2.1, f1.1, u]

theorem Reachable_gradientTree : Reachable examplePixel gradientTree :=
  Reachable.build (gradientImage 4 3) gradientTree (by decide) (by decide) (by decide)
    (by decide) rfl

theorem Reachable_mixedTree : Reachable examplePixel mixedTree :=
  Reachable.rotate _ (Reachable.prune redDist 1 _ Reachable_gradientTree)

/-! ## The flip is an involution -/

theorem MoveToRight_comm (d e : Nat) (t : Node) :
    MoveToRight d (MoveToRight e t) = MoveToRight e (MoveToRight d t) := by
  induction t with
  | null => rfl
  | node ul w h p a b c iha ihb ihc =>
    rw [MoveToRight_node, MoveToRight_node, MoveToRight_node, MoveToRight_node, iha, ihb, ihc]
    congr 2
    simp only
    omega

theorem MoveToLeft_comm (d e : Nat) (t : Node) :
    MoveToLeft d (MoveToLeft e t) = MoveToLeft e (MoveToLeft d t) := by
  induction t with
  | null => rfl
  | node ul w h p a b c iha ihb ihc =>
    rw [MoveToLeft_node, MoveToLeft_node, MoveToLeft_node, MoveToLeft_node, iha, ihb, ihc]
    congr 2
    simp only
    omega

theorem MoveToLeft_MoveToRight_comm (d e : Nat) (t : Node) :
    MoveToLeft d (MoveToRight e t) = MoveToRight e (MoveToLeft d t) := by
  induction t with
  | null => rfl
  | node ul w h p a b c iha ihb ihc =>
    rw [MoveToRight_node, MoveToLeft_node, MoveToLeft_node, MoveToRight_node, iha, ihb, ihc]
    congr 2
    simp only
    omega

theorem MoveToLeft_MoveToRight_cancel (d : Nat) (t : Node) :
    Good t → (t.isNull = false → t.upperleft.1 + t.width + d < 4294967296) →
      MoveToLeft d (MoveToRight d t) = t := by
  induction t with
  | null => intro _ _; rfl
  | node ul w h p a b c iha ihb ihc =>
    intro hg hb
    have hb1 : ul.1 + w + d < 4294967296 := hb rfl
    obtain ⟨g0, g1, g2, g3⟩ := (Good_node_iff _ _ _ _ _ _ _).1 hg
    rw [MoveToRight_node, MoveToLeft_node]
    have ex : ((ul.1 + d) % 4294967296 + (4294967296 - d) % 4294967296) % 4294967296 = ul.1 := by
      omega
    rw [ex]
    rcases g3 with ⟨ha, hb0, hc⟩ | ⟨ha, hc, ga, gb, gc, ht⟩
    · obtain rfl := isNull_eq_true ha
      obtain rfl := isNull_eq_true hb0
      obtain rfl := isNull_eq_true hc
      rfl
    · obtain ⟨ia, ib, ic⟩ := tiles_inside ht
      rw [iha ga (fun _ => by omega), ihb gb (fun hn => by have := ib hn; omega),
        ihc gc (fun _ => by omega)]

theorem MoveToRight_MoveToLeft_cancel (d : Nat) (t : Node) :
    Good t → (t.isNull = false → d ≤ t.upperleft.1) →
      MoveToRight d (MoveToLeft d t) = t := by
  induction t with
  | null => intro _ _; rfl
  | node ul w h p a b c iha ihb ihc =>
    intro hg hb
    have hb1 : d ≤ ul.1 := hb rfl
    obtain ⟨g0, g1, g2, g3⟩ := (Good_node_iff _ _ _ _ _ _ _).1 hg
    rw [MoveToLeft_node, MoveToRight_node]
    have ex : ((ul.1 + (4294967296 - d) % 4294967296) % 4294967296 + d) % 4294967296 = ul.1 := by
      omega
    rw [ex]
    rcases g3 with ⟨ha, hb0, hc⟩ | ⟨ha, hc, ga, gb, gc, ht⟩
    · obtain rfl := isNull_eq_true ha
      obtain rfl := isNull_eq_true hb0
      obtain rfl := isNull_eq_true hc
      rfl
    · obtain ⟨ia, ib, ic⟩ := tiles_inside ht
      rw [iha ga (fun _ => by omega), ihb gb (fun hn => by have := ib hn; omega),
        ihc gc (fun _ => by omega)]

theorem absDiff_add (p q d : Nat) : absDiff (p + d) (q + d) = absDiff p q := by
  rw [absDiff_eq, absDiff_eq]; split <;> split <;> omega

theorem absDiff_sub (p q d : Nat) (hp : d ≤ p) (hq : d ≤ q) :
    absDiff (p - d) (q - d) = absDiff p q := by
  rw [absDiff_eq, absDiff_eq]; split <;> split <;> omega

theorem Flip_MoveToRight (d : Nat) (t : Node) :
    Good t → (t.isNull = false → t.upperleft.1 + t.width + d < 4294967296) →
      FlipHorizontalHelper (MoveToRight d t) = MoveToRight d (FlipHorizontalHelper t) := by
  induction t with
  | null => intro _ _; rfl
  | node ul w h p a b c iha ihb ihc =>
    intro hg hb
    have hb1 : ul.1 + w + d < 4294967296 := hb rfl
    obtain ⟨g0, g1, g2, g3⟩ := (Good_node_iff _ _ _ _ _ _ _).1 hg
    rcases g3 with ⟨ha, hb0, hc⟩ | ⟨ha, hc, ga, gb, gc, ht⟩
    · obtain rfl := isNull_eq_true ha
      obtain rfl := isNull_eq_true hb0
      obtain rfl := isNull_eq_true hc
      rw [Flip_leaf ul w h p Node.null Node.null Node.null rfl, MoveToRight_node]
      exact Flip_leaf _ w h p Node.null Node.null Node.null rfl
    · obtain ⟨ia, ib, ic⟩ := tiles_inside ht
      have ea := iha ga (fun _ => by omega)
      have eb := ihb gb (fun hn => by have := ib hn; omega)
      have ec := ihc gc (fun _ => by omega)
      have hl := leafCond_false b c ha
      have hl2 : ((MoveToRight d a).isNull && (MoveToRight d b).isNull
          && (MoveToRight d c).isNull) = false :=
        leafCond_false _ _ (by rw [MoveToRight_isNull]; exact ha)
      have fa := Flip_fields a
      have fc := Flip_fields c
      rw [MoveToRight_node]
      by_cases hhw : h > w
      · rw [Flip_tall _ _ _ _ _ _ _ hl2 hhw, Flip_tall _ _ _ _ _ _ _ hl hhw, MoveToRight_node,
          ea, eb, ec]
      · rw [Flip_wide _ _ _ _ _ _ _ hl2 hhw, Flip_wide _ _ _ _ _ _ _ hl hhw, MoveToRight_node,
          ea, eb, ec]
        have xa : (MoveToRight d (FlipHorizontalHelper a)).upperleft.1
            = (FlipHorizontalHelper a).upperleft.1 + d :=
          MoveToRight_x d _ (by rw [fa.2.2.2.2]; exact ha) (by rw [fa.1]; omega)
        have xc : (MoveToRight d (FlipHorizontalHelper c)).upperleft.1
            = (FlipHorizontalHelper c).upperleft.1 + d :=
          MoveToRight_x d _ (by rw [fc.2.2.2.2]; exact hc) (by rw [fc.1]; omega)
        rw [xa, xc, absDiff_add]
        by_cases hgt : (FlipHorizontalHelper a).upperleft.1
            > (FlipHorizontalHelper c).upperleft.1
        · rw [if_pos (by omega), if_pos (by omega), if_pos hgt, if_pos hgt,
            MoveToRight_comm, MoveToLeft_MoveToRight_comm]
        · rw [if_neg (by omega), if_neg (by omega), if_neg hgt, if_neg hgt,
            MoveToRight_comm, MoveToLeft_MoveToRight_comm]

theorem Flip_MoveToLeft (d : Nat) (t : Node) :
    Good t → (t.isNull = false → d ≤ t.upperleft.1) →
      FlipHorizontalHelper (MoveToLeft d t) = MoveToLeft d (FlipHorizontalHelper t) := by
  induction t with
  | null => intro _ _; rfl
  | node ul w h p a b c iha ihb ihc =>
    intro hg hb
    have hb1 : d ≤ ul.1 := hb rfl
    obtain ⟨g0, g1, g2, g3⟩ := (Good_node_iff _ _ _ _ _ _ _).1 hg
    rcases g3 with ⟨ha, hb0, hc⟩ | ⟨ha, hc, ga, gb, gc, ht⟩
    · obtain rfl := isNull_eq_true ha
      obtain rfl := isNull_eq_true hb0
      obtain rfl := isNull_eq_true hc
      rw [Flip_leaf ul w h p Node.null Node.null Node.null rfl, MoveToLeft_node]
      exact Flip_leaf _ w h p Node.null Node.null Node.null rfl
    · obtain ⟨ia, ib, ic⟩ := tiles_inside ht
      have ea := iha ga (fun _ => by omega)
      have eb := ihb gb (fun hn => by have := ib hn; omega)
      have ec := ihc gc (fun _ => by omega)
      have hl := leafCond_false b c ha
      have hl2 : ((MoveToLeft d a).isNull && (MoveToLeft d b).isNull
          && (MoveToLeft d c).isNull) = false :=
        leafCond_false _ _ (by rw [MoveToLeft_isNull]; exact ha)
      have fa := Flip_fields a
      have fc := Flip_fields c
      have ba := Good_bound ga ha
      have bc := Good_bound gc hc
      rw [MoveToLeft_node]
      by_cases hhw : h > w
      · rw [Flip_tall _ _ _ _ _ _ _ hl2 hhw, Flip_tall _ _ _ _ _ _ _ hl hhw, MoveToLeft_node,
          ea, eb, ec]
      · rw [Flip_wide _ _ _ _ _ _ _ hl2 hhw, Flip_wide _ _ _ _ _ _ _ hl hhw, MoveToLeft_node,
          ea, eb, ec]
        have xa : (MoveToLeft d (FlipHorizontalHelper a)).upperleft.1
            = (FlipHorizontalHelper a).upperleft.1 - d :=
          MoveToLeft_x d _ (by rw [fa.2.2.2.2]; exact ha) (by rw [fa.1]; omega)
            (by rw [fa.1]; omega)
        have xc : (MoveToLeft d (FlipHorizontalHelper c)).upperleft.1
            = (FlipHorizontalHelper c).upperleft.1 - d :=
          MoveToLeft_x d _ (by rw [fc.2.2.2.2]; exact hc) (by rw [fc.1]; omega)
            (by rw [fc.1]; omega)
        have da : d ≤ (FlipHorizontalHelper a).upperleft.1 := by rw [fa.1]; omega
        have dc : d ≤ (FlipHorizontalHelper c).upperleft.1 := by rw [fc.1]; omega
        rw [xa, xc, absDiff_sub _ _ _ da dc]
        by_cases hgt : (FlipHorizontalHelper a).upperleft.1
            > (FlipHorizontalHelper c).upperleft.1
        · rw [if_pos (by omega), if_pos (by omega), if_pos hgt, if_pos hgt,
            MoveToLeft_comm, ← MoveToLeft_MoveToRight_comm]
        · rw [if_neg (by omega), if_neg (by omega), if_neg hgt, if_neg hgt,
            MoveToLeft_comm, ← MoveToLeft_MoveToRight_comm]

theorem Flip_Flip (t : Node) : Good t → FlipHorizontalHelper (FlipHorizontalHelper t) = t := by
  induction t with
  | null => intro _; rfl
  | node ul w h p a b c iha ihb ihc =>
    intro hg
    obtain ⟨g0, g1, g2, g3⟩ := (Good_node_iff _ _ _ _ _ _ _).1 hg
    rcases g3 with ⟨ha, hb0, hc⟩ | ⟨ha, hc, ga, gb, gc, ht⟩
    · obtain rfl := isNull_eq_true ha
      obtain rfl := isNull_eq_true hb0
      obtain rfl := isNull_eq_true hc
      rw [Flip_leaf ul w h p Node.null Node.null Node.null rfl,
        Flip_leaf ul w h p Node.null Node.null Node.null rfl]
    · obtain ⟨ia, ib, ic⟩ := tiles_inside ht
      have ea := iha ga
      have eb := ihb gb
      have ec := ihc gc
      have hl := leafCond_false b c ha
      have fa := Flip_fields a
      have fc := Flip_fields c
      have ga1 := (Flip_spec a ga).1
      have gc1 := (Flip_spec c gc).1
      have na1 : (FlipHorizontalHelper a).isNull = false := by rw [fa.2.2.2.2]; exact ha
      have nc1 : (FlipHorizontalHelper c).isNull = false := by rw [fc.2.2.2.2]; exact hc
      have qa := Good_pos ga ha
      have ba := Good_bound ga ha
      have bc := Good_bound gc hc
      by_cases hhw : h > w
      · rw [Flip_tall _ _ _ _ _ _ _ hl hhw,
          Flip_tall _ _ _ _ _ _ _ (leafCond_false _ _ na1) hhw, ea, eb, ec]
      · rw [Flip_wide _ _ _ _ _ _ _ hl hhw]
        -- the displacement `d` and the branch taken, for each of the three layouts
        have key : ∀ (d : Nat) (A2 C2 : Node),
            A2.isNull = false → C2.isNull = false →
            FlipHorizontalHelper A2 = (if a.upperleft.1 > c.upperleft.1
              then MoveToLeft d a else MoveToRight d a) →
            FlipHorizontalHelper C2 = (if a.upperleft.1 > c.upperleft.1
              then MoveToRight d c else MoveToLeft d c) →
            absDiff a.upperleft.1 c.upperleft.1 = d →
            (a.upperleft.1 > c.upperleft.1 → d ≤ a.upperleft.1) →
            (¬ a.upperleft.1 > c.upperleft.1 → d ≤ c.upperleft.1) →
            a.upperleft.1 + a.width + d < 4294967296 + (a.upperleft.1 - c.upperleft.1) →
            c.upperleft.1 + c.width + d < 4294967296 + (c.upperleft.1 - a.upperleft.1) →
            FlipHorizontalHelper (Node.node ul w h p C2 (FlipHorizontalHelper b) A2)
              = Node.node ul w h p a b c := by
          intro d A2 C2 nA nC eA eC hd h1 h2 h3 h4
          rw [Flip_wide _ _ _ _ _ _ _ (leafCond_false _ _ nC) hhw, eA, eC, eb]
          by_cases hgt : a.upperleft.1 > c.upperleft.1
          · have hd1 : d = a.upperleft.1 - c.upperleft.1 := by
              rw [← hd, absDiff_eq]; split <;> omega
            have h1' := h1 hgt
            simp only [if_pos hgt]
            have xC : (MoveToRight d c).upperleft.1 = c.upperleft.1 + d :=
              MoveToRight_x d c hc (by omega)
            have xA : (MoveToLeft d a).upperleft.1 = a.upperleft.1 - d :=
              MoveToLeft_x d a ha h1' (by omega)
            have hgt2 : (MoveToRight d c).upperleft.1 > (MoveToLeft d a).upperleft.1 := by
              rw [xC, xA]; omega
            have hd2 : absDiff (MoveToRight d c).upperleft.1 (MoveToLeft d a).upperleft.1
                = d := by
              rw [xC, xA, absDiff_eq]; split <;> omega
            rw [if_pos hgt2, if_pos hgt2, hd2,
              MoveToRight_MoveToLeft_cancel d a ga (fun _ => h1'),
              MoveToLeft_MoveToRight_cancel d c gc (fun _ => by omega)]
          · have hd1 : d = c.upperleft.1 - a.upperleft.1 := by
              rw [← hd, absDiff_eq]; split <;> omega
            have h2' := h2 hgt
            simp only [if_neg hgt]
            have xC : (MoveToLeft d c).upperleft.1 = c.upperleft.1 - d :=
              MoveToLeft_x d c hc h2' (by omega)
            have xA : (MoveToRight d a).upperleft.1 = a.upperleft.1 + d :=
              MoveToRight_x d a ha (by omega)
            have hgt2 : ¬ (MoveToLeft d c).upperleft.1 > (MoveToRight d a).upperleft.1 := by
              rw [xC, xA]; omega
            have hd2 : absDiff (MoveToLeft d c).upperleft.1 (MoveToRight d a).upperleft.1
                = d := by
              rw [xC, xA, absDiff_eq]; split <;> omega
            rw [if_neg hgt2, if_neg hgt2, hd2,
              MoveToLeft_MoveToRight_cancel d a ga (fun _ => by omega),
              MoveToRight_MoveToLeft_cancel d c gc (fun _ => h2')]
        have hxa : (FlipHorizontalHelper a).upperleft.1 = a.upperleft.1 := by rw [fa.1]
        have hxc : (FlipHorizontalHelper c).upperleft.1 = c.upperleft.1 := by rw [fc.1]
        rw [hxa, hxc]
        have hdle : a.upperleft.1 > c.upperleft.1 →
            absDiff a.upperleft.1 c.upperleft.1 ≤ a.upperleft.1 := by
          intro hgt; rw [absDiff_eq]; split <;> omega
        have hdle2 : ¬ a.upperleft.1 > c.upperleft.1 →
            absDiff a.upperleft.1 c.upperleft.1 ≤ c.upperleft.1 := by
          intro hgt; rw [absDiff_eq]; split <;> omega
        have hdv : absDiff a.upperleft.1 c.upperleft.1
            = (a.upperleft.1 - c.upperleft.1) + (c.upperleft.1 - a.upperleft.1) := by
          rw [absDiff_eq]; split <;> omega
        have hwa : a.upperleft.1 + a.width ≤ ul.1 + w := ia.2.1
        have hwc : c.upperleft.1 + c.width ≤ ul.1 + w := ic.2.1
        have hsep : a.upperleft.1 + a.width + (c.upperleft.1 - a.upperleft.1) ≤ ul.1 + w ∧
            c.upperleft.1 + c.width + (a.upperleft.1 - c.upperleft.1) ≤ ul.1 + w := by
          rcases ht with ht | ht
          · obtain ⟨h1, h2, h3, h4, h5, h6, h7, h8, h9⟩ := ht
            rcases h9 with ⟨e1, e2⟩ | ⟨e1, e2⟩ <;> omega
          · obtain ⟨h1, h2, h3, h4, h5, h6, h7, h8, h9⟩ := ht
            omega
        apply key (absDiff a.upperleft.1 c.upperleft.1)
        · by_cases hgt : a.upperleft.1 > c.upperleft.1
          · rw [if_pos hgt, MoveToLeft_isNull]; exact na1
          · rw [if_neg hgt, MoveToRight_isNull]; exact na1
        · by_cases hgt : a.upperleft.1 > c.upperleft.1
          · rw [if_pos hgt, MoveToRight_isNull]; exact nc1
          · rw [if_neg hgt, MoveToLeft_isNull]; exact nc1
        · by_cases hgt : a.upperleft.1 > c.upperleft.1
          · rw [if_pos hgt, if_pos hgt,
              Flip_MoveToLeft _ _ ga1 (fun _ => by rw [fa.1]; exact hdle hgt), ea]
          · rw [if_neg hgt, if_neg hgt,
              Flip_MoveToRight _ _ ga1 (fun _ => by rw [fa.1, fa.2.1, hdv]; omega), ea]
        · by_cases hgt : a.upperleft.1 > c.upperleft.1
          · rw [if_pos hgt, if_pos hgt,
              Flip_MoveToRight _ _ gc1 (fun _ => by rw [fc.1, fc.2.1, hdv]; omega), ec]
          · rw [if_neg hgt, if_neg hgt,
              Flip_MoveToLeft _ _ gc1 (fun _ => by rw [fc.1]; exact hdle2 hgt), ec]
        · rfl
        · exact hdle
        · exact hdle2
        · rw [hdv]; omega
        · rw [hdv]; omega

/-- C6: for every tree `t` reachable from the tree of an image by `Prune`, `FlipHorizontal` and
`RotateCCW` calls, two successive `FlipHorizontal` calls give back `t` itself, node for node
(origins, sizes, averages and the subtree in each slot), and hence the same `Render`. -/
theorem FlipHorizontal_involutive (dflt : RGBAPixel) (t : Node) (hr : Reachable dflt t) :
    FlipHorizontal (FlipHorizontal t) = t ∧
      Render dflt (FlipHorizontal (FlipHorizontal t)) = Render dflt t := by
  have h : FlipHorizontal (FlipHorizontal t) = t := Flip_Flip t (Reachable_inv hr).1
  exact ⟨h, by rw [h]⟩

/-- Witness of C6: the pruned and rotated tree of the 4x3 gradient image is reachable. -/
theorem FlipHorizontal_involutive_witness :
    Reachable examplePixel mixedTree ∧
    FlipHorizontal (FlipHorizontal mixedTree) = mixedTree ∧
    Render examplePixel (FlipHorizontal (FlipHorizontal mixedTree))
      = Render examplePixel mixedTree :=
  ⟨Reachable_mixedTree, FlipHorizontal_involutive examplePixel mixedTree Reachable_mixedTree⟩

/-! ## The rendering of flipped and rotated trees -/

theorem FlipHorizontal_colorAt {t : Node} (hg : Good t) (hu : t.upperleft = (0, 0)) :
    (FlipHorizontal t).width = t.width ∧ (FlipHorizontal t).height = t.height ∧
      ∀ x y, x < t.width → colorAt (FlipHorizontal t) x y = colorAt t (t.width - 1 - x) y := by
  have f := Flip_fields t
  refine ⟨f.2.1, f.2.2.1, fun x y hx => ?_⟩
  have m := (Flip_spec t hg).2 x y
  rw [hu] at m
  simp only [Nat.zero_add, Nat.zero_le, true_and] at m
  rw [FlipHorizontal, m, if_pos hx]

theorem RotateCCW_colorAt {t : Node} (hg : Good t) (hu : t.upperleft = (0, 0)) :
    (RotateCCW t).width = t.height ∧ (RotateCCW t).height = t.width ∧
      ∀ x y, y < t.width → colorAt (RotateCCW t) x y = colorAt t (t.width - 1 - y) x := by
  have f1 := FlipRotate_fields t
  have f2 := Rotate_fields (FlipHorizontalHelperRotate t)
  obtain ⟨g1, m⟩ := FlipRotate_spec t hg
  refine ⟨by rw [RotateCCW, f2.2.1, f1.2.2.1], by rw [RotateCCW, f2.2.2.1, f1.2.1],
    fun x y hy => ?_⟩
  have m1 := m y x
  rw [hu] at m1
  simp only [Nat.zero_add, Nat.zero_le, true_and] at m1
  rw [RotateCCW, (Rotate_spec _ g1).2, m1, if_pos hy]

/-- C3: for every tree `t` reachable from the tree of an image by `Prune`, `FlipHorizontal` and
`RotateCCW` calls, `Render` of `FlipHorizontal t` has the dimensions of `Render t`, and its pixel
at `(x, y)` is the pixel of `Render t` at `(W - 1 - x, y)`, `W` being the width of `Render t`. -/
theorem FlipHorizontal_render (dflt : RGBAPixel) (t : Node) (hr : Reachable dflt t) :
    (Render dflt (FlipHorizontal t)).width = (Render dflt t).width ∧
    (Render dflt (FlipHorizontal t)).height = (Render dflt t).height ∧
    ∀ x y, x < (Render dflt t).width → y < (Render dflt t).height →
      (Render dflt (FlipHorizontal t)).getPixel x y
        = (Render dflt t).getPixel ((Render dflt t).width - 1 - x) y := by
  obtain ⟨hg, -, hu⟩ := Reachable_inv hr
  obtain ⟨w1, h1, p1⟩ := Render_pixel dflt t
  obtain ⟨w2, h2, p2⟩ := Render_pixel dflt (FlipHorizontal t)
  obtain ⟨fw, fh, fc⟩ := FlipHorizontal_colorAt hg hu
  refine ⟨by rw [w2, w1, fw], by rw [h2, h1, fh], fun x y hx _ => ?_⟩
  show (Render dflt (FlipHorizontal t)).pixel x y = (Render dflt t).pixel _ y
  rw [p2, p1, w1, fc x y (by rw [← w1]; exact hx)]

/-- Witness of C3: the pruned and rotated tree of the 4x3 gradient image is reachable. -/
theorem FlipHorizontal_render_witness :
    Reachable examplePixel mixedTree ∧
    (Render examplePixel (FlipHorizontal mixedTree)).width = (Render examplePixel mixedTree).width ∧
    (Render examplePixel (FlipHorizontal mixedTree)).height
      = (Render examplePixel mixedTree).height ∧
    ∀ x y, x < (Render examplePixel mixedTree).width →
      y < (Render examplePixel mixedTree).height →
      (Render examplePixel (FlipHorizontal mixedTree)).getPixel x y
        = (Render examplePixel mixedTree).getPixel
            ((Render examplePixel mixedTree).width - 1 - x) y :=
  ⟨Reachable_mixedTree, FlipHorizontal_render examplePixel mixedTree Reachable_mixedTree⟩

/-- C2: for every tree `t` reachable from the tree of an image by `Prune`, `FlipHorizontal` and
`RotateCCW` calls, with `W` and `H` the width and height of `Render t`: `Render` of
`RotateCCW t` has width `H` and height `W`, and its pixel at `(x, y)` is the pixel of `Render t`
at `(W - 1 - y, x)`. -/
theorem RotateCCW_render (dflt : RGBAPixel) (t : Node) (hr : Reachable dflt t) :
    (Render dflt (RotateCCW t)).width = (Render dflt t).height ∧
    (Render dflt (RotateCCW t)).height = (Render dflt t).width ∧
    ∀ x y, x < (Render dflt t).height → y < (Render dflt t).width →
      (Render dflt (RotateCCW t)).getPixel x y
        = (Render dflt t).getPixel ((Render dflt t).width - 1 - y) x := by
  obtain ⟨hg, -, hu⟩ := Reachable_inv hr
  obtain ⟨w1, h1, p1⟩ := Render_pixel dflt t
  obtain ⟨w2, h2, p2⟩ := Render_pixel dflt (RotateCCW t)
  obtain ⟨fw, fh, fc⟩ := RotateCCW_colorAt hg hu
  refine ⟨by rw [w2, h1, fw], by rw [h2, w1, fh], fun x y _ hy => ?_⟩
  show (Render dflt (RotateCCW t)).pixel x y = (Render dflt t).pixel _ x
  rw [p2, p1, w1, fc x y (by rw [← w1]; exact hy)]

/-- Witness of C2: the pruned and rotated tree of the 4x3 gradient image is reachable. -/
theorem RotateCCW_render_witness :
    Reachable examplePixel mixedTree ∧
    (Render examplePixel (RotateCCW mixedTree)).width = (Render examplePixel mixedTree).height ∧
    (Render examplePixel (RotateCCW mixedTree)).height = (Render examplePixel mixedTree).width ∧
    ∀ x y, x < (Render examplePixel mixedTree).height →
      y < (Render examplePixel mixedTree).width →
      (Render examplePixel (RotateCCW mixedTree)).getPixel x y
        = (Render examplePixel mixedTree).getPixel
            ((Render examplePixel mixedTree).width - 1 - y) x :=
  ⟨Reachable_mixedTree, RotateCCW_render examplePixel mixedTree Reachable_mixedTree⟩

/-- C7: for every tree `t` reachable from the tree of an image by `Prune`, `FlipHorizontal` and
`RotateCCW` calls, four successive `RotateCCW` calls give a tree whose `Render` has the dimensions
of `Render t` and the same colour at every coordinate. -/
theorem RotateCCW_four_times (dflt : RGBAPixel) (t : Node) (hr : Reachable dflt t) :
    (Render dflt (RotateCCW (RotateCCW (RotateCCW (RotateCCW t))))).width
      = (Render dflt t).width ∧
    (Render dflt (RotateCCW (RotateCCW (RotateCCW (RotateCCW t))))).height
      = (Render dflt t).height ∧
    ∀ x y, x < (Render dflt t).width → y < (Render dflt t).height →
      (Render dflt (RotateCCW (RotateCCW (RotateCCW (RotateCCW t))))).getPixel x y
        = (Render dflt t).getPixel x y := by
  have r1 := Reachable.rotate t hr
  have r2 := Reachable.rotate _ r1
  have r3 := Reachable.rotate _ r2
  obtain ⟨g0, -, u0⟩ := Reachable_inv hr
  obtain ⟨g1, -, u1⟩ := Reachable_inv r1
  obtain ⟨g2, -, u2⟩ := Reachable_inv r2
  obtain ⟨g3, -, u3⟩ := Reachable_inv r3
  obtain ⟨a1, b1, c1⟩ := RotateCCW_colorAt g0 u0
  obtain ⟨a2, b2, c2⟩ := RotateCCW_colorAt g1 u1
  obtain ⟨a3, b3, c3⟩ := RotateCCW_colorAt g2 u2
  obtain ⟨a4, b4, c4⟩ := RotateCCW_colorAt g3 u3
  obtain ⟨w1, h1, p1⟩ := Render_pixel dflt t
  obtain ⟨w2, h2, p2⟩ := Render_pixel dflt (RotateCCW (RotateCCW (RotateCCW (RotateCCW t))))
  refine ⟨by rw [w2, w1, a4, b3, a2, b1], by rw [h2, h1, b4, a3, b2, a1], fun x y hx hy => ?_⟩
  rw [w1] at hx
  rw [h1] at hy
  show (Render dflt (RotateCCW (RotateCCW (RotateCCW (RotateCCW t))))).pixel x y
    = (Render dflt t).pixel x y
  have e3 : (RotateCCW (RotateCCW (RotateCCW t))).width = t.height := by rw [a3, b2, a1]
  have e2 : (RotateCCW (RotateCCW t)).width = t.width := by rw [a2, b1]
  have e1 : (RotateCCW t).width = t.height := a1
  rw [p2, p1, c4 x y (by omega), e3, c3 _ _ (by omega), e2, c2 _ _ (by omega), e1,
    c1 _ _ (by omega)]
  congr 2 <;> omega

/-- Witness of C7: the pruned and rotated tree of the 4x3 gradient image is reachable. -/
theorem RotateCCW_four_times_witness :
    Reachable examplePixel mixedTree ∧
    (Render examplePixel (RotateCCW (RotateCCW (RotateCCW (RotateCCW mixedTree))))).width
      = (Render examplePixel mixedTree).width ∧
    (Render examplePixel (RotateCCW (RotateCCW (RotateCCW (RotateCCW mixedTree))))).height
      = (Render examplePixel mixedTree).height ∧
    ∀ x y, x < (Render examplePixel mixedTree).width →
      y < (Render examplePixel mixedTree).height →
      (Render examplePixel (RotateCCW (RotateCCW (RotateCCW (RotateCCW mixedTree))))).getPixel
          x y
        = (Render examplePixel mixedTree).getPixel x y :=
  ⟨Reachable_mixedTree, RotateCCW_four_times examplePixel mixedTree Reachable_mixedTree⟩

/-! ## Pruning a tree that is uniform within the tolerance -/

theorem leaves_leaf (n : Node) (h : n.isLeaf = true) (hn : n.isNull = false) : leaves n = 1 := by
  cases n with
  | null => simp [Node.isNull] at hn
  | node ul w h q a b c =>
    have h1 : (a.isNull && b.isNull && c.isNull) = true := h
    rw [leaves, if_pos h1]

/-- C11: when every leaf of a tree `t` of the data model is within `tol` of the average colour
stored in the root, `Prune(tol)` leaves a tree with one leaf: the root itself, without children,
with the rectangle and the average colour it had in `t`. -/
theorem Prune_uniform_single_leaf {D : Type} [LinearOrder D] (dist : RGBAPixel → RGBAPixel → D)
    (tol : D) (t : Node) (hws : wellShaped t = true) (hn : t.isNull = false)
    (hq : Qualifies dist tol t) :
    NumLeaves (Prune dist t tol) = 1 ∧
    (Prune dist t tol).isNull = false ∧ (Prune dist t tol).isLeaf = true ∧
    (Prune dist t tol).upperleft = t.upperleft ∧ (Prune dist t tol).width = t.width ∧
    (Prune dist t tol).height = t.height ∧ (Prune dist t tol).avg = t.avg ∧
    wellShaped (Prune dist t tol) = true := by
  have hnull : (Prune dist t tol).isNull = false := by
    rw [Prune, PruneHelper_isNull]; exact hn
  have hleaf : (Prune dist t tol).isLeaf = true := by
    by_cases hl : t.isLeaf = true
    · rw [Prune, PruneHelper_leaf dist tol t hl]; exact hl
    · have hl0 : t.isLeaf = false := by simpa using hl
      exact (PruneHelper_isLeaf_iff dist tol t hl0 hn).2 hq
  obtain ⟨f1, f2, f3, f4⟩ := PruneHelper_fields dist tol t
  exact ⟨leaves_leaf _ hleaf hnull, hnull, hleaf, f1, f2, f3, f4,
    PruneHelper_wellShaped dist tol t hws⟩

/-- Witness of C11: in the tree of the grey 4x1 image 20, 0, 20, 20 the root stores 15, and every
leaf is within 15 of it in the red channel. -/
theorem Prune_uniform_single_leaf_witness :
    (wellShaped greyTree = true ∧ greyTree.isNull = false ∧ Qualifies redDist 15 greyTree) ∧
    (NumLeaves (Prune redDist greyTree 15) = 1 ∧
    (Prune redDist greyTree 15).isNull = false ∧ (Prune redDist greyTree 15).isLeaf = true ∧
    (Prune redDist greyTree 15).upperleft = greyTree.upperleft ∧
    (Prune redDist greyTree 15).width = greyTree.width ∧
    (Prune redDist greyTree 15).height = greyTree.height ∧
    (Prune redDist greyTree 15).avg = greyTree.avg ∧
    wellShaped (Prune redDist greyTree 15) = true) :=
  ⟨⟨by decide, by decide, by decide⟩,
    Prune_uniform_single_leaf redDist 15 greyTree (by decide) (by decide) (by decide)⟩

/-! ## Copying a tree -/

theorem CopyHelper_eq (t : Node) : CopyHelper t = t := by
  induction t with
  | null => rfl
  | node ul w h q a b c iha ihb ihc =>
    have e : ∀ n : Node, CopyHelper n = n →
        (if (!n.isNull) = true then CopyHelper n else Node.null) = n := by
      intro n hn
      cases n with
      | null => rfl
      | node _ _ _ _ _ _ _ => simpa [Node.isNull] using hn
    rw [CopyHelper, e a iha, e b ihb, e c ihc]

/-- C13: `CopyHelper` applied to the root of a non-empty tree `t` returns a tree that is equal to
`t` node for node: the same shape and, in every node, the same origin, size, average colour and
present slots; so the copy has the leaves and the rendering of `t`. -/
theorem CopyHelper_equal (dflt : RGBAPixel) (t : Node) (hn : t.isNull = false) :
    CopyHelper t = t ∧
    (∀ p : List Slot,
      (subtreeAt (CopyHelper t) p).isNull = (subtreeAt t p).isNull ∧
      (subtreeAt (CopyHelper t) p).upperleft = (subtreeAt t p).upperleft ∧
      (subtreeAt (CopyHelper t) p).width = (subtreeAt t p).width ∧
      (subtreeAt (CopyHelper t) p).height = (subtreeAt t p).height ∧
      (subtreeAt (CopyHelper t) p).avg = (subtreeAt t p).avg) ∧
    (Copy t).isNull = false ∧
    NumLeaves (Copy t) = NumLeaves t ∧ Render dflt (Copy t) = Render dflt t := by
  have e : CopyHelper t = t := CopyHelper_eq t
  refine ⟨e, fun p => ?_, ?_, ?_, ?_⟩
  · rw [e]; exact ⟨rfl, rfl, rfl, rfl, rfl⟩
  · rw [Copy, e]; exact hn
  · rw [Copy, e]
  · rw [Copy, e]

/-- Witness of C13: the tree of the grey 4x1 image 20, 0, 20, 20 is not empty. -/
theorem CopyHelper_equal_witness :
    greyTree.isNull = false ∧
    (CopyHelper greyTree = greyTree ∧
    (∀ p : List Slot,
      (subtreeAt (CopyHelper greyTree) p).isNull = (subtreeAt greyTree p).isNull ∧
      (subtreeAt (CopyHelper greyTree) p).upperleft = (subtreeAt greyTree p).upperleft ∧
      (subtreeAt (CopyHelper greyTree) p).width = (subtreeAt greyTree p).width ∧
      (subtreeAt (CopyHelper greyTree) p).height = (subtreeAt greyTree p).height ∧
      (subtreeAt (CopyHelper greyTree) p).avg = (subtreeAt greyTree p).avg) ∧
    (Copy greyTree).isNull = false ∧
    NumLeaves (Copy greyTree) = NumLeaves greyTree ∧
    Render examplePixel (Copy greyTree) = Render examplePixel greyTree) :=
  ⟨by decide, CopyHelper_equal examplePixel greyTree (by decide)⟩

/-! ## Stored averages are blends of the children -/

theorem Rearranged_node (rot : Bool) (ul : Nat × Nat) (w h : Nat) (p : RGBAPixel)
    (a b c m : Node) :
    Rearranged rot (Node.node ul w h p a b c) m ↔
      (m.isNull = false ∧ m.avg = p ∧
        m.width = (if rot then h else w) ∧ m.height = (if rot then w else h) ∧
        Rearranged rot b m.B ∧
        ((Rearranged rot a m.A ∧ Rearranged rot c m.C) ∨
          (Rearranged rot a m.C ∧ Rearranged rot c m.A))) := by
  rw [Rearranged]

theorem Rearranged_null (rot : Bool) (m : Node) : Rearranged rot Node.null m ↔ m = Node.null := by
  rw [Rearranged]

theorem Rearranged_isNull (rot : Bool) (t m : Node) (h : Rearranged rot t m) :
    m.isNull = t.isNull := by
  cases t with
  | null => rw [(Rearranged_null rot m).1 h]
  | node ul w h0 p a b c => exact ((Rearranged_node rot ul w h0 p a b c m).1 h).1

theorem Rearranged_MoveToRight (rot : Bool) (d : Nat) (t : Node) :
    ∀ m, Rearranged rot t m → Rearranged rot t (MoveToRight d m) := by
  induction t with
  | null => intro m h; rw [(Rearranged_null rot m).1 h]; exact (Rearranged_null rot _).2 rfl
  | node ul w h p a b c iha ihb ihc =>
    intro m hm
    obtain ⟨h1, h2, h3, h4, h5, h6⟩ := (Rearranged_node rot ul w h p a b c m).1 hm
    cases m with
    | null => simp [Node.isNull] at h1
    | node ul2 w2 hh2 p2 a2 b2 c2 =>
      rw [MoveToRight_node]
      refine (Rearranged_node rot ul w h p a b c _).2 ⟨rfl, h2, h3, h4, ihb _ h5, ?_⟩
      rcases h6 with ⟨k1, k2⟩ | ⟨k1, k2⟩
      · exact Or.inl ⟨iha _ k1, ihc _ k2⟩
      · exact Or.inr ⟨iha _ k1, ihc _ k2⟩

theorem Rearranged_MoveToLeft (rot : Bool) (d : Nat) (t : Node) :
    ∀ m, Rearranged rot t m → Rearranged rot t (MoveToLeft d m) := by
  induction t with
  | null => intro m h; rw [(Rearranged_null rot m).1 h]; exact (Rearranged_null rot _).2 rfl
  | node ul w h p a b c iha ihb ihc =>
    intro m hm
    obtain ⟨h1, h2, h3, h4, h5, h6⟩ := (Rearranged_node rot ul w h p a b c m).1 hm
    cases m with
    | null => simp [Node.isNull] at h1
    | node ul2 w2 hh2 p2 a2 b2 c2 =>
      rw [MoveToLeft_node]
      refine (Rearranged_node rot ul w h p a b c _).2 ⟨rfl, h2, h3, h4, ihb _ h5, ?_⟩
      rcases h6 with ⟨k1, k2⟩ | ⟨k1, k2⟩
      · exact Or.inl ⟨iha _ k1, ihc _ k2⟩
      · exact Or.inr ⟨iha _ k1, ihc _ k2⟩

theorem Rearranged_Rotate (t : Node) :
    ∀ m, Rearranged false t m → Rearranged true t (RotateCCWHelper m) := by
  induction t with
  | null => intro m h; rw [(Rearranged_null false m).1 h]; exact (Rearranged_null true _).2 rfl
  | node ul w h p a b c iha ihb ihc =>
    intro m hm
    obtain ⟨h1, h2, h3, h4, h5, h6⟩ := (Rearranged_node false ul w h p a b c m).1 hm
    cases m with
    | null => simp [Node.isNull] at h1
    | node ul2 w2 hh2 p2 a2 b2 c2 =>
      have e3 : w2 = w := h3
      have e4 : hh2 = h := h4
      subst e3; subst e4
      by_cases hl : (a2.isNull && b2.isNull && c2.isNull) = true
      · obtain ⟨rfl, rfl, rfl⟩ := leafCond_true hl
        rw [Rotate_leaf ul2 w2 hh2 p2 Node.null Node.null Node.null rfl]
        refine (Rearranged_node true ul _ _ p a b c _).2 ⟨rfl, h2, rfl, rfl, ihb _ h5, ?_⟩
        rcases h6 with ⟨k1, k2⟩ | ⟨k1, k2⟩
        · exact Or.inl ⟨iha _ k1, ihc _ k2⟩
        · exact Or.inr ⟨iha _ k1, ihc _ k2⟩
      · have hl0 : (a2.isNull && b2.isNull && c2.isNull) = false := by simpa using hl
        by_cases hwh : w2 ≥ hh2
        · rw [Rotate_wide _ _ _ _ _ _ _ hl0 hwh]
          refine (Rearranged_node true ul _ _ p a b c _).2 ⟨rfl, h2, rfl, rfl, ihb _ h5, ?_⟩
          rcases h6 with ⟨k1, k2⟩ | ⟨k1, k2⟩
          · exact Or.inr ⟨iha _ k1, ihc _ k2⟩
          · exact Or.inl ⟨iha _ k1, ihc _ k2⟩
        · rw [Rotate_tall _ _ _ _ _ _ _ hl0 hwh]
          refine (Rearranged_node true ul _ _ p a b c _).2 ⟨rfl, h2, rfl, rfl, ihb _ h5, ?_⟩
          rcases h6 with ⟨k1, k2⟩ | ⟨k1, k2⟩
          · exact Or.inl ⟨iha _ k1, ihc _ k2⟩
          · exact Or.inr ⟨iha _ k1, ihc _ k2⟩

theorem Rearranged_Flip (t : Node) : Rearranged false t (FlipHorizontalHelper t) := by
  induction t with
  | null => exact (Rearranged_null false _).2 rfl
  | node ul w h p a b c iha ihb ihc =>
    by_cases hl : (a.isNull && b.isNull && c.isNull) = true
    · obtain ⟨rfl, rfl, rfl⟩ := leafCond_true hl
      rw [Flip_leaf ul w h p Node.null Node.null Node.null rfl]
      exact (Rearranged_node false ul w h p _ _ _ _).2 ⟨rfl, rfl, rfl, rfl,
        (Rearranged_null false _).2 rfl,
        Or.inl ⟨(Rearranged_null false _).2 rfl, (Rearranged_null false _).2 rfl⟩⟩
    · have hl0 : (a.isNull && b.isNull && c.isNull) = false := by simpa using hl
      by_cases hhw : h > w
      · rw [Flip_tall _ _ _ _ _ _ _ hl0 hhw]
        exact (Rearranged_node false ul w h p _ _ _ _).2 ⟨rfl, rfl, rfl, rfl, ihb,
          Or.inl ⟨iha, ihc⟩⟩
      · rw [Flip_wide _ _ _ _ _ _ _ hl0 hhw]
        refine (Rearranged_node false ul w h p _ _ _ _).2
          ⟨rfl, rfl, rfl, rfl, ihb, Or.inr ⟨?_, ?_⟩⟩
        · show Rearranged false a (if _ then _ else _)
          split
          · exact Rearranged_MoveToLeft false _ a _ iha
          · exact Rearranged_MoveToRight false _ a _ iha
        · show Rearranged false c (if _ then _ else _)
          split
          · exact Rearranged_MoveToRight false _ c _ ihc
          · exact Rearranged_MoveToLeft false _ c _ ihc

theorem Rearranged_FlipRotate (t : Node) : Rearranged false t (FlipHorizontalHelperRotate t) := by
  cases t with
  | null => exact (Rearranged_null false _).2 rfl
  | node ul w h p a b c =>
    by_cases hl : (a.isNull && b.isNull && c.isNull) = true
    · obtain ⟨rfl, rfl, rfl⟩ := leafCond_true hl
      rw [FlipRotate_leaf ul w h p Node.null Node.null Node.null rfl]
      exact (Rearranged_node false ul w h p _ _ _ _).2 ⟨rfl, rfl, rfl, rfl,
        (Rearranged_null false _).2 rfl,
        Or.inl ⟨(Rearranged_null false _).2 rfl, (Rearranged_null false _).2 rfl⟩⟩
    · have hl0 : (a.isNull && b.isNull && c.isNull) = false := by simpa using hl
      by_cases hhw : h > w
      · rw [FlipRotate_tall _ _ _ _ _ _ _ hl0 hhw]
        exact (Rearranged_node false ul w h p _ _ _ _).2 ⟨rfl, rfl, rfl, rfl,
          Rearranged_Flip b, Or.inl ⟨Rearranged_Flip a, Rearranged_Flip c⟩⟩
      · rw [FlipRotate_wide _ _ _ _ _ _ _ hl0 hhw]
        refine (Rearranged_node false ul w h p _ _ _ _).2 ⟨rfl, rfl, rfl, rfl,
          Rearranged_Flip b, Or.inl ⟨?_, ?_⟩⟩
        · show Rearranged false a (if _ then _ else _)
          split
          · exact Rearranged_MoveToLeft false _ a _ (Rearranged_Flip a)
          · exact Rearranged_MoveToRight false _ a _ (Rearranged_Flip a)
        · show Rearranged false c (if _ then _ else _)
          split
          · exact Rearranged_MoveToRight false _ c _ (Rearranged_Flip c)
          · exact Rearranged_MoveToLeft false _ c _ (Rearranged_Flip c)

theorem Rearranged_leafCount (rot : Bool) (t : Node) :
    ∀ m, Rearranged rot t m → leafCount m = leafCount t := by
  induction t with
  | null => intro m h; rw [(Rearranged_null rot m).1 h]
  | node ul w h p a b c iha ihb ihc =>
    intro m hm
    obtain ⟨h1, -, -, -, h5, h6⟩ := (Rearranged_node rot ul w h p a b c m).1 hm
    cases m with
    | null => simp [Node.isNull] at h1
    | node ul2 w2 hh2 p2 a2 b2 c2 =>
      have nb : b2.isNull = b.isNull := Rearranged_isNull rot b b2 h5
      have lb : leafCount b2 = leafCount b := ihb b2 h5
      rcases h6 with ⟨k1, k2⟩ | ⟨k1, k2⟩
      · have na : a2.isNull = a.isNull := Rearranged_isNull rot a a2 k1
        have nc : c2.isNull = c.isNull := Rearranged_isNull rot c c2 k2
        have la : leafCount a2 = leafCount a := iha a2 k1
        have lc : leafCount c2 = leafCount c := ihc c2 k2
        rw [leafCount, leafCount, na, nb, nc, la, lb, lc]
      · have na : c2.isNull = a.isNull := Rearranged_isNull rot a c2 k1
        have nc : a2.isNull = c.isNull := Rearranged_isNull rot c a2 k2
        have la : leafCount c2 = leafCount a := iha c2 k1
        have lc : leafCount a2 = leafCount c := ihc a2 k2
        rw [leafCount, leafCount, na, nb, nc, la, lb, lc]
        cases a.isNull <;> cases b.isNull <;> cases c.isNull <;> simp <;> omega

theorem Rearranged_leaves (rot : Bool) (t m : Node) (h : Rearranged rot t m) :
    leaves m = leaves t := by
  rw [leaves_eq_leafCount, leaves_eq_leafCount, Rearranged_leafCount rot t m h]

/-- C20: `FlipHorizontal` and `RotateCCW` change only the origins of the nodes, their width and
height (`RotateCCW` exchanges them, `FlipHorizontal` leaves them) and the order of the slots `A`
and `C`: the result has the nodes of `t`, no node added and none removed, each with the average
colour it had, slot `B` staying slot `B`; and the number of leaves is unchanged.  This holds for
every tree `t` of the model, hence for every reachable one. -/
theorem Flip_Rotate_keep_nodes (t : Node) :
    Rearranged false t (FlipHorizontal t) ∧ Rearranged true t (RotateCCW t) ∧
    NumLeaves (FlipHorizontal t) = NumLeaves t ∧ NumLeaves (RotateCCW t) = NumLeaves t :=
  ⟨Rearranged_Flip t, Rearranged_Rotate t _ (Rearranged_FlipRotate t),
    Rearranged_leaves false t _ (Rearranged_Flip t),
    Rearranged_leaves true t _ (Rearranged_Rotate t _ (Rearranged_FlipRotate t))⟩

/-! ## The subtractions of `MoveToLeft` -/

theorem Good_subtreeAt (t : Node) (hg : Good t) :
    ∀ p : List Slot, Good (subtreeAt t p) ∧
      ((subtreeAt t p).isNull = false → t.upperleft.1 ≤ (subtreeAt t p).upperleft.1) := by
  intro p
  induction p generalizing t with
  | nil => exact ⟨hg, fun _ => Nat.le_refl _⟩
  | cons s p ih =>
    cases t with
    | null => rw [subtreeAt_null]; exact ⟨trivial, fun h => by simp [Node.isNull] at h⟩
    | node ul w h q a b c =>
      obtain ⟨g0, g1, g2, g3⟩ := (Good_node_iff _ _ _ _ _ _ _).1 hg
      rcases g3 with ⟨ha, hb0, hc⟩ | ⟨ha, hc, ga, gb, gc, ht⟩
      · obtain rfl := isNull_eq_true ha
        obtain rfl := isNull_eq_true hb0
        obtain rfl := isNull_eq_true hc
        have e : subtreeAt (Node.node ul w h q Node.null Node.null Node.null) (s :: p)
            = Node.null := by cases s <;> exact subtreeAt_null p
        rw [e]; exact ⟨trivial, fun h => by simp [Node.isNull] at h⟩
      · obtain ⟨ia, ib, ic⟩ := tiles_inside ht
        cases s
        · obtain ⟨k1, k2⟩ := ih a ga
          refine ⟨k1, fun hn => ?_⟩
          have := k2 hn
          show ul.1 ≤ (subtreeAt a p).upperleft.1
          omega
        · obtain ⟨k1, k2⟩ := ih b gb
          refine ⟨k1, fun hn => ?_⟩
          have hbn : b.isNull = false := by
            cases hq : b with
            | null =>
              have e : subtreeAt (Node.node ul w h q a b c) (Slot.B :: p) = Node.null := by
                rw [hq]; exact subtreeAt_null p
              rw [e] at hn; simp [Node.isNull] at hn
            | node _ _ _ _ _ _ _ => rfl
          have := k2 hn
          have := ib hbn
          show ul.1 ≤ (subtreeAt b p).upperleft.1
          omega
        · obtain ⟨k1, k2⟩ := ih c gc
          refine ⟨k1, fun hn => ?_⟩
          have := k2 hn
          show ul.1 ≤ (subtreeAt c p).upperleft.1
          omega

theorem MoveToLeft_subtreeAt (d : Nat) (t : Node) (p : List Slot) :
    subtreeAt (MoveToLeft d t) p = MoveToLeft d (subtreeAt t p) := by
  induction p generalizing t with
  | nil => rfl
  | cons s p ih =>
    cases t with
    | null =>
      have e : MoveToLeft d Node.null = Node.null := rfl
      rw [e, subtreeAt_null]; rfl
    | node ul w h q a b c =>
      rw [MoveToLeft_node]
      cases s
      · exact ih a
      · exact ih b
      · exact ih c

theorem final_call_safe {a c : Node} (ga : Good a) (gc : Good c) (ha : a.isNull = false)
    (hc : c.isNull = false) (e : Nat × Node)
    (he : e = if (FlipHorizontalHelper a).upperleft.1 > (FlipHorizontalHelper c).upperleft.1
      then (absDiff (FlipHorizontalHelper a).upperleft.1 (FlipHorizontalHelper c).upperleft.1,
        FlipHorizontalHelper a)
      else (absDiff (FlipHorizontalHelper a).upperleft.1 (FlipHorizontalHelper c).upperleft.1,
        FlipHorizontalHelper c)) :
    e.2.isNull = false ∧ Good e.2 ∧ e.1 ≤ e.2.upperleft.1 := by
  have fa := Flip_fields a
  have fc := Flip_fields c
  by_cases hgt : (FlipHorizontalHelper a).upperleft.1 > (FlipHorizontalHelper c).upperleft.1
  · rw [if_pos hgt] at he
    subst he
    refine ⟨by rw [fa.2.2.2.2]; exact ha, (Flip_spec a ga).1, ?_⟩
    show absDiff (FlipHorizontalHelper a).upperleft.1 (FlipHorizontalHelper c).upperleft.1
      ≤ (FlipHorizontalHelper a).upperleft.1
    unfold absDiff
    split <;> omega
  · rw [if_neg hgt] at he
    subst he
    refine ⟨by rw [fc.2.2.2.2]; exact hc, (Flip_spec c gc).1, ?_⟩
    show absDiff (FlipHorizontalHelper a).upperleft.1 (FlipHorizontalHelper c).upperleft.1
      ≤ (FlipHorizontalHelper c).upperleft.1
    unfold absDiff
    split <;> omega

theorem Flip_calls_safe (t : Node) :
    Good t → ∀ e ∈ FlipMoveToLeftCalls t,
      e.2.isNull = false ∧ Good e.2 ∧ e.1 ≤ e.2.upperleft.1 := by
  induction t with
  | null => intro _ e he; simp [FlipMoveToLeftCalls] at he
  | node ul w h p a b c iha ihb ihc =>
    intro hg e he
    obtain ⟨g0, g1, g2, g3⟩ := (Good_node_iff _ _ _ _ _ _ _).1 hg
    rcases g3 with ⟨ha, hb0, hc⟩ | ⟨ha, hc, ga, gb, gc, ht⟩
    · obtain rfl := isNull_eq_true ha
      obtain rfl := isNull_eq_true hb0
      obtain rfl := isNull_eq_true hc
      simp [FlipMoveToLeftCalls, Node.isNull] at he
    · have hl : ¬ (a.isNull && b.isNull && c.isNull) = true := by rw [ha]; simp
      rw [FlipMoveToLeftCalls, if_neg hl] at he
      by_cases hhw : h > w
      · rw [if_pos hhw] at he
        simp only [List.mem_append] at he
        rcases he with (he | he) | he
        · exact iha ga e he
        · exact ihb gb e he
        · exact ihc gc e he
      · rw [if_neg hhw] at he
        simp only [List.mem_append, List.mem_singleton] at he
        rcases he with ((he | he) | he) | he
        · exact iha ga e he
        · exact ihb gb e he
        · exact ihc gc e he
        · exact final_call_safe ga gc ha hc e he

theorem Rotate_calls_safe (t : Node) (hg : Good t) :
    ∀ e ∈ RotateMoveToLeftCalls t,
      e.2.isNull = false ∧ Good e.2 ∧ e.1 ≤ e.2.upperleft.1 := by
  cases t with
  | null => intro e he; simp [RotateMoveToLeftCalls] at he
  | node ul w h p a b c =>
    intro e he
    obtain ⟨g0, g1, g2, g3⟩ := (Good_node_iff _ _ _ _ _ _ _).1 hg
    rcases g3 with ⟨ha, hb0, hc⟩ | ⟨ha, hc, ga, gb, gc, ht⟩
    · obtain rfl := isNull_eq_true ha
      obtain rfl := isNull_eq_true hb0
      obtain rfl := isNull_eq_true hc
      simp [RotateMoveToLeftCalls, Node.isNull] at he
    · have hl : ¬ (a.isNull && b.isNull && c.isNull) = true := by rw [ha]; simp
      rw [RotateMoveToLeftCalls, if_neg hl] at he
      by_cases hhw : h > w
      · rw [if_pos hhw] at he
        simp only [List.mem_append] at he
        rcases he with (he | he) | he
        · exact Flip_calls_safe a ga e he
        · exact Flip_calls_safe b gb e he
        · exact Flip_calls_safe c gc e he
      · rw [if_neg hhw] at he
        simp only [List.mem_append, List.mem_singleton] at he
        rcases he with ((he | he) | he) | he
        · exact Flip_calls_safe a ga e he
        · exact Flip_calls_safe b gb e he
        · exact Flip_calls_safe c gc e he
        · exact final_call_safe ga gc ha hc e he

theorem safe_call_exact (e : Nat × Node)
    (hs : e.2.isNull = false ∧ Good e.2 ∧ e.1 ≤ e.2.upperleft.1)
    (p : List Slot) (hp : (subtreeAt e.2 p).isNull = false) :
    e.1 ≤ (subtreeAt e.2 p).upperleft.1 ∧ (subtreeAt e.2 p).upperleft.1 < 4294967296 ∧
    (subtreeAt (MoveToLeft e.1 e.2) p).isNull = false ∧
    (subtreeAt (MoveToLeft e.1 e.2) p).upperleft
      = ((subtreeAt e.2 p).upperleft.1 - e.1, (subtreeAt e.2 p).upperleft.2) := by
  obtain ⟨-, hg, hd⟩ := hs
  obtain ⟨gs, hx⟩ := Good_subtreeAt e.2 hg p
  have h1 := hx hp
  have hb := (Good_bound gs hp).1
  have hle : e.1 ≤ (subtreeAt e.2 p).upperleft.1 := by omega
  have hlt : (subtreeAt e.2 p).upperleft.1 < 4294967296 := by omega
  refine ⟨hle, hlt, ?_, ?_⟩
  · rw [MoveToLeft_subtreeAt, MoveToLeft_isNull]; exact hp
  · rw [MoveToLeft_subtreeAt]
    have hx2 := MoveToLeft_x e.1 (subtreeAt e.2 p) hp hle hlt
    have hy2 := (MoveToLeft_fields e.1 (subtreeAt e.2 p)).2.2.2
    exact Prod.ext hx2 hy2

/-- C19: for every reachable tree `t`, every call `MoveToLeft(n, x)` made during
`FlipHorizontal()` or `RotateCCW()` on `t` has `x <= m.upperleft.first` for `n` and for every
descendant `m` of `n` (the precondition written above `MoveToLeft` in the source), so that the
`unsigned int` update `upperleft.first += -x` does not wrap: after the call every such node has
the x coordinate `m.upperleft.first - x` and its y coordinate unchanged. -/
theorem MoveToLeft_never_wraps (dflt : RGBAPixel) (t : Node) (hr : Reachable dflt t) :
    ∀ e, (e ∈ FlipMoveToLeftCalls t ∨ e ∈ RotateMoveToLeftCalls t) →
      ∀ p : List Slot, (subtreeAt e.2 p).isNull = false →
        e.1 ≤ (subtreeAt e.2 p).upperleft.1 ∧ (subtreeAt e.2 p).upperleft.1 < 4294967296 ∧
        (subtreeAt (MoveToLeft e.1 e.2) p).isNull = false ∧
        (subtreeAt (MoveToLeft e.1 e.2) p).upperleft
          = ((subtreeAt e.2 p).upperleft.1 - e.1, (subtreeAt e.2 p).upperleft.2) := by
  intro e he p hp
  have hg : Good t := (Reachable_inv hr).1
  rcases he with he | he
  · exact safe_call_exact e (Flip_calls_safe t hg e he) p hp
  · exact safe_call_exact e (Rotate_calls_safe t hg e he) p hp

/-- Witness of C19: the tree of the 4x3 gradient image is reachable, and `FlipHorizontal()` on
it calls `MoveToLeft` four times. -/
theorem MoveToLeft_never_wraps_witness :
    Reachable examplePixel gradientTree ∧ (FlipMoveToLeftCalls gradientTree).length = 4 ∧
    ∀ e, (e ∈ FlipMoveToLeftCalls gradientTree ∨ e ∈ RotateMoveToLeftCalls gradientTree) →
      ∀ p : List Slot, (subtreeAt e.2 p).isNull = false →
        e.1 ≤ (subtreeAt e.2 p).upperleft.1 ∧ (subtreeAt e.2 p).upperleft.1 < 4294967296 ∧
        (subtreeAt (MoveToLeft e.1 e.2) p).isNull = false ∧
        (subtreeAt (MoveToLeft e.1 e.2) p).upperleft
          = ((subtreeAt e.2 p).upperleft.1 - e.1, (subtreeAt e.2 p).upperleft.2) :=
  ⟨Reachable_gradientTree, by decide,
    MoveToLeft_never_wraps examplePixel gradientTree Reachable_gradientTree⟩

/-! ## The leaves tile the canvas -/

theorem replay_append (img : PNG) (l1 l2 : List (Nat × Nat × RGBAPixel)) :
    replay img (l1 ++ l2) = replay (replay img l1) l2 := by
  unfold replay; exact List.foldl_append _ _ _ _

theorem paintRow_replay (avg : RGBAPixel) (x0 yy : Nat) (w : Nat) (img : PNG) :
    (List.range w).foldl (fun im x => im.setPixel (x0 + x) yy avg) img
      = replay img (rowWrites x0 yy avg w) := by
  induction w with
  | zero => rfl
  | succ n ih =>
    rw [List.range_succ, List.foldl_append, ih, rowWrites, replay_append]
    rfl

theorem paintRect_replay (avg : RGBAPixel) (ul : Nat × Nat) (w h : Nat) (img : PNG) :
    paintRect img ul w h avg = replay img (rectWrites ul w avg h) := by
  unfold paintRect
  induction h with
  | zero => rfl
  | succ n ih =>
    rw [List.range_succ, List.foldl_append, ih, rectWrites, replay_append]
    exact paintRow_replay avg ul.1 (ul.2 + n) w _

theorem renderWrites_node (ul : Nat × Nat) (w h : Nat) (p : RGBAPixel) (a b c : Node)
    (hl : ¬ (a.isNull && b.isNull && c.isNull) = true) :
    renderWrites (Node.node ul w h p a b c)
      = renderWrites a ++ renderWrites b ++ renderWrites c := by
  rw [renderWrites, if_neg hl]
  cases b with
  | null => rfl
  | node _ _ _ _ _ _ _ => rfl

theorem renderHelper_replay (t : Node) :
    ∀ img : PNG, renderHelper img t = replay img (renderWrites t) := by
  induction t with
  | null => intro img; rfl
  | node ul w h p a b c iha ihb ihc =>
    intro img
    by_cases hl : (a.isNull && b.isNull && c.isNull) = true
    · rw [renderHelper, if_pos hl, renderWrites, if_pos hl]
      exact paintRect_replay p ul w h img
    · rw [renderWrites_node ul w h p a b c hl, replay_append, replay_append, renderHelper,
        if_neg hl]
      cases hb : b.isNull with
      | true =>
        have e : b = Node.null := isNull_eq_true hb
        subst e
        simp only [if_true]
        rw [ihc, iha]
        rfl
      | false =>
        simp only [Bool.false_eq_true, if_false]
        rw [ihc, ihb, iha]

theorem writeCount_append (l1 l2 : List (Nat × Nat × RGBAPixel)) (x y : Nat) :
    writeCount (l1 ++ l2) x y = writeCount l1 x y + writeCount l2 x y := by
  unfold writeCount; exact List.countP_append _ _ _

theorem writeCount_row (p : RGBAPixel) (x0 yy w x y : Nat) :
    writeCount (rowWrites x0 yy p w) x y = if x0 ≤ x ∧ x < x0 + w ∧ y = yy then 1 else 0 := by
  induction w with
  | zero =>
    rw [if_neg (by omega)]; rfl
  | succ n ih =>
    rw [rowWrites, writeCount_append, ih]
    have e : writeCount [(x0 + n, yy, p)] x y = if x0 + n = x ∧ yy = y then 1 else 0 := by
      unfold writeCount
      rw [List.countP_cons, List.countP_nil]
      by_cases hc : x0 + n = x ∧ yy = y
      · simp [hc]
      · simp [hc]
    rw [e]
    split_ifs <;> omega

theorem writeCount_rect (p : RGBAPixel) (ul : Nat × Nat) (w h x y : Nat) :
    writeCount (rectWrites ul w p h) x y = if inRect ul w h x y then 1 else 0 := by
  induction h with
  | zero =>
    rw [if_neg (by unfold inRect; omega)]; rfl
  | succ n ih =>
    rw [rectWrites, writeCount_append, ih, writeCount_row]
    unfold inRect
    split_ifs <;> omega

theorem tiles_partition {ul : Nat × Nat} {w h : Nat} {a b c : Node}
    (pa : 1 ≤ a.width ∧ 1 ≤ a.height) (pc : 1 ≤ c.width ∧ 1 ≤ c.height)
    (ht : HTiles ul w h a b c ∨ VTiles ul w h a b c) (x y : Nat) :
    (if inRect a.upperleft a.width a.height x y then 1 else 0)
      + (if b.isNull = false ∧ inRect b.upperleft b.width b.height x y then 1 else 0)
      + (if inRect c.upperleft c.width c.height x y then 1 else 0)
      = if inRect ul w h x y then 1 else 0 := by
  by_cases hbn : b.isNull = false
  · rcases ht with ht | ht
    · obtain ⟨h1, h2, h3, h4, h5, h6, h7, h8, h9⟩ := ht
      obtain ⟨e1, e2⟩ := h8 hbn
      rw [e2]
      unfold inRect
      simp only [hbn, true_and]
      rcases h9 with h9 | h9 <;> split_ifs <;> omega
    · obtain ⟨h1, h2, h3, h4, h5, h6, h7, h8, h9⟩ := ht
      obtain ⟨e1, e2⟩ := h8 hbn
      rw [e2]
      unfold inRect
      simp only [hbn, true_and]
      rcases h9 with h9 | h9 <;> split_ifs <;> omega
  · have hb1 : b = Node.null := isNull_eq_true (by simpa using hbn)
    subst hb1
    have hw0 : Node.null.width = 0 := rfl
    have hh0 : Node.null.height = 0 := rfl
    have e0 : (if Node.null.isNull = false ∧
        inRect Node.null.upperleft Node.null.width Node.null.height x y then 1 else 0) = 0 :=
      if_neg (fun hc => hbn hc.1)
    rw [e0]
    rcases ht with ht | ht
    · obtain ⟨h1, h2, h3, h4, h5, h6, h7, h8, h9⟩ := ht
      rw [hw0] at h7 h9
      unfold inRect
      rcases h9 with h9 | h9 <;> split_ifs <;> omega
    · obtain ⟨h1, h2, h3, h4, h5, h6, h7, h8, h9⟩ := ht
      rw [hh0] at h7 h9
      unfold inRect
      rcases h9 with h9 | h9 <;> split_ifs <;> omega

theorem Good_writeCount (t : Node) :
    Good t → ∀ x y, writeCount (renderWrites t) x y
      = if t.isNull = false ∧ inRect t.upperleft t.width t.height x y then 1 else 0 := by
  induction t with
  | null => intro _ x y; rw [if_neg (by simp [Node.isNull])]; rfl
  | node ul w h p a b c iha ihb ihc =>
    intro hg x y
    obtain ⟨g0, g1, g2, g3⟩ := (Good_node_iff _ _ _ _ _ _ _).1 hg
    rcases g3 with ⟨ha, hb0, hc⟩ | ⟨ha, hc, ga, gb, gc, ht⟩
    · have hl : (a.isNull && b.isNull && c.isNull) = true := by rw [ha, hb0, hc]; rfl
      have e : ((Node.node ul w h p a b c).isNull = false ∧
          inRect (Node.node ul w h p a b c).upperleft (Node.node ul w h p a b c).width
            (Node.node ul w h p a b c).height x y) ↔ inRect ul w h x y :=
        ⟨fun k => k.2, fun k => ⟨rfl, k⟩⟩
      rw [renderWrites, if_pos hl, writeCount_rect]
      simp only [e]
    · have hl : ¬ (a.isNull && b.isNull && c.isNull) = true := by rw [ha]; simp
      rw [renderWrites_node ul w h p a b c hl, writeCount_append, writeCount_append,
        iha ga, ihb gb, ihc gc]
      have e := tiles_partition (Good_pos ga ha) (Good_pos gc hc) ht x y
      have e2 : ((Node.node ul w h p a b c).isNull = false ∧
          inRect (Node.node ul w h p a b c).upperleft (Node.node ul w h p a b c).width
            (Node.node ul w h p a b c).height x y) ↔ inRect ul w h x y :=
        ⟨fun k => k.2, fun k => ⟨rfl, k⟩⟩
      simp only [ha, hc, true_and, e2]
      exact e

theorem writeCount_leafRects (t : Node) (x y : Nat) :
    writeCount (renderWrites t) x y
      = (leafRects t).countP (fun r => decide (inRect r.1 r.2.1 r.2.2 x y)) := by
  induction t with
  | null => rfl
  | node ul w h p a b c iha ihb ihc =>
    by_cases hl : (a.isNull && b.isNull && c.isNull) = true
    · rw [renderWrites, if_pos hl, leafRects, if_pos hl, writeCount_rect, List.countP_cons,
        List.countP_nil]
      by_cases hc : inRect ul w h x y
      · simp [hc]
      · simp [hc]
    · rw [renderWrites_node ul w h p a b c hl, leafRects, if_neg hl, writeCount_append,
        writeCount_append, List.countP_append, List.countP_append, iha, ihb, ihc]

theorem countP_le_one_pairwise (l : List ((Nat × Nat) × Nat × Nat))
    (h : ∀ x y, l.countP (fun r => decide (inRect r.1 r.2.1 r.2.2 x y)) ≤ 1) :
    l.Pairwise RectsDisjoint := by
  induction l with
  | nil => exact List.Pairwise.nil
  | cons r l ih =>
    refine List.Pairwise.cons (fun s hs x y hxy => ?_) (ih (fun x y => ?_))
    · have h1 := h x y
      rw [List.countP_cons, if_pos (by simpa using hxy.1)] at h1
      have h2 : 0 < l.countP (fun r => decide (inRect r.1 r.2.1 r.2.2 x y)) :=
        List.countP_pos_iff.2 ⟨s, hs, by simpa using hxy.2⟩
      omega
    · have h1 := h x y
      rw [List.countP_cons] at h1
      omega

/-- C14: in every reachable tree `t` the rectangles of the leaves are pairwise disjoint and their
union is the rectangle of width `root.width` and height `root.height` at the origin; hence
`renderHelper`, whose result is the canvas after the assignments of `renderWrites`, assigns
every pixel of the canvas exactly once and addresses no coordinate outside the canvas. -/
theorem leaves_tile_canvas (dflt : RGBAPixel) (t : Node) (hr : Reachable dflt t) :
    (leafRects t).Pairwise RectsDisjoint ∧
    (∀ x y, (∃ r ∈ leafRects t, inRect r.1 r.2.1 r.2.2 x y)
      ↔ (x < t.width ∧ y < t.height)) ∧
    (∀ img : PNG, renderHelper img t = replay img (renderWrites t)) ∧
    (∀ x y, writeCount (renderWrites t) x y = if x < t.width ∧ y < t.height then 1 else 0) ∧
    (∀ e ∈ renderWrites t, e.1 < t.width ∧ e.2.1 < t.height) := by
  obtain ⟨hg, hn, hu⟩ := Reachable_inv hr
  have hcount : ∀ x y, writeCount (renderWrites t) x y
      = if x < t.width ∧ y < t.height then 1 else 0 := by
    intro x y
    rw [Good_writeCount t hg x y, hu]
    unfold inRect
    by_cases hc : x < t.width ∧ y < t.height
    · rw [if_pos hc, if_pos ⟨hn, by simp only; omega⟩]
    · rw [if_neg hc, if_neg (fun hc2 => hc (by have := hc2.2; simp only at this; omega))]
  refine ⟨countP_le_one_pairwise _ (fun x y => ?_), fun x y => ?_,
    renderHelper_replay t, hcount, fun e he => ?_⟩
  · rw [← writeCount_leafRects, hcount]
    split <;> omega
  · have h1 := hcount x y
    rw [writeCount_leafRects] at h1
    constructor
    · rintro ⟨r, hr1, hr2⟩
      have h2 : 0 < (leafRects t).countP (fun r => decide (inRect r.1 r.2.1 r.2.2 x y)) :=
        List.countP_pos_iff.2 ⟨r, hr1, by simpa using hr2⟩
      by_contra hc
      rw [if_neg hc] at h1
      omega
    · intro hc
      rw [if_pos hc] at h1
      have h2 : 0 < (leafRects t).countP (fun r => decide (inRect r.1 r.2.1 r.2.2 x y)) := by
        omega
      obtain ⟨r, hr1, hr2⟩ := List.countP_pos_iff.1 h2
      exact ⟨r, hr1, by simpa using hr2⟩
  · have h1 := hcount e.1 e.2.1
    have h2 : 0 < writeCount (renderWrites t) e.1 e.2.1 :=
      List.countP_pos_iff.2 ⟨e, he, by simp⟩
    by_contra hc
    rw [if_neg hc] at h1
    omega

/-- Witness of C14: the tree of the 4x3 gradient image, pruned with tolerance 1 and rotated, is
reachable. -/
theorem leaves_tile_canvas_witness :
    Reachable examplePixel mixedTree ∧
    ((leafRects mixedTree).Pairwise RectsDisjoint ∧
    (∀ x y, (∃ r ∈ leafRects mixedTree, inRect r.1 r.2.1 r.2.2 x y)
      ↔ (x < mixedTree.width ∧ y < mixedTree.height)) ∧
    (∀ img : PNG, renderHelper img mixedTree = replay img (renderWrites mixedTree)) ∧
    (∀ x y, writeCount (renderWrites mixedTree) x y
      = if x < mixedTree.width ∧ y < mixedTree.height then 1 else 0) ∧
    (∀ e ∈ renderWrites mixedTree, e.1 < mixedTree.width ∧ e.2.1 < mixedTree.height)) :=
  ⟨Reachable_mixedTree, leaves_tile_canvas examplePixel mixedTree Reachable_mixedTree⟩

/-! ## Slot order after a rotation -/

/-- C15: the claim fails for the 4x1 image (here with the grey values 20, 0, 20, 20).  After
`RotateCCW()` the root has `A` above `C`, but the node in its slot `B`, which has children, has
its `A` child at `(0, 2)` and its `C` child at `(0, 1)`: `A` is the lower child, against the
documentation of the slots in `Node`.  `FlipHorizontalHelperRotate` leaves out the exchange of
`A` and `C` at the root only; below the root `FlipHorizontalHelper` exchanges the slots of a wide
node and `RotateCCWHelper` exchanges them again. -/
theorem RotateCCW_slot_order_fails :
    TripleTree examplePixel (greyRow [20, 0, 20, 20]) = some greyTree ∧
    (RotateCCW greyTree).isLeaf = false ∧
    (RotateCCW greyTree).A.upperleft = (0, 0) ∧ (RotateCCW greyTree).C.upperleft = (0, 3) ∧
    (RotateCCW greyTree).B.isNull = false ∧ (RotateCCW greyTree).B.isLeaf = false ∧
    (RotateCCW greyTree).B.A.upperleft = (0, 2) ∧ (RotateCCW greyTree).B.C.upperleft = (0, 1) ∧
    ¬ ((RotateCCW greyTree).B.A.upperleft.2 ≤ (RotateCCW greyTree).B.C.upperleft.2) :=
  ⟨rfl, by decide, by decide, by decide, by decide, by decide, by decide, by decide, by decide⟩

/-! ## Uniform images -/

theorem wmean2_same (pa pc v : Nat) (h : 0 < pa + pc) : wmean2 pa v pc v = v := by
  unfold wmean2
  rw [← Nat.add_mul]
  exact Nat.mul_div_cancel_left v h

theorem wmean3_same (pa pb pc v : Nat) (h : 0 < pa + pb + pc) : wmean3 pa v pb v pc v = v := by
  unfold wmean3
  rw [← Nat.add_mul, ← Nat.add_mul]
  exact Nat.mul_div_cancel_left v h

/-- Below the 32-bit bound, every node of the tree of a rectangle of one colour `c` stores the
red, green and blue channels of `c`. -/
theorem Built_uniform {im : PNG} {ul : Nat × Nat} {w h : Nat} {t : Node}
    (hb : Built im ul w h t) (c : RGBAPixel) (hc : c.InRange)
    {ch : RGBAPixel → Nat} (hch : IsChannel ch)
    (hu : ∀ x y, inRect ul w h x y → im.pixel x y = c)
    (hfit : w * h * 255 < 2147483648) : ch t.avg = ch c := by
  have hv : ch c ≤ 255 := IsChannel_le hch hc
  induction hb with
  | leaf x y =>
    show ch (im.pixel x y) = ch c
    rw [hu x y ⟨Nat.le_refl _, by simp, Nat.le_refl _, by simp⟩]
  | wide2 x y h a c2 hh ha hc2 iha ihc =>
    have pa := Built_pos ha
    have ea : area a = 1 * h := Built_area ha
    have ec : area c2 = 1 * h := Built_area hc2
    have va := iha (fun x1 y1 hr => hu x1 y1 (by unfold inRect at *; simp only at *; omega))
      (by omega)
    have vc := ihc (fun x1 y1 hr => hu x1 y1 (by unfold inRect at *; simp only at *; omega))
      (by omega)
    have hfa : (area a + area c2) * 255 < 2147483648 := by rw [ea, ec]; omega
    show ch (FindAverage2 a c2) = ch c
    rw [IsChannel_FindAverage2 hch,
      FindAverage2_channel ch a c2 (by rw [va]; exact hv) (by rw [vc]; exact hv) hfa, va, vc]
    exact wmean2_same _ _ _ (by rw [ea]; omega)
  | wide3 x y w h sa sb a b c2 hw hh hs ha hb hc2 iha ihb ihc =>
    obtain ⟨-, s1, s2, rfl⟩ := split3_spec hw hs
    have pa := Built_pos ha
    have ea : area a = sa * h := Built_area ha
    have eb : area b = sb * h := Built_area hb
    have ec : area c2 = sa * h := Built_area hc2
    have hsum : (sa + sb + sa) * h = sa * h + sb * h + sa * h := by ring
    have va := iha (fun x1 y1 hr => hu x1 y1 (by unfold inRect at *; simp only at *; omega))
      (by omega)
    have vb := ihb (fun x1 y1 hr => hu x1 y1 (by unfold inRect at *; simp only at *; omega))
      (by omega)
    have vc := ihc (fun x1 y1 hr => hu x1 y1 (by unfold inRect at *; simp only at *; omega))
      (by omega)
    have hfa : (area a + area b + area c2) * 255 < 2147483648 := by rw [ea, eb, ec]; omega
    have hpos : 0 < sa * h := Nat.mul_pos (by omega) (by omega)
    show ch (FindAverage3 a b c2) = ch c
    rw [IsChannel_FindAverage3 hch,
      FindAverage3_channel ch a b c2 (by rw [va]; exact hv) (by rw [vb]; exact hv)
        (by rw [vc]; exact hv) hfa, va, vb, vc]
    exact wmean3_same _ _ _ _ (by rw [ea]; omega)
  | tall2 x y w a c2 hw ha hc2 iha ihc =>
    have pa := Built_pos ha
    have ea : area a = w * 1 := Built_area ha
    have ec : area c2 = w * 1 := Built_area hc2
    have va := iha (fun x1 y1 hr => hu x1 y1 (by unfold inRect at *; simp only at *; omega))
      (by omega)
    have vc := ihc (fun x1 y1 hr => hu x1 y1 (by unfold inRect at *; simp only at *; omega))
      (by omega)
    have hfa : (area a + area c2) * 255 < 2147483648 := by rw [ea, ec]; omega
    show ch (FindAverage2 a c2) = ch c
    rw [IsChannel_FindAverage2 hch,
      FindAverage2_channel ch a c2 (by rw [va]; exact hv) (by rw [vc]; exact hv) hfa, va, vc]
    exact wmean2_same _ _ _ (by rw [ea]; omega)
  | tall3 x y w h sa sb a b c2 hh hw hs ha hb hc2 iha ihb ihc =>
    obtain ⟨-, s1, s2, rfl⟩ := split3_spec hh hs
    have pa := Built_pos ha
    have ea : area a = w * sa := Built_area ha
    have eb : area b = w * sb := Built_area hb
    have ec : area c2 = w * sa := Built_area hc2
    have hsum : w * (sa + sb + sa) = w * sa + w * sb + w * sa := by ring
    have va := iha (fun x1 y1 hr => hu x1 y1 (by unfold inRect at *; simp only at *; omega))
      (by omega)
    have vb := ihb (fun x1 y1 hr => hu x1 y1 (by unfold inRect at *; simp only at *; omega))
      (by omega)
    have vc := ihc (fun x1 y1 hr => hu x1 y1 (by unfold inRect at *; simp only at *; omega))
      (by omega)
    have hfa : (area a + area b + area c2) * 255 < 2147483648 := by rw [ea, eb, ec]; omega
    have hpos : 0 < w * sa := Nat.mul_pos (by omega) (by omega)
    show ch (FindAverage3 a b c2) = ch c
    rw [IsChannel_FindAverage3 hch,
      FindAverage3_channel ch a b c2 (by rw [va]; exact hv) (by rw [vb]; exact hv)
        (by rw [vc]; exact hv) hfa, va, vb, vc]
    exact wmean3_same _ _ _ _ (by rw [ea]; omega)

theorem leafAvgs_node (ul : Nat × Nat) (w h : Nat) (p : RGBAPixel) (a b c : Node)
    (ha : a.isNull = false) :
    leafAvgs (Node.node ul w h p a b c) = leafAvgs a ++ leafAvgs b ++ leafAvgs c := by
  rw [leafAvgs, if_neg (by rw [ha]; simp)]

/-- The leaves of the tree of a rectangle store pixels of the rectangle, and there is at least
one leaf. -/
theorem Built_leafAvgs {im : PNG} {ul : Nat × Nat} {w h : Nat} {t : Node}
    (hb : Built im ul w h t) :
    leafAvgs t ≠ [] ∧
      ∀ q ∈ leafAvgs t, ∃ x y, inRect ul w h x y ∧ q = im.pixel x y := by
  induction hb with
  | leaf x y =>
    refine ⟨by simp [leafAvgs, Node.isNull], fun q hq => ?_⟩
    have e : q = im.getPixel x y := by simpa [leafAvgs, Node.isNull] using hq
    exact ⟨x, y, ⟨Nat.le_refl _, by simp, Nat.le_refl _, by simp⟩, e⟩
  | wide2 x y h a c hh ha hc iha ihc =>
    rw [leafAvgs_node _ _ _ _ _ _ _ (Built_isNull ha)]
    refine ⟨by simp [iha.1], fun q hq => ?_⟩
    simp only [List.mem_append] at hq
    rcases hq with (hq | hq) | hq
    · obtain ⟨x1, y1, hr, e⟩ := iha.2 q hq
      exact ⟨x1, y1, by unfold inRect at *; simp only at *; omega, e⟩
    · simp [leafAvgs] at hq
    · obtain ⟨x1, y1, hr, e⟩ := ihc.2 q hq
      exact ⟨x1, y1, by unfold inRect at *; simp only at *; omega, e⟩
  | wide3 x y w h sa sb a b c hw hh hs ha hb hc iha ihb ihc =>
    obtain ⟨-, s1, s2, rfl⟩ := split3_spec hw hs
    rw [leafAvgs_node _ _ _ _ _ _ _ (Built_isNull ha)]
    refine ⟨by simp [iha.1], fun q hq => ?_⟩
    simp only [List.mem_append] at hq
    rcases hq with (hq | hq) | hq
    · obtain ⟨x1, y1, hr, e⟩ := iha.2 q hq
      exact ⟨x1, y1, by unfold inRect at *; simp only at *; omega, e⟩
    · obtain ⟨x1, y1, hr, e⟩ := ihb.2 q hq
      exact ⟨x1, y1, by unfold inRect at *; simp only at *; omega, e⟩
    · obtain ⟨x1, y1, hr, e⟩ := ihc.2 q hq
      exact ⟨x1, y1, by unfold inRect at *; simp only at *; omega, e⟩
  | tall2 x y w a c hw ha hc iha ihc =>
    rw [leafAvgs_node _ _ _ _ _ _ _ (Built_isNull ha)]
    refine ⟨by simp [iha.1], fun q hq => ?_⟩
    simp only [List.mem_append] at hq
    rcases hq with (hq | hq) | hq
    · obtain ⟨x1, y1, hr, e⟩ := iha.2 q hq
      exact ⟨x1, y1, by unfold inRect at *; simp only at *; omega, e⟩
    · simp [leafAvgs] at hq
    · obtain ⟨x1, y1, hr, e⟩ := ihc.2 q hq
      exact ⟨x1, y1, by unfold inRect at *; simp only at *; omega, e⟩
  | tall3 x y w h sa sb a b c hh hw hs ha hb hc iha ihb ihc =>
    obtain ⟨-, s1, s2, rfl⟩ := split3_spec hh hs
    rw [leafAvgs_node _ _ _ _ _ _ _ (Built_isNull ha)]
    refine ⟨by simp [iha.1], fun q hq => ?_⟩
    simp only [List.mem_append] at hq
    rcases hq with (hq | hq) | hq
    · obtain ⟨x1, y1, hr, e⟩ := iha.2 q hq
      exact ⟨x1, y1, by unfold inRect at *; simp only at *; omega, e⟩
    · obtain ⟨x1, y1, hr, e⟩ := ihb.2 q hq
      exact ⟨x1, y1, by unfold inRect at *; simp only at *; omega, e⟩
    · obtain ⟨x1, y1, hr, e⟩ := ihc.2 q hq
      exact ⟨x1, y1, by unfold inRect at *; simp only at *; omega, e⟩

theorem PruneHelper_leaves_one {D : Type} [LinearOrder D] (dist : RGBAPixel → RGBAPixel → D)
    (tol : D) (t : Node) (hn : t.isNull = false) (hq : Qualifies dist tol t) :
    leaves (PruneHelper dist t tol) = 1 := by
  have hnull : (PruneHelper dist t tol).isNull = false := by
    rw [PruneHelper_isNull]; exact hn
  have hleaf : (PruneHelper dist t tol).isLeaf = true := by
    by_cases hl : t.isLeaf = true
    · rw [PruneHelper_leaf dist tol t hl]; exact hl
    · have hl0 : t.isLeaf = false := by simpa using hl
      exact (PruneHelper_isLeaf_iff dist tol t hl0 hn).2 hq
  exact leaves_leaf _ hleaf hnull

/-- Below the 32-bit bound the tree of an image of one colour `c` stores the red, green and blue
channels of `c` in every node, and `Prune` leaves one leaf for every distance that does not
separate colours with the same red, green and blue channels. -/
theorem uniform_image_in_range {D : Type} [LinearOrder D] (dist : RGBAPixel → RGBAPixel → D)
    (tol : D) (dflt : RGBAPixel) (w h : Nat) (c : RGBAPixel) (hw : 1 ≤ w) (hh : 1 ≤ h)
    (hc : c.InRange) (hfit : w * h * 255 < 2147483648)
    (hd : ∀ p q : RGBAPixel, p.r = q.r → p.g = q.g → p.b = q.b → dist p q ≤ tol) :
    ∃ t, TripleTree dflt (uniformImage w h c) = some t ∧
      (∀ p : List Slot, (subtreeAt t p).isNull = false →
        (subtreeAt t p).avg.r = c.r ∧ (subtreeAt t p).avg.g = c.g ∧
        (subtreeAt t p).avg.b = c.b) ∧
      NumLeaves (Prune dist t tol) = 1 := by
  obtain ⟨t, ht, hb⟩ := TripleTree_built dflt (uniformImage w h c) hw hh
  have hb1 : Built (uniformImage w h c) (0, 0) w h t := hb
  have hu : ∀ (ul : Nat × Nat) (w1 h1 x y : Nat), inRect ul w1 h1 x y →
      (uniformImage w h c).pixel x y = c := fun _ _ _ _ _ _ => rfl
  have hall : ∀ {ul1 : Nat × Nat} {w1 h1 : Nat} {n : Node},
      Built (uniformImage w h c) ul1 w1 h1 n → w1 * h1 * 255 < 2147483648 →
      n.avg.r = c.r ∧ n.avg.g = c.g ∧ n.avg.b = c.b := fun hn hf =>
    ⟨Built_uniform hn c hc (Or.inl rfl) (hu _ _ _) hf,
      Built_uniform hn c hc (Or.inr (Or.inl rfl)) (hu _ _ _) hf,
      Built_uniform hn c hc (Or.inr (Or.inr rfl)) (hu _ _ _) hf⟩
  refine ⟨t, ht, fun p hp => ?_, ?_⟩
  · obtain ⟨ul1, w1, h1, hb2, i1, i2, i3, i4⟩ := Built_subtreeAt hb1 p hp
    have hle : w1 * h1 ≤ w * h :=
      Nat.mul_le_mul (by simp only at *; omega) (by simp only at *; omega)
    exact hall hb2 (by omega)
  · refine PruneHelper_leaves_one dist tol t (Built_isNull hb1) (fun q hq => ?_)
    obtain ⟨x, y, -, e⟩ := (Built_leafAvgs hb1).2 q hq
    have e2 : q = c := e
    obtain ⟨r1, r2, r3⟩ := hall hb1 hfit
    rw [e2]
    exact hd c t.avg r1.symm r2.symm r3.symm

/-! ## A uniform image beyond the 32-bit bound -/

theorem Built_wide3_inv {im : PNG} {x y w h : Nat} {t : Node}
    (hb : Built im (x, y) w h t) (hw : 3 ≤ w) (hh : h ≤ w) :
    ∃ sa sb a b c, split3 w = (sa, sb, sa) ∧
      t = Node.node (x, y) w h (FindAverage3 a b c) a b c ∧
      Built im (x, y) sa h a ∧ Built im (x + sa, y) sb h b ∧
      Built im (x + sa + sb, y) sa h c := by
  cases hb with
  | leaf => omega
  | wide2 _ _ _ a c hh2 ha hc => omega
  | wide3 _ _ _ _ sa sb a b c hw2 hh2 hs ha hb hc =>
    exact ⟨sa, sb, a, b, c, hs, rfl, ha, hb, hc⟩
  | tall2 _ _ _ a c hw2 ha hc => omega
  | tall3 _ _ _ _ sa sb a b c hh2 hw2 hs ha hb hc => omega

/-- The 3-way blend of three nodes of 2807168, 2807169 and 2807168 pixels that store 255 in a
channel: the sum 2147483775 of the products wraps to -2147483521, the quotient by 8421505 is
-254, and the clamp stores 0. -/
theorem overflow_blend (ch : RGBAPixel → Nat) (a b c : Node)
    (wa : a.width = 2807168) (ha : a.height = 1) (wb : b.width = 2807169) (hb : b.height = 1)
    (wc : c.width = 2807168) (hc : c.height = 1)
    (va : ch a.avg = 255) (vb : ch b.avg = 255) (vc : ch c.avg = 255) :
    clampChannel (raw3 ch a b c) = 0 := by
  unfold raw3 total3 pixels
  rw [wa, ha, wb, hb, wc, hc, va, vb, vc]
  decide

/-- C12: the claim fails for the white image of width 8421505 and height 1, all of whose pixels
are (255, 255, 255): the root of its tree stores (0, 0, 0), and `Prune(0)` with the red-channel
distance, for which a colour is at distance 0 of itself, leaves 3 leaves.  The `int` sum of the
products `pixels * channel` in `FindAverage` exceeds `2 ^ 31 - 1` as soon as an image has
8421505 pixels of channel value 255. -/
theorem uniform_image_overflow (dflt : RGBAPixel) :
    (1 ≤ whiteRow.width ∧ 1 ≤ whiteRow.height) ∧
    (∀ x y, whiteRow.pixel x y = examplePixel) ∧
    (examplePixel.r = 255 ∧ examplePixel.g = 255 ∧ examplePixel.b = 255) ∧
    redDist examplePixel examplePixel = 0 ∧
    ∃ t, TripleTree dflt whiteRow = some t ∧
      t.avg.r = 0 ∧ t.avg.g = 0 ∧ t.avg.b = 0 ∧ NumLeaves (Prune redDist t 0) = 3 := by
  refine ⟨by decide, fun _ _ => rfl, ⟨rfl, rfl, rfl⟩, by decide, ?_⟩
  obtain ⟨t, ht, hb⟩ := TripleTree_built dflt whiteRow (by decide) (by decide)
  have hb1 : Built whiteRow (0, 0) 8421505 1 t := hb
  obtain ⟨sa, sb, a, b, c, hs, rfl, ha, hb2, hc⟩ := Built_wide3_inv hb1 (by omega) (by omega)
  have e : split3 8421505 = (2807168, 2807169, 2807168) := by decide
  rw [e] at hs
  have e1 : sa = 2807168 := (congrArg Prod.fst hs).symm
  have e2 : sb = 2807169 := (congrArg (fun q : Nat × Nat × Nat => q.2.1) hs).symm
  subst e1; subst e2
  have hin : examplePixel.InRange := by decide
  have hu : ∀ (ul : Nat × Nat) (w1 h1 x y : Nat), inRect ul w1 h1 x y →
      whiteRow.pixel x y = examplePixel := fun _ _ _ _ _ _ => rfl
  have hall : ∀ (ch : RGBAPixel → Nat), IsChannel ch → ch examplePixel = 255 →
      ch (FindAverage3 a b c) = 0 := by
    intro ch hch hv
    rw [IsChannel_FindAverage3 hch]
    exact overflow_blend ch a b c (Built_fields ha).2.1 (Built_fields ha).2.2
      (Built_fields hb2).2.1 (Built_fields hb2).2.2 (Built_fields hc).2.1 (Built_fields hc).2.2
      ((Built_uniform ha examplePixel hin hch (hu _ _ _) (by omega)).trans hv)
      ((Built_uniform hb2 examplePixel hin hch (hu _ _ _) (by omega)).trans hv)
      ((Built_uniform hc examplePixel hin hch (hu _ _ _) (by omega)).trans hv)
  have hr0 : (FindAverage3 a b c).r = 0 := hall RGBAPixel.r (Or.inl rfl) rfl
  refine ⟨_, ht, hr0, hall RGBAPixel.g (Or.inr (Or.inl rfl)) rfl,
    hall RGBAPixel.b (Or.inr (Or.inr rfl)) rfl, ?_⟩
  have hl : (Node.node (0, 0) 8421505 1 (FindAverage3 a b c) a b c).isLeaf = false := by
    simp [Node.isLeaf, Built_isNull ha]
  have hnq : ¬ Qualifies redDist 0 (Node.node (0, 0) 8421505 1 (FindAverage3 a b c) a b c) := by
    intro hq
    obtain ⟨hne, hpix⟩ := Built_leafAvgs hb1
    obtain ⟨q, hq1⟩ := List.exists_mem_of_ne_nil _ hne
    obtain ⟨x, y, -, eq⟩ := hpix q hq1
    have eq2 : q = examplePixel := eq
    have h1 := hq q hq1
    rw [eq2] at h1
    have h2 : redDist examplePixel (FindAverage3 a b c) = 255 := by
      unfold redDist; rw [hr0]; decide
    have h3 : redDist examplePixel (FindAverage3 a b c) ≤ 0 := h1
    omega
  have hchild : ∀ {ul1 : Nat × Nat} {w1 : Nat} {k : Node}, Built whiteRow ul1 w1 1 k →
      w1 * 1 * 255 < 2147483648 → leaves (PruneHelper redDist k 0) = 1 := by
    intro ul1 w1 k hk hf
    refine PruneHelper_leaves_one redDist 0 k (Built_isNull hk) (fun q hq1 => ?_)
    obtain ⟨x, y, -, eq⟩ := (Built_leafAvgs hk).2 q hq1
    have eq2 : q = examplePixel := eq
    have hkr : k.avg.r = 255 := Built_uniform hk examplePixel hin (Or.inl rfl) (hu _ _ _) hf
    rw [eq2]
    show redDist examplePixel k.avg ≤ 0
    unfold redDist; rw [hkr]; decide
  rw [NumLeaves, Prune, PruneHelper_rec redDist 0 _ _ _ _ a b c hl hnq,
    leaves_node3 _ _ _ _ _ _ _ (by rw [PruneHelper_isNull]; exact Built_isNull ha)
      (by rw [PruneHelper_isNull]; exact Built_isNull hb2),
    hchild ha (by omega), hchild hb2 (by omega), hchild hc (by omega)]
  decide

/-! ## Release of the nodes -/

theorem clearHelper_leaf (fuel : Nat) (p : List Slot) (ul : Nat × Nat) (w h : Nat)
    (avg : RGBAPixel) :
    clearHelper (fuel + 1) p (Node.node ul w h avg Node.null Node.null Node.null) = some [p] := by
  simp [clearHelper, Node.isNull]

theorem levels_pos {t : Node} (hn : t.isNull = false) : 1 ≤ levels t := by
  cases t with
  | null => simp [Node.isNull] at hn
  | node _ _ _ _ _ _ _ => rw [levels]; omega

theorem wellShaped_node {ul : Nat × Nat} {w h : Nat} {q : RGBAPixel} {a b c : Node}
    (hws : wellShaped (Node.node ul w h q a b c) = true)
    (hl : ¬ (a.isNull && b.isNull && c.isNull) = true) :
    a.isNull = false ∧ c.isNull = false ∧ wellShaped a = true ∧ wellShaped b = true ∧
      wellShaped c = true := by
  rw [wellShaped] at hws
  simp only [Bool.or_eq_true, Bool.and_eq_true, Bool.not_eq_true'] at hws
  rcases hws with h1 | h1
  · exact absurd (by simp [h1.1.1, h1.1.2, h1.2]) hl
  · exact ⟨h1.1.1.1.1, h1.1.1.1.2, h1.1.1.2, h1.1.2, h1.2⟩

theorem clearHelper_eq (t : Node) :
    wellShaped t = true → t.isNull = false →
      ∀ (fuel : Nat) (p : List Slot), levels t ≤ fuel →
      clearHelper fuel p t = some (releaseOrder p t) := by
  induction t with
  | null => intro _ hn; simp [Node.isNull] at hn
  | node ul w h q a b c iha ihb ihc =>
    intro hws _ fuel p hf
    rw [levels] at hf
    obtain ⟨f, rfl⟩ : ∃ f, fuel = f + 1 := ⟨fuel - 1, by omega⟩
    by_cases hl : (a.isNull && b.isNull && c.isNull) = true
    · obtain ⟨rfl, rfl, rfl⟩ := leafCond_true hl
      rw [clearHelper_leaf]
      rfl
    · obtain ⟨ha, hc, wa, wb, wc⟩ := wellShaped_node hws hl
      have la := levels_pos ha
      obtain ⟨g, rfl⟩ : ∃ g, f = g + 1 := ⟨f - 1, by omega⟩
      have ea := iha wa ha (g + 1) (p ++ [Slot.A]) (by omega)
      have ec := ihc wc hc (g + 1) (p ++ [Slot.C]) (by omega)
      rw [clearHelper, if_neg hl]
      cases hb : b.isNull with
      | true =>
        obtain rfl := isNull_eq_true hb
        simp [ea, ec, hb, clearHelper_leaf, releaseOrder]
      | false =>
        have eb := ihb wb hb (g + 1) (p ++ [Slot.B]) (by omega)
        simp [ea, eb, ec, hb, clearHelper_leaf, releaseOrder]

theorem releaseOrder_mem (t : Node) :
    ∀ (p q : List Slot), q ∈ releaseOrder p t ↔
      ∃ r, q = p ++ r ∧ (subtreeAt t r).isNull = false := by
  induction t with
  | null =>
    intro p q
    simp [releaseOrder, subtreeAt_null, Node.isNull]
  | node ul w h avg a b c iha ihb ihc =>
    intro p q
    rw [releaseOrder]
    simp only [List.mem_append, List.mem_singleton, iha, ihb, ihc]
    constructor
    · rintro (((⟨r, e, hr⟩ | ⟨r, e, hr⟩) | ⟨r, e, hr⟩) | e)
      · exact ⟨Slot.A :: r, by rw [e, List.append_assoc]; rfl, hr⟩
      · exact ⟨Slot.B :: r, by rw [e, List.append_assoc]; rfl, hr⟩
      · exact ⟨Slot.C :: r, by rw [e, List.append_assoc]; rfl, hr⟩
      · exact ⟨[], by rw [e, List.append_nil], rfl⟩
    · rintro ⟨r, e, hr⟩
      cases r with
      | nil => right; rw [e, List.append_nil]
      | cons s r =>
        left
        cases s
        · left; left; exact ⟨r, by rw [e, List.append_assoc]; rfl, hr⟩
        · left; right; exact ⟨r, by rw [e, List.append_assoc]; rfl, hr⟩
        · right; exact ⟨r, by rw [e, List.append_assoc]; rfl, hr⟩

theorem releaseOrder_nodup (t : Node) : ∀ p : List Slot, (releaseOrder p t).Nodup := by
  induction t with
  | null => intro p; exact List.nodup_nil
  | node ul w h avg a b c iha ihb ihc =>
    intro p
    rw [releaseOrder]
    refine List.nodup_append.2 ⟨List.nodup_append.2 ⟨List.nodup_append.2
      ⟨iha _, ihb _, ?_⟩, ihc _, ?_⟩, List.nodup_singleton p, ?_⟩
    · intro q h1 h2
      obtain ⟨r1, e1, -⟩ := (releaseOrder_mem a _ q).1 h1
      obtain ⟨r2, e2, -⟩ := (releaseOrder_mem b _ q).1 h2
      rw [e1] at e2
      simp [List.append_assoc] at e2
    · intro q h1 h2
      obtain ⟨r2, e2, -⟩ := (releaseOrder_mem c _ q).1 h2
      rcases List.mem_append.1 h1 with h1 | h1
      · obtain ⟨r1, e1, -⟩ := (releaseOrder_mem a _ q).1 h1
        rw [e1] at e2
        simp [List.append_assoc] at e2
      · obtain ⟨r1, e1, -⟩ := (releaseOrder_mem b _ q).1 h1
        rw [e1] at e2
        simp [List.append_assoc] at e2
    · intro q h1 h2
      have e2 : q = p := List.mem_singleton.1 h2
      rcases List.mem_append.1 h1 with h1 | h1
      · rcases List.mem_append.1 h1 with h1 | h1
        · obtain ⟨r1, e1, -⟩ := (releaseOrder_mem a _ q).1 h1
          rw [e1] at e2
          simp [List.append_assoc] at e2
        · obtain ⟨r1, e1, -⟩ := (releaseOrder_mem b _ q).1 h1
          rw [e1] at e2
          simp [List.append_assoc] at e2
      · obtain ⟨r1, e1, -⟩ := (releaseOrder_mem c _ q).1 h1
        rw [e1] at e2
        simp [List.append_assoc] at e2

theorem releaseOrder_last (t : Node) (hn : t.isNull = false) (p : List Slot) :
    [p].Sublist (releaseOrder p t) := by
  cases t with
  | null => simp [Node.isNull] at hn
  | node ul w h avg a b c =>
    rw [releaseOrder]
    exact List.sublist_append_right _ _

theorem releaseOrder_child (t : Node) (p : List Slot) (s : Slot)
    (hs : (t.child s).isNull = false) :
    [p ++ [s], p].Sublist (releaseOrder p t) ∧
      (releaseOrder (p ++ [s]) (t.child s)).Sublist (releaseOrder p t) := by
  cases t with
  | null => cases s <;> simp [Node.child, Node.A, Node.B, Node.C, Node.isNull] at hs
  | node ul w h avg a b c =>
    rw [releaseOrder]
    have key : ∀ l : List (List Slot), [p ++ [s]].Sublist l →
        [p ++ [s], p].Sublist (l ++ [p]) :=
      fun l hl => List.Sublist.append hl (List.Sublist.refl [p])
    cases s
    · have h1 : (releaseOrder (p ++ [Slot.A]) a).Sublist
          (releaseOrder (p ++ [Slot.A]) a ++ releaseOrder (p ++ [Slot.B]) b
            ++ releaseOrder (p ++ [Slot.C]) c) :=
        (List.sublist_append_left _ _).trans (List.sublist_append_left _ _)
      exact ⟨key _ ((releaseOrder_last a hs _).trans h1),
        h1.trans (List.sublist_append_left _ _)⟩
    · have h1 : (releaseOrder (p ++ [Slot.B]) b).Sublist
          (releaseOrder (p ++ [Slot.A]) a ++ releaseOrder (p ++ [Slot.B]) b
            ++ releaseOrder (p ++ [Slot.C]) c) :=
        (List.sublist_append_right _ _).trans (List.sublist_append_left _ _)
      exact ⟨key _ ((releaseOrder_last b hs _).trans h1),
        h1.trans (List.sublist_append_left _ _)⟩
    · have h1 : (releaseOrder (p ++ [Slot.C]) c).Sublist
          (releaseOrder (p ++ [Slot.A]) a ++ releaseOrder (p ++ [Slot.B]) b
            ++ releaseOrder (p ++ [Slot.C]) c) :=
        List.sublist_append_right _ _
      exact ⟨key _ ((releaseOrder_last c hs _).trans h1),
        h1.trans (List.sublist_append_left _ _)⟩

theorem releaseOrder_order (s : Slot) (r : List Slot) :
    ∀ (t : Node) (p : List Slot), (subtreeAt t (r ++ [s])).isNull = false →
      [p ++ r ++ [s], p ++ r].Sublist (releaseOrder p t) := by
  induction r with
  | nil =>
    intro t p hs
    rw [List.append_nil]
    exact (releaseOrder_child t p s hs).1
  | cons s2 r ih =>
    intro t p hs
    have hk : (t.child s2).isNull = false := by
      cases hq : t.child s2 with
      | null =>
        have e : subtreeAt t (s2 :: r ++ [s]) = subtreeAt (t.child s2) (r ++ [s]) := rfl
        rw [e, hq, subtreeAt_null] at hs
        simp [Node.isNull] at hs
      | node _ _ _ _ _ _ _ => rfl
    have h1 := ih (t.child s2) (p ++ [s2]) hs
    have e1 : p ++ [s2] ++ r = p ++ s2 :: r := by rw [List.append_assoc]; rfl
    rw [e1] at h1
    exact h1.trans (releaseOrder_child t p s2 hk).2

/-- C21: with deletion modelled as a log of released nodes (each node named by its path from
the root of the subtree), for every non-empty subtree in which each node has either no children
or both `A` and `C`, `clearHelper` terminates: for every recursion bound of at least the number
of levels of the subtree it returns the same log; the trailing call on a node whose child slots
have been set to null takes the leaf branch and releases that node only; the log holds every
node of the subtree exactly once, each child before its parent; and after `Clear` the root is
null. -/
theorem clearHelper_releases_once (t : Node) (hws : wellShaped t = true)
    (hn : t.isNull = false) :
    ∃ log : List (List Slot),
      (∀ fuel, levels t ≤ fuel → clearHelper fuel [] t = some log) ∧
      (∀ (fuel : Nat) (p : List Slot) (ul : Nat × Nat) (w h : Nat) (avg : RGBAPixel),
        clearHelper (fuel + 1) p (Node.node ul w h avg Node.null Node.null Node.null)
          = some [p]) ∧
      log.Nodup ∧
      (∀ q : List Slot, q ∈ log ↔ (subtreeAt t q).isNull = false) ∧
      (∀ (q : List Slot) (s : Slot), (subtreeAt t (q ++ [s])).isNull = false →
        [q ++ [s], q].Sublist log) ∧
      (∀ fuel, levels t ≤ fuel → Clear fuel t = some (Node.null, log)) := by
  refine ⟨releaseOrder [] t, fun fuel hf => clearHelper_eq t hws hn fuel [] hf,
    clearHelper_leaf, releaseOrder_nodup t [], fun q => ?_, fun q s hs => ?_, fun fuel hf => ?_⟩
  · rw [releaseOrder_mem]
    constructor
    · rintro ⟨r, e, hr⟩
      rw [e]; exact hr
    · intro hq
      exact ⟨q, rfl, hq⟩
  · exact releaseOrder_order s q t [] hs
  · rw [Clear, clearHelper_eq t hws hn fuel [] hf]
    rfl

/-- Witness of C21: the tree of the grey 4x1 image 20, 0, 20, 20, which has six nodes. -/
theorem clearHelper_releases_once_witness :
    (wellShaped greyTree = true ∧ greyTree.isNull = false) ∧
    ∃ log : List (List Slot),
      (∀ fuel, levels greyTree ≤ fuel → clearHelper fuel [] greyTree = some log) ∧
      (∀ (fuel : Nat) (p : List Slot) (ul : Nat × Nat) (w h : Nat) (avg : RGBAPixel),
        clearHelper (fuel + 1) p (Node.node ul w h avg Node.null Node.null Node.null)
          = some [p]) ∧
      log.Nodup ∧
      (∀ q : List Slot, q ∈ log ↔ (subtreeAt greyTree q).isNull = false) ∧
      (∀ (q : List Slot) (s : Slot), (subtreeAt greyTree (q ++ [s])).isNull = false →
        [q ++ [s], q].Sublist log) ∧
      (∀ fuel, levels greyTree ≤ fuel → Clear fuel greyTree = some (Node.null, log)) :=
  ⟨by decide, clearHelper_releases_once greyTree (by decide) (by decide)⟩

/-! ## Pruning stays within the tolerance -/

theorem redDist_self (c : RGBAPixel) : redDist c c = 0 := by
  simp [redDist, absDiff]

theorem Qualifies_mono {D : Type} [LinearOrder D] (dist : RGBAPixel → RGBAPixel → D)
    {tol1 tol2 : D} (h12 : tol1 ≤ tol2) (n : Node) (h : Qualifies dist tol1 n) :
    Qualifies dist tol2 n :=
  fun p hp => le_trans (h p hp) h12

theorem leafCount_internal (ul : Nat × Nat) (w h : Nat) (p : RGBAPixel) (a b c : Node)
    (hl : ¬ (a.isNull && b.isNull && c.isNull) = true) :
    leafCount (Node.node ul w h p a b c) = leafCount a + leafCount b + leafCount c := by
  rw [leafCount, if_neg hl]
  cases hb : b.isNull with
  | true =>
    obtain rfl := isNull_eq_true hb
    simp [leafCount]
  | false => simp

theorem leafCount_pos (t : Node) : t.isNull = false → 1 ≤ leafCount t := by
  induction t with
  | null => intro hn; simp [Node.isNull] at hn
  | node ul w h p a b c iha ihb ihc =>
    intro _
    by_cases hl : (a.isNull && b.isNull && c.isNull) = true
    · rw [leafCount, if_pos hl]
    · rw [leafCount_internal ul w h p a b c hl]
      cases ha : a.isNull with
      | false => have := iha ha; omega
      | true =>
        cases hb : b.isNull with
        | false => have := ihb hb; omega
        | true =>
          cases hc : c.isNull with
          | false => have := ihc hc; omega
          | true => rw [ha, hb, hc] at hl; simp at hl

theorem PruneHelper_leafCond {D : Type} [LinearOrder D] (dist : RGBAPixel → RGBAPixel → D)
    (tol : D) (a b c : Node) (hl : ¬ (a.isNull && b.isNull && c.isNull) = true) :
    ¬ ((PruneHelper dist a tol).isNull && (PruneHelper dist b tol).isNull
      && (PruneHelper dist c tol).isNull) = true := by
  rw [PruneHelper_isNull, PruneHelper_isNull, PruneHelper_isNull]; exact hl

theorem leafCount_PruneHelper_le {D : Type} [LinearOrder D] (dist : RGBAPixel → RGBAPixel → D)
    (tol : D) (t : Node) : leafCount (PruneHelper dist t tol) ≤ leafCount t := by
  induction t with
  | null => exact Nat.le_refl _
  | node ul w h p a b c iha ihb ihc =>
    by_cases hl : (Node.node ul w h p a b c).isLeaf = true
    · rw [PruneHelper_leaf dist tol _ hl]
    · have hl0 : (Node.node ul w h p a b c).isLeaf = false := by simpa using hl
      have hl1 : ¬ (a.isNull && b.isNull && c.isNull) = true := by
        simpa [Node.isLeaf] using hl
      by_cases hq : Qualifies dist tol (Node.node ul w h p a b c)
      · rw [PruneHelper_collapse dist tol ul w h p a b c hl0 hq]
        have h1 : leafCount (Node.node ul w h p Node.null Node.null Node.null) = 1 := by
          simp [leafCount, Node.isNull]
        rw [h1]
        exact leafCount_pos _ rfl
      · rw [PruneHelper_rec dist tol ul w h p a b c hl0 hq,
          leafCount_internal _ _ _ _ _ _ _ (PruneHelper_leafCond dist tol a b c hl1),
          leafCount_internal _ _ _ _ _ _ _ hl1]
        omega

theorem leafCount_PruneHelper_mono {D : Type} [LinearOrder D] (dist : RGBAPixel → RGBAPixel → D)
    {tol1 tol2 : D} (h12 : tol1 ≤ tol2) (t : Node) :
    leafCount (PruneHelper dist t tol2) ≤ leafCount (PruneHelper dist t tol1) := by
  induction t with
  | null => exact Nat.le_refl _
  | node ul w h p a b c iha ihb ihc =>
    by_cases hl : (Node.node ul w h p a b c).isLeaf = true
    · rw [PruneHelper_leaf dist tol1 _ hl, PruneHelper_leaf dist tol2 _ hl]
    · have hl0 : (Node.node ul w h p a b c).isLeaf = false := by simpa using hl
      have hl1 : ¬ (a.isNull && b.isNull && c.isNull) = true := by
        simpa [Node.isLeaf] using hl
      by_cases hq2 : Qualifies dist tol2 (Node.node ul w h p a b c)
      · rw [PruneHelper_collapse dist tol2 ul w h p a b c hl0 hq2]
        have h1 : leafCount (Node.node ul w h p Node.null Node.null Node.null) = 1 := by
          simp [leafCount, Node.isNull]
        rw [h1]
        exact leafCount_pos _ (by rw [PruneHelper_isNull]; rfl)
      · have hq1 : ¬ Qualifies dist tol1 (Node.node ul w h p a b c) :=
          fun hc => hq2 (Qualifies_mono dist h12 _ hc)
        rw [PruneHelper_rec dist tol1 ul w h p a b c hl0 hq1,
          PruneHelper_rec dist tol2 ul w h p a b c hl0 hq2,
          leafCount_internal _ _ _ _ _ _ _ (PruneHelper_leafCond dist tol1 a b c hl1),
          leafCount_internal _ _ _ _ _ _ _ (PruneHelper_leafCond dist tol2 a b c hl1)]
        omega

theorem CollapsedAt_child {D : Type} [LinearOrder D] (dist : RGBAPixel → RGBAPixel → D)
    (tol : D) (ul : Nat × Nat) (w h : Nat) (p : RGBAPixel) (a b c : Node)
    (hl : (Node.node ul w h p a b c).isLeaf = false)
    (hq : ¬ Qualifies dist tol (Node.node ul w h p a b c)) (s : Slot) (r : List Slot) :
    CollapsedAt dist tol (Node.node ul w h p a b c) (s :: r)
      ↔ CollapsedAt dist tol ((Node.node ul w h p a b c).child s) r := by
  unfold CollapsedAt Prune
  rw [PruneHelper_rec dist tol ul w h p a b c hl hq]
  cases s <;> exact Iff.rfl

theorem CollapsedAt_mono {D : Type} [LinearOrder D] (dist : RGBAPixel → RGBAPixel → D)
    {tol1 tol2 : D} (h12 : tol1 ≤ tol2) (t : Node) :
    ∀ p, CollapsedAt dist tol1 t p → ∃ q r, p = q ++ r ∧ CollapsedAt dist tol2 t q := by
  induction t with
  | null =>
    intro p hp
    have h1 := hp.1
    rw [subtreeAt_null] at h1
    simp [Node.isNull] at h1
  | node ul w h avg a b c iha ihb ihc =>
    intro p hp
    by_cases hl : (Node.node ul w h avg a b c).isLeaf = true
    · cases p with
      | nil =>
        have h2 := hp.2.1
        rw [show subtreeAt (Node.node ul w h avg a b c) [] = Node.node ul w h avg a b c from rfl,
          hl] at h2
        simp at h2
      | cons s r =>
        have h1 := hp.1
        rw [subtreeAt_leaf _ hl (s :: r) (by simp)] at h1
        simp [Node.isNull] at h1
    · have hl0 : (Node.node ul w h avg a b c).isLeaf = false := by simpa using hl
      have hl1 : ¬ (a.isNull && b.isNull && c.isNull) = true := by
        simpa [Node.isLeaf] using hl
      by_cases hq2 : Qualifies dist tol2 (Node.node ul w h avg a b c)
      · refine ⟨[], p, rfl, rfl, hl0, ?_, ?_⟩
        · show (PruneHelper dist (Node.node ul w h avg a b c) tol2).isNull = false
          rw [PruneHelper_isNull]; rfl
        · show (PruneHelper dist (Node.node ul w h avg a b c) tol2).isLeaf = true
          rw [PruneHelper_collapse dist tol2 ul w h avg a b c hl0 hq2]; rfl
      · have hq1 : ¬ Qualifies dist tol1 (Node.node ul w h avg a b c) :=
          fun hc => hq2 (Qualifies_mono dist h12 _ hc)
        cases p with
        | nil =>
          have h4 : (PruneHelper dist (Node.node ul w h avg a b c) tol1).isLeaf = true := hp.2.2.2
          rw [PruneHelper_rec dist tol1 ul w h avg a b c hl0 hq1] at h4
          exact absurd h4 (PruneHelper_leafCond dist tol1 a b c hl1)
        | cons s r =>
          have hc := (CollapsedAt_child dist tol1 ul w h avg a b c hl0 hq1 s r).1 hp
          have back : ∀ q2, CollapsedAt dist tol2 ((Node.node ul w h avg a b c).child s) q2 →
              CollapsedAt dist tol2 (Node.node ul w h avg a b c) (s :: q2) := fun q2 =>
            (CollapsedAt_child dist tol2 ul w h avg a b c hl0 hq2 s q2).2
          cases s
          · obtain ⟨q2, r2, e, hc2⟩ := iha r hc
            exact ⟨Slot.A :: q2, r2, by rw [e]; rfl, back q2 hc2⟩
          · obtain ⟨q2, r2, e, hc2⟩ := ihb r hc
            exact ⟨Slot.B :: q2, r2, by rw [e]; rfl, back q2 hc2⟩
          · obtain ⟨q2, r2, e, hc2⟩ := ihc r hc
            exact ⟨Slot.C :: q2, r2, by rw [e]; rfl, back q2 hc2⟩

theorem clampChannel_le (v : Int) : clampChannel v ≤ 255 := by
  unfold clampChannel
  split
  · omega
  · split
    · omega
    · omega

theorem Built_wellShaped {im : PNG} {ul : Nat × Nat} {w h : Nat} {t : Node}
    (hb : Built im ul w h t) : wellShaped t = true := by
  induction hb with
  | leaf x y => simp [wellShaped, Node.isNull]
  | wide2 x y h a c hh ha hc iha ihc =>
    simp [wellShaped, Built_isNull ha, Built_isNull hc, iha, ihc]
  | wide3 x y w h sa sb a b c hw hh hs ha hb hc iha ihb ihc =>
    simp [wellShaped, Built_isNull ha, Built_isNull hc, iha, ihb, ihc]
  | tall2 x y w a c hw ha hc iha ihc =>
    simp [wellShaped, Built_isNull ha, Built_isNull hc, iha, ihc]
  | tall3 x y w h sa sb a b c hh hw hs ha hb hc iha ihb ihc =>
    simp [wellShaped, Built_isNull ha, Built_isNull hc, iha, ihb, ihc]

theorem leafCount_Prune_le {D : Type} [LinearOrder D] (dist : RGBAPixel → RGBAPixel → D)
    (tol : D) (t : Node) (h : leafCount t < 2147483648) :
    leafCount (Prune dist t tol) < 2147483648 :=
  Nat.lt_of_le_of_lt (leafCount_PruneHelper_le dist tol t) h

/-- C23, as stated, fails: the tree `t` of the white image of width 65536 and height 32768 has
`2 ^ 31` leaves, so that `NumLeaves(t)` is -2147483648, while `Prune(t, 255)` with the
red-channel distance collapses the root (every leaf is within 255 of any stored average) and
has 1 leaf: with `tol1 = tol2 = 255`, `NumLeaves(Prune(t, tol1)) <= NumLeaves(t)` is false. -/
theorem Prune_monotone_counterexample :
    (1 ≤ hugeImage.width ∧ 1 ≤ hugeImage.height ∧ (255 : Nat) ≤ 255) ∧
    ∃ t, TripleTree examplePixel hugeImage = some t ∧ wellShaped t = true ∧
      leafCount t = 2147483648 ∧ NumLeaves t = -2147483648 ∧
      NumLeaves (Prune redDist t 255) = 1 ∧
      ¬ (NumLeaves (Prune redDist t 255) ≤ NumLeaves t) := by
  refine ⟨by decide, ?_⟩
  obtain ⟨t, ht, hb⟩ := TripleTree_built examplePixel hugeImage (by decide) (by decide)
  have hb1 : Built hugeImage (0, 0) 65536 32768 t := hb
  have hn : NumLeaves t = -2147483648 := by
    rw [NumLeaves, Built_leaves hb1]
    decide
  have hq : Qualifies redDist 255 t := by
    intro q hq1
    obtain ⟨x, y, -, e⟩ := (Built_leafAvgs hb1).2 q hq1
    have e2 : q = examplePixel := e
    have hr : t.avg.r ≤ 255 := by
      obtain ⟨sa, sb, a, b, c, -, rfl, -, -, -⟩ := Built_wide3_inv hb1 (by omega) (by omega)
      show (FindAverage3 a b c).r ≤ 255
      rw [(FindAverage3_rgb a b c).1]
      exact clampChannel_le _
    rw [e2]
    show absDiff 255 t.avg.r ≤ 255
    unfold absDiff
    split <;> omega
  have h1 : NumLeaves (Prune redDist t 255) = 1 :=
    PruneHelper_leaves_one redDist 255 t (Built_isNull hb1) hq
  refine ⟨t, ht, Built_wellShaped hb1, ?_, hn, h1, ?_⟩
  · rw [Built_leafCount hb1]
  · rw [h1, hn]
    decide

/-- C23, amended: for every tree `t` of the data model and tolerances `tol1 <= tol2`, if `t` has
fewer than `2 ^ 31` leaves then
`NumLeaves(Prune(t, tol2)) <= NumLeaves(Prune(t, tol1)) <= NumLeaves(t)`; and, whatever the
number of leaves, every node that `Prune(tol1)` collapses is collapsed by `Prune(tol2)` too or
lies under a node that `Prune(tol2)` collapses: its path `p` has a prefix `q` (possibly `p`
itself) at which `Prune(tol2)` collapses a node. -/
theorem Prune_monotone {D : Type} [LinearOrder D] (dist : RGBAPixel → RGBAPixel → D)
    (tol1 tol2 : D) (t : Node) (hws : wellShaped t = true) (h12 : tol1 ≤ tol2) :
    (leafCount t < 2147483648 →
      NumLeaves (Prune dist t tol2) ≤ NumLeaves (Prune dist t tol1) ∧
      NumLeaves (Prune dist t tol1) ≤ NumLeaves t) ∧
    (∀ p, CollapsedAt dist tol1 t p → ∃ q r, p = q ++ r ∧ CollapsedAt dist tol2 t q) ∧
    wellShaped (Prune dist t tol1) = true ∧ wellShaped (Prune dist t tol2) = true := by
  refine ⟨fun hlt => ?_, CollapsedAt_mono dist h12 t, PruneHelper_wellShaped dist tol1 t hws,
    PruneHelper_wellShaped dist tol2 t hws⟩
  have e0 : NumLeaves t = ((leafCount t : Nat) : Int) := leaves_of_lt t hlt
  have e1 : NumLeaves (Prune dist t tol1) = ((leafCount (Prune dist t tol1) : Nat) : Int) :=
    leaves_of_lt _ (leafCount_Prune_le dist tol1 t hlt)
  have e2 : NumLeaves (Prune dist t tol2) = ((leafCount (Prune dist t tol2) : Nat) : Int) :=
    leaves_of_lt _ (leafCount_Prune_le dist tol2 t hlt)
  have m1 : leafCount (Prune dist t tol2) ≤ leafCount (Prune dist t tol1) :=
    leafCount_PruneHelper_mono dist h12 t
  have m2 : leafCount (Prune dist t tol1) ≤ leafCount t := leafCount_PruneHelper_le dist tol1 t
  rw [e0, e1, e2]
  exact ⟨by exact_mod_cast m1, by exact_mod_cast m2⟩

/-- Witness of the amended C23: the tree of the grey 4x1 image 20, 0, 20, 20, which has 4
leaves, with the red-channel distance and the tolerances 10 and 15. -/
theorem Prune_monotone_witness :
    (wellShaped greyTree = true ∧ 10 ≤ 15 ∧ leafCount greyTree < 2147483648) ∧
    ((leafCount greyTree < 2147483648 →
      NumLeaves (Prune redDist greyTree 15) ≤ NumLeaves (Prune redDist greyTree 10) ∧
      NumLeaves (Prune redDist greyTree 10) ≤ NumLeaves greyTree) ∧
    (∀ p, CollapsedAt redDist 10 greyTree p →
      ∃ q r, p = q ++ r ∧ CollapsedAt redDist 15 greyTree q) ∧
    wellShaped (Prune redDist greyTree 10) = true ∧
    wellShaped (Prune redDist greyTree 15) = true) :=
  ⟨by decide, Prune_monotone redDist 10 15 greyTree (by decide) (by decide)⟩

/-! ## Pruning twice -/

theorem redDist_comm (p q : RGBAPixel) : redDist p q = redDist q p := by
  unfold redDist absDiff
  split <;> split <;> omega

/-- C24: `Prune` is not idempotent.  For the grey 4x1 image with the channel values 20, 0, 20,
20, the tolerance 10 and the absolute difference of the (red) channel values, a distance that is
symmetric and 0 between a colour and itself, the pruned tree has 3 leaves and pruning it again
leaves 1.  The first `Prune` collapses the node in slot `B` of the root (leaves 0 and 20, stored
average 10) and not the root (stored average 15): the leaf 0 is at distance 15 of the root
average, the average 10 that stands for it afterwards is at distance 5. -/
theorem Prune_not_idempotent :
    (1 ≤ (greyRow [20, 0, 20, 20]).width ∧ 1 ≤ (greyRow [20, 0, 20, 20]).height) ∧
    TripleTree examplePixel (greyRow [20, 0, 20, 20]) = some greyTree ∧
    (∀ p q : RGBAPixel, redDist p q = redDist q p) ∧ (∀ p : RGBAPixel, redDist p p = 0) ∧
    NumLeaves (Prune redDist greyTree 10) = 3 ∧
    NumLeaves (Prune redDist (Prune redDist greyTree 10) 10) = 1 ∧
    NumLeaves (Prune redDist (Prune redDist greyTree 10) 10)
      < NumLeaves (Prune redDist greyTree 10) ∧
    CollapsedAt redDist 10 greyTree [Slot.B] ∧ ¬ CollapsedAt redDist 10 greyTree [] ∧
    CollapsedAt redDist 10 (Prune redDist greyTree 10) [] ∧
    (greyTree.avg.r = 15 ∧ greyTree.B.avg.r = 10 ∧ greyTree.B.A.avg.r = 0) ∧
    redDist greyTree.B.avg greyTree.avg ≤ 10 ∧
    ¬ redDist greyTree.B.A.avg greyTree.avg ≤ 10 :=
  ⟨by decide, rfl, redDist_comm, redDist_self, by decide, by decide, by decide,
    by unfold CollapsedAt; decide, by unfold CollapsedAt; decide, by unfold CollapsedAt; decide,
    by decide, by decide, by decide⟩

end TripleTreeImage
